import Mathlib

/-!
# Icy Tower: the per-frame simulation of `game.js`

A shallow embedding of the simulation loop of `src/game.js` (classes `Game`,
`Player`, `Platform`) and theorems about it.

Conventions of the embedding.

* The file holds two readings of the arithmetic of the source.  The first models
  JavaScript numbers by exact rationals `ℚ` (`0.6` is `3/5`, `0.4` is `2/5`).  The second
  (section "IEEE 754 double arithmetic", names ending in `F`) rounds every `+`, `-`, `*`
  and `/` to the nearest double, as the code does, and is the one used wherever the
  rounding decides a comparison of the code: the landing and overlap tests, the bound of
  the extension loop and the loss test.  The score, which the code only ever assigns `0`
  or a `Math.floor` result, is an integer.
* Objects mutated in place (`this.player`, `this.platforms`, ...) become
  values passed through the functions.
* `Math.random()` is a stream `rand : ℕ → ℚ`; the `i`-th call of one method
  invocation reads `rand i`.
* Rendering (`render`, the `color` fields, DOM text updates) is not modelled, nor is
  `lastTime`, which `animate` keeps only to compute the `deltaTime` that `update` ignores;
  the canvas size is the pair of fields `canvasWidth`, `canvasHeight` and `localStorage`
  is the field `storedHighScore`.
* A call that does not return a state (a method call on the `null` player, the extension
  loop on an empty platform list) is a `Fault`; in doubles, where the loop may fail to
  exit for other inputs too, the loop takes a fuel and `none` says it is still running.
-/

namespace IcyTower

/-! ## CONFIG (game.js lines 2-14) -/

def GRAVITY : ℚ := 3 / 5
def JUMP_FORCE : ℚ := -15
def MOVE_SPEED : ℚ := 6
def MAX_FALL_SPEED : ℚ := 20
def PLATFORM_WIDTH : ℚ := 100
def PLATFORM_HEIGHT : ℚ := 15
def PLATFORM_GAP : ℚ := 80
def PLAYER_WIDTH : ℚ := 30
def PLAYER_HEIGHT : ℚ := 40
def CAMERA_OFFSET : ℚ := 2 / 5

/-! ## Platform (lines 327-336) and Player (lines 247-303) -/

/-- Class `Platform`: the constructor stores its five arguments. -/
structure Platform where
  x : ℚ
  y : ℚ
  width : ℚ
  height : ℚ
  isGround : Bool := false
  deriving DecidableEq, Repr

/-- Class `Player`, without the render-only `color`. -/
structure Player where
  x : ℚ
  y : ℚ
  width : ℚ
  height : ℚ
  velocityX : ℚ
  velocityY : ℚ
  isOnGround : Bool
  deriving DecidableEq, Repr

/-- The constructor `new Player(x, y)` (lines 248-257). -/
def Player.new (x y : ℚ) : Player :=
  { x := x, y := y, width := PLAYER_WIDTH, height := PLAYER_HEIGHT,
    velocityX := 0, velocityY := 0, isOnGround := false }

/-- Method `checkCollision(platform)` (lines 291-296): strict overlap of the two rectangles. -/
def Player.checkCollision (pl : Player) (platform : Platform) : Bool :=
  decide (pl.x < platform.x + platform.width) &&
  decide (pl.x + pl.width > platform.x) &&
  decide (pl.y < platform.y + platform.height) &&
  decide (pl.y + pl.height > platform.y)

/-- Lines 260-269 of `update`: horizontal movement followed by the screen wrap. -/
def Player.moveHorizontal (pl : Player) (moveX canvasWidth : ℚ) : Player :=
  let pl := { pl with velocityX := moveX }
  let pl := { pl with x := pl.x + pl.velocityX }
  if pl.x < -pl.width / 2 then
    { pl with x := canvasWidth - pl.width / 2 }
  else if pl.x > canvasWidth - pl.width / 2 then
    { pl with x := -pl.width / 2 }
  else
    pl

/-- Lines 271-276 of `update`: gravity, the fall-speed clamp and the vertical move. -/
def Player.applyGravity (pl : Player) : Player :=
  let pl := { pl with velocityY := pl.velocityY + GRAVITY }
  let pl := if pl.velocityY > MAX_FALL_SPEED then { pl with velocityY := MAX_FALL_SPEED } else pl
  { pl with y := pl.y + pl.velocityY }

/-- The landing test of line 282, read on the current (already mutated) player. -/
def Player.landsOn (pl : Player) (platform : Platform) : Bool :=
  decide (pl.velocityY > 0) && decide (pl.y + pl.height - pl.velocityY ≤ platform.y + 5)

/-- The body of the `for` loop of lines 280-288 for one platform. -/
def Player.collideStep (pl : Player) (platform : Platform) : Player :=
  if pl.checkCollision platform then
    if pl.landsOn platform then
      { pl with y := platform.y - pl.height, velocityY := 0, isOnGround := true }
    else
      pl
  else
    pl

/-- Lines 278-288 of `update`: clear the grounded flag, then visit the platforms in array order. -/
def Player.resolveCollisions (pl : Player) (platforms : List Platform) : Player :=
  platforms.foldl Player.collideStep { pl with isOnGround := false }

/-- Method `update(moveX, platforms, canvasWidth)` (lines 259-289). -/
def Player.update (pl : Player) (moveX : ℚ) (platforms : List Platform) (canvasWidth : ℚ) :
    Player :=
  ((pl.moveHorizontal moveX canvasWidth).applyGravity).resolveCollisions platforms

/-- Method `jump()` (lines 298-303). -/
def Player.jump (pl : Player) : Player :=
  if pl.isOnGround then
    { pl with velocityY := JUMP_FORCE, isOnGround := false }
  else
    pl

/-! ## Game (lines 17-244) -/

/-- The values of `this.gameState`. -/
inductive GameState where
  | start
  | playing
  | gameOver
  deriving DecidableEq, Repr

/-- The entries of `this.keys` that `update` reads (lines 143 and 146). -/
structure Keys where
  arrowLeft : Bool := false
  a : Bool := false
  upperA : Bool := false
  arrowRight : Bool := false
  d : Bool := false
  upperD : Bool := false
  deriving DecidableEq, Repr

/-- The object `this.touchControls` (line 29). -/
structure TouchControls where
  left : Bool := false
  right : Bool := false
  jump : Bool := false
  deriving DecidableEq, Repr

/-- The fields of a `Game`, with the canvas size it reads and the stored high score it writes. -/
structure Game where
  canvasWidth : ℚ
  canvasHeight : ℚ
  player : Option Player
  platforms : List Platform
  score : ℤ
  highScore : ℤ
  gameState : GameState
  keys : Keys
  touchControls : TouchControls
  cameraY : ℚ
  storedHighScore : Option ℤ

/-- The ways a call of `update` fails to return a state. -/
inductive Fault where
  | nullPlayer
  | nonTermination
  deriving DecidableEq, Repr

/-- The `for` loop of lines 131-135; `remaining` counts the iterations still to run. -/
def generateLoop (rand : ℕ → ℚ) (canvasWidth : ℚ) :
    ℕ → ℕ → ℚ → List Platform → List Platform
  | 0, _, _, platforms => platforms
  | remaining + 1, i, y, platforms =>
    let y := y - PLATFORM_GAP
    let x := rand i * (canvasWidth - PLATFORM_WIDTH)
    generateLoop rand canvasWidth remaining (i + 1) y
      (platforms ++ [Platform.mk x y PLATFORM_WIDTH PLATFORM_HEIGHT false])

/-- Method `generateInitialPlatforms()` (lines 125-136). -/
def Game.generateInitialPlatforms (g : Game) (rand : ℕ → ℚ) : Game :=
  let platforms := g.platforms ++ [Platform.mk 0 (g.canvasHeight - 50) g.canvasWidth 50 true]
  let y := g.canvasHeight - 50
  { g with platforms := generateLoop rand g.canvasWidth 15 0 y platforms }

/-- Method `startGame()` (lines 109-123). -/
def Game.startGame (g : Game) (rand : ℕ → ℚ) : Game :=
  let g := { g with gameState := GameState.playing, score := 0, cameraY := 0 }
  let g := { g with player := some (Player.new (g.canvasWidth / 2) (g.canvasHeight - 100)) }
  let g := { g with platforms := [] }
  g.generateInitialPlatforms rand

/-- Method `gameOver()` (lines 229-243). -/
def Game.gameOver (g : Game) : Game :=
  let g := { g with gameState := GameState.gameOver }
  if g.score > g.highScore then
    { g with highScore := g.score, storedHighScore := some g.score }
  else
    g

/-- Lines 142-148 of `update`: the horizontal intent read from the input flags. -/
def Game.moveX (g : Game) : ℚ :=
  let moveX : ℚ := 0
  let moveX :=
    if g.keys.arrowLeft || g.keys.a || g.keys.upperA || g.touchControls.left then
      -MOVE_SPEED
    else moveX
  let moveX :=
    if g.keys.arrowRight || g.keys.d || g.keys.upperD || g.touchControls.right then
      MOVE_SPEED
    else moveX
  moveX

/-- Lines 153-156 of `update`: the camera follows the player upward. -/
def updateCamera (cameraY playerY canvasHeight : ℚ) : ℚ :=
  let targetCameraY := playerY - canvasHeight * CAMERA_OFFSET
  if targetCameraY < cameraY then targetCameraY else cameraY

/-- Lines 159-163 of `update`: the score follows the height reached. -/
def updateScore (score : ℤ) (playerY : ℚ) : ℤ :=
  let currentHeight : ℤ := max 0 ⌊-playerY / 10⌋
  if currentHeight > score then currentHeight else score

/-- The value `Math.min(...platforms.map(p => p.y))` of line 166; `none` is the `Infinity`
that `Math.min` returns for no arguments. -/
def highestPlatform : List Platform → Option ℚ
  | [] => none
  | p :: ps => some (ps.foldl (fun m q => min m q.y) p.y)

/-- The `while` loop of lines 167-172; `i` counts the calls of `Math.random` so far and
`bound` is `cameraY - canvas.height`. -/
def extendLoop (rand : ℕ → ℚ) (canvasWidth bound : ℚ) (highestPlatform : ℚ) (i : ℕ)
    (platforms : List Platform) : List Platform :=
  if highestPlatform > bound then
    let y := highestPlatform - PLATFORM_GAP
    let x := rand i * (canvasWidth - PLATFORM_WIDTH)
    extendLoop rand canvasWidth bound y (i + 1)
      (platforms ++ [Platform.mk x y PLATFORM_WIDTH PLATFORM_HEIGHT false])
  else
    platforms
termination_by ⌈(highestPlatform - bound) / 80⌉.toNat
decreasing_by
  rename_i h
  have h1 : (highestPlatform - PLATFORM_GAP - bound) / 80 = (highestPlatform - bound) / 80 - 1 := by
    unfold PLATFORM_GAP
    ring
  have h2 : 0 < ⌈(highestPlatform - bound) / 80⌉ :=
    Int.ceil_pos.mpr (div_pos (sub_pos.mpr h) (by norm_num))
  rw [h1, Int.ceil_sub_one]
  omega

/-- Line 175 of `update`: keep the platforms above the lower margin of the view. -/
def cullPlatforms (platforms : List Platform) (cameraY canvasHeight : ℚ) : List Platform :=
  platforms.filter (fun p => decide (p.y < cameraY + canvasHeight + 100))

/-- Method `update(deltaTime)` (lines 138-181).  With no player the method call on `null`
throws; with no platform `highestPlatform` is `Infinity` and the loop never exits. -/
def Game.update (g : Game) (_deltaTime : ℚ) (rand : ℕ → ℚ) : Except Fault Game :=
  if g.gameState ≠ GameState.playing then
    Except.ok g
  else
    match g.player with
    | none => Except.error Fault.nullPlayer
    | some player =>
      let player := player.update g.moveX g.platforms g.canvasWidth
      let g := { g with player := some player }
      let g := { g with cameraY := updateCamera g.cameraY player.y g.canvasHeight }
      let g := { g with score := updateScore g.score player.y }
      match highestPlatform g.platforms with
      | none => Except.error Fault.nonTermination
      | some highest =>
        let extended :=
          extendLoop rand g.canvasWidth (g.cameraY - g.canvasHeight) highest 0 g.platforms
        let g := { g with platforms := extended }
        let g := { g with platforms := cullPlatforms g.platforms g.cameraY g.canvasHeight }
        if player.y > g.cameraY + g.canvasHeight then
          Except.ok g.gameOver
        else
          Except.ok g

/-- The call `this.player.jump()` made by the key-down handler for a jump key and by the
touch-start handler of the jump button while playing (lines 52-56 and 79-81). -/
def Game.jumpPressed (g : Game) : Except Fault Game :=
  if g.gameState = GameState.playing then
    match g.player with
    | none => Except.error Fault.nullPlayer
    | some player => Except.ok { g with player := some player.jump }
  else
    Except.ok g

/-- What happens to a game between and at frames. -/
inductive Event where
  /-- An animation frame calling `update(deltaTime)` (line 217). -/
  | frame (deltaTime : ℚ) (rand : ℕ → ℚ)
  /-- A jump key or the jump button goes down. -/
  | jumpPressed
  /-- Key and touch handlers leave the input flags at these values (lines 51, 61, 78, 85). -/
  | setInput (keys : Keys) (touchControls : TouchControls)
  /-- The window is resized and `resizeCanvas` stores the new size (lines 42-46). -/
  | resize (width height : ℚ)

/-- One event applied to the game. -/
def Game.handle (g : Game) : Event → Except Fault Game
  | Event.frame deltaTime rand => g.update deltaTime rand
  | Event.jumpPressed => g.jumpPressed
  | Event.setInput keys touchControls =>
    Except.ok { g with keys := keys, touchControls := touchControls }
  | Event.resize width height =>
    Except.ok { g with canvasWidth := width, canvasHeight := height }

/-- A sequence of events applied in order; it stops at the first fault. -/
def Game.run (g : Game) : List Event → Except Fault Game
  | [] => Except.ok g
  | e :: es =>
    match g.handle e with
    | Except.error f => Except.error f
    | Except.ok g1 => g1.run es

/-- The constructor `new Game()` (lines 18-31) for a canvas of the given size and a stored
high score (`parseInt` of a missing item is `NaN`, replaced by 0). -/
def Game.new (canvasWidth canvasHeight : ℚ) (stored : Option ℤ) : Game :=
  { canvasWidth := canvasWidth, canvasHeight := canvasHeight, player := none, platforms := [],
    score := 0, highScore := stored.getD 0, gameState := GameState.start, keys := {},
    touchControls := {}, cameraY := 0, storedHighScore := stored }

/-! ## Definitions used to state the theorems -/

/-- The platforms the extension loop appends in `n` iterations that start from the topmost
height `top`, the first call of `Math.random` being number `i`. -/
def appended (rand : ℕ → ℚ) (canvasWidth top : ℚ) (i n : ℕ) : List Platform :=
  (List.range n).map (fun k =>
    Platform.mk (rand (i + k) * (canvasWidth - 100)) (top - 80 * ((k : ℚ) + 1)) 100 15 false)

/-- What holds of the platform list throughout a game: at most one ground platform, which is
the platform `ground` of the seed, and otherwise platforms of the generated size. -/
def PlatformsOk (ground : Platform) (platforms : List Platform) : Prop :=
  platforms.countP (fun p => p.isGround) ≤ 1 ∧
  (∀ p ∈ platforms, p.isGround = true → p = ground) ∧
  (∀ p ∈ platforms, p.isGround = false → p.width = 100 ∧ p.height = 15)

/-! ## Concrete players, platforms and games for witnesses and counterexamples -/

/-- The player of the witness of C1: ten units above the ground platform, at rest. -/
def landingPlayer : Player := Player.new 200 500

/-- The platforms of the witness of C1: a ground platform and one platform higher up. -/
def landingPlatforms : List Platform :=
  [Platform.mk 10 460 100 15 false, Platform.mk 0 540 400 50 true]

/-- A source of random numbers that always answers one half. -/
def halfRandom : ℕ → ℚ := fun _ => 1 / 2

/-- An airborne player at `y = -530.6` with no vertical velocity. -/
def cameraPlayer : Player :=
  { x := 200, y := -2653 / 5, width := 30, height := 40, velocityX := 0, velocityY := 0,
    isOnGround := false }

/-- A playing game with `cameraPlayer` and one platform, in a 400 x 600 canvas. -/
def cameraGame : Game :=
  { canvasWidth := 400, canvasHeight := 600,
    player := some cameraPlayer,
    platforms := [Platform.mk 150 (-480) 100 15 false],
    score := 0, highScore := 0, gameState := GameState.playing,
    keys := {}, touchControls := {}, cameraY := 0, storedHighScore := none }

/-- The platforms `startGame` seeds in a 400 x 100 canvas when every random number is 1/2. -/
def seedPlatforms : List Platform :=
  [Platform.mk 0 50 400 50 true, Platform.mk 150 (-30) 100 15 false,
   Platform.mk 150 (-110) 100 15 false, Platform.mk 150 (-190) 100 15 false,
   Platform.mk 150 (-270) 100 15 false, Platform.mk 150 (-350) 100 15 false,
   Platform.mk 150 (-430) 100 15 false, Platform.mk 150 (-510) 100 15 false,
   Platform.mk 150 (-590) 100 15 false, Platform.mk 150 (-670) 100 15 false,
   Platform.mk 150 (-750) 100 15 false, Platform.mk 150 (-830) 100 15 false,
   Platform.mk 150 (-910) 100 15 false, Platform.mk 150 (-990) 100 15 false,
   Platform.mk 150 (-1070) 100 15 false, Platform.mk 150 (-1150) 100 15 false]

/-- A playing game in a 400 x 100 canvas with no input flag set and the player at `x = 200`. -/
def climbState (y velocityY : ℚ) (isOnGround : Bool) (cameraY : ℚ) (score : ℤ)
    (platforms : List Platform) : Game :=
  { canvasWidth := 400, canvasHeight := 100,
    player := some ⟨200, y, 30, 40, 0, velocityY, isOnGround⟩, platforms := platforms,
    score := score, highScore := 0, gameState := GameState.playing, keys := {},
    touchControls := {}, cameraY := cameraY, storedHighScore := none }

/-- Six frames of falling onto the ground, a jump, and eleven frames of rising. -/
def climbEvents : List Event :=
  List.replicate 6 (Event.frame 16 halfRandom) ++
    Event.jumpPressed :: List.replicate 11 (Event.frame 16 halfRandom)

/-! ## IEEE 754 double arithmetic

The functions above compute on exact rationals.  JavaScript numbers are doubles: every
`+`, `-`, `*` and `/` of the source returns the double nearest to the exact result.  The
functions below, whose names end in `F`, follow the same source lines with each operation
rounded by `roundDouble`; they decide the comparisons of lines 167, 178, 282 and 292-295 as
the code does.  Doubles are the rationals `roundDouble` fixes; overflow to `Infinity` and
the sign of zero are not modelled. -/

/-- Rounding of a rational to the nearest integer, a tie going to the even neighbour. -/
def roundHalfEven (q : ℚ) : ℤ :=
  if q - ⌊q⌋ < 1 / 2 then ⌊q⌋
  else if 1 / 2 < q - ⌊q⌋ then ⌊q⌋ + 1
  else if ⌊q⌋ % 2 = 0 then ⌊q⌋
  else ⌊q⌋ + 1

/-- The exponent of the spacing of doubles around `x`: 52 below the binade of `x`, and
`-1074` throughout the subnormal range. -/
def ulpExponent (x : ℚ) : ℤ :=
  max (Int.log 2 |x| - 52) (-1074)

/-- The double nearest to `x` (round to nearest, ties to even), as a rational. -/
def roundDouble (x : ℚ) : ℚ :=
  (roundHalfEven (x / 2 ^ ulpExponent x) : ℚ) * 2 ^ ulpExponent x

/-- The operator `+` of two numbers. -/
def fadd (a b : ℚ) : ℚ := roundDouble (a + b)

/-- The operator `-` of two numbers. -/
def fsub (a b : ℚ) : ℚ := roundDouble (a - b)

/-- The operator `*` of two numbers. -/
def fmul (a b : ℚ) : ℚ := roundDouble (a * b)

/-- The operator `/` of two numbers. -/
def fdiv (a b : ℚ) : ℚ := roundDouble (a / b)

/-- The literal `0.6` of line 3: the double nearest to 3/5. -/
def GRAVITY_F : ℚ := roundDouble (3 / 5)

/-- The literal `0.4` of line 12: the double nearest to 2/5. -/
def CAMERA_OFFSET_F : ℚ := roundDouble (2 / 5)

/-- Method `checkCollision(platform)` (lines 291-296) in doubles. -/
def Player.checkCollisionF (pl : Player) (platform : Platform) : Bool :=
  decide (pl.x < fadd platform.x platform.width) &&
  decide (fadd pl.x pl.width > platform.x) &&
  decide (pl.y < fadd platform.y platform.height) &&
  decide (fadd pl.y pl.height > platform.y)

/-- Lines 260-269 of `update` in doubles. -/
def Player.moveHorizontalF (pl : Player) (moveX canvasWidth : ℚ) : Player :=
  let pl := { pl with velocityX := moveX }
  let pl := { pl with x := fadd pl.x pl.velocityX }
  if pl.x < fdiv (-pl.width) 2 then
    { pl with x := fsub canvasWidth (fdiv pl.width 2) }
  else if pl.x > fsub canvasWidth (fdiv pl.width 2) then
    { pl with x := fdiv (-pl.width) 2 }
  else
    pl

/-- Lines 271-276 of `update` in doubles. -/
def Player.applyGravityF (pl : Player) : Player :=
  let pl := { pl with velocityY := fadd pl.velocityY GRAVITY_F }
  let pl := if pl.velocityY > MAX_FALL_SPEED then { pl with velocityY := MAX_FALL_SPEED } else pl
  { pl with y := fadd pl.y pl.velocityY }

/-- The landing test of line 282 in doubles: `this.y + this.height - this.velocityY` is
`(y + height) - velocityY`, each operation rounded. -/
def Player.landsOnF (pl : Player) (platform : Platform) : Bool :=
  decide (pl.velocityY > 0) &&
  decide (fsub (fadd pl.y pl.height) pl.velocityY ≤ fadd platform.y 5)

/-- The body of the `for` loop of lines 280-288 in doubles. -/
def Player.collideStepF (pl : Player) (platform : Platform) : Player :=
  if pl.checkCollisionF platform then
    if pl.landsOnF platform then
      { pl with y := fsub platform.y pl.height, velocityY := 0, isOnGround := true }
    else
      pl
  else
    pl

/-- Lines 278-288 of `update` in doubles. -/
def Player.resolveCollisionsF (pl : Player) (platforms : List Platform) : Player :=
  platforms.foldl Player.collideStepF { pl with isOnGround := false }

/-- Method `update(moveX, platforms, canvasWidth)` (lines 259-289) in doubles. -/
def Player.updateF (pl : Player) (moveX : ℚ) (platforms : List Platform) (canvasWidth : ℚ) :
    Player :=
  ((pl.moveHorizontalF moveX canvasWidth).applyGravityF).resolveCollisionsF platforms

/-- Lines 153-156 of `Game.update` in doubles. -/
def updateCameraF (cameraY playerY canvasHeight : ℚ) : ℚ :=
  let targetCameraY := fsub playerY (fmul canvasHeight CAMERA_OFFSET_F)
  if targetCameraY < cameraY then targetCameraY else cameraY

/-- Lines 159-163 of `Game.update` in doubles. -/
def updateScoreF (score : ℤ) (playerY : ℚ) : ℤ :=
  let currentHeight : ℤ := max 0 ⌊fdiv (-playerY) 10⌋
  if currentHeight > score then currentHeight else score

/-- The `while` loop of lines 167-172 in doubles.  In doubles `highestPlatform - 80` need
not be below `highestPlatform`, so the loop need not exit: `fuel` bounds the number of tests
of the loop condition, and `none` says the loop is still running when the fuel is spent. -/
def extendLoopF (rand : ℕ → ℚ) (canvasWidth bound : ℚ) :
    ℕ → ℚ → ℕ → List Platform → Option (List Platform)
  | 0, _, _, _ => none
  | fuel + 1, highestPlatform, i, platforms =>
    if highestPlatform > bound then
      let y := fsub highestPlatform PLATFORM_GAP
      let x := fmul (rand i) (fsub canvasWidth PLATFORM_WIDTH)
      extendLoopF rand canvasWidth bound fuel y (i + 1)
        (platforms ++ [Platform.mk x y PLATFORM_WIDTH PLATFORM_HEIGHT false])
    else
      some platforms

/-- Line 175 of `Game.update` in doubles: `cameraY + height + 100` is
`(cameraY + height) + 100`. -/
def cullPlatformsF (platforms : List Platform) (cameraY canvasHeight : ℚ) : List Platform :=
  platforms.filter (fun p => decide (p.y < fadd (fadd cameraY canvasHeight) 100))

/-- Method `update(deltaTime)` (lines 138-181) in doubles.  `none` says that the extension
loop has not exited within `fuel` tests of its condition (with no platform it never does). -/
def Game.updateF (g : Game) (_deltaTime : ℚ) (rand : ℕ → ℚ) (fuel : ℕ) :
    Option (Except Fault Game) :=
  if g.gameState ≠ GameState.playing then
    some (Except.ok g)
  else
    match g.player with
    | none => some (Except.error Fault.nullPlayer)
    | some player =>
      let player := player.updateF g.moveX g.platforms g.canvasWidth
      let g := { g with player := some player }
      let g := { g with cameraY := updateCameraF g.cameraY player.y g.canvasHeight }
      let g := { g with score := updateScoreF g.score player.y }
      match highestPlatform g.platforms with
      | none => none
      | some highest =>
        match extendLoopF rand g.canvasWidth (fsub g.cameraY g.canvasHeight) fuel highest 0
            g.platforms with
        | none => none
        | some extended =>
          let g := { g with platforms := extended }
          let g := { g with platforms := cullPlatformsF g.platforms g.cameraY g.canvasHeight }
          if player.y > fadd g.cameraY g.canvasHeight then
            some (Except.ok g.gameOver)
          else
            some (Except.ok g)

/-- The platforms the extension loop appends in doubles in `n` iterations from an integer
height `top`, where the subtractions of 80 are exact. -/
def appendedF (rand : ℕ → ℚ) (canvasWidth top : ℚ) (i n : ℕ) : List Platform :=
  (List.range n).map (fun k =>
    Platform.mk (fmul (rand (i + k)) (fsub canvasWidth 100)) (top - 80 * ((k : ℚ) + 1)) 100 15
      false)

/-- The player of the counterexample of C1: at `y = 214`, falling at 3 per frame. -/
def tolerancePlayer : Player :=
  { x := 0, y := 214, width := 30, height := 40, velocityX := 0, velocityY := 3,
    isOnGround := false }

/-- The platform of the counterexample of C1, its top 5 above the player's bottom. -/
def tolerancePlatform : Platform := Platform.mk 0 249 100 15 false

/-- A player at `y = 500` falling at 19.5 per frame, which gravity clamps to 20. -/
def fastPlayer : Player :=
  { x := 0, y := 500, width := 30, height := 40, velocityX := 0, velocityY := 39 / 2,
    isOnGround := false }

/-- A platform whose top the player `fastPlayer` crosses in one frame. -/
def fastPlatform : Platform := Platform.mk 0 545 100 50 true

/-- The platform visited first in the counterexample of C2. -/
def fastPlatformA : Platform := Platform.mk 0 545 100 15 false

/-- The platform visited last in the counterexample of C2. -/
def fastPlatformB : Platform := Platform.mk 0 542 100 15 false

/-- A platform beside the player, visited before the other two in the witness of C2. -/
def fastPlatformAside : Platform := Platform.mk 200 545 100 15 false

/-- The player of the counterexample of C17: the doubles `-4144.4` and
`13.799999999999988` as position and velocity. -/
def edgePlayer : Player :=
  { x := 0, y := (-2278407995077427 / 549755813888), width := 30, height := 40, velocityX := 0,
    velocityY := (7768709357214099 / 562949953421312), isOnGround := false }

/-- The platform of the counterexample of C17, its top at `-4090`. -/
def edgePlatform : Platform := Platform.mk 0 (-4090) 100 15 false

/-- The camera offset `-10.000000000000057` of the counterexample of C4, the double
`-10 - 2 ^ -44`. -/
def driftedCamera : ℚ := -175921860444161 / 17592186044416

/-- The camera offset `-170.00000000000006` of the counterexample of C12, the double
`-170 - 2 ^ -44`. -/
def brinkCamera : ℚ := -2990671627550721 / 17592186044416

/-- A player at `y = 510` falling at 19.5 per frame: after the gravity step it is at
`y = 530`, falling at 20. -/
def brinkPlayer : Player :=
  { x := 0, y := 510, width := 30, height := 40, velocityX := 0, velocityY := 39 / 2,
    isOnGround := false }

/-- A playing game in a 400 x 700 canvas with `brinkPlayer`, one platform far above and the
camera at the given offset. -/
def brinkGame (cameraY : ℚ) : Game :=
  { canvasWidth := 400, canvasHeight := 700,
    player := some brinkPlayer,
    platforms := [Platform.mk 150 (-710) 100 15 false],
    score := 0, highScore := 0, gameState := GameState.playing,
    keys := {}, touchControls := {}, cameraY := cameraY, storedHighScore := none }

/-! ## Collision resolution -/

/-- A player that is not moving downward is left alone by every platform. -/
theorem collideStep_of_not_falling (pl : Player) (q : Platform) (h : pl.velocityY ≤ 0) :
    pl.collideStep q = pl := by
  have hl : pl.landsOn q = false := by
    simp [Player.landsOn, not_lt.mpr h]
  simp [Player.collideStep, hl]

theorem foldl_collideStep_of_not_falling (ps : List Platform) (pl : Player)
    (h : pl.velocityY ≤ 0) : ps.foldl Player.collideStep pl = pl := by
  induction ps with
  | nil => rfl
  | cons q qs ih => rw [List.foldl_cons, collideStep_of_not_falling pl q h, ih]

/-- Platforms that are not both overlapped and landed on leave the player unchanged. -/
theorem foldl_collideStep_of_no_landing (ps : List Platform) (pl : Player)
    (h : ∀ q ∈ ps, (pl.checkCollision q && pl.landsOn q) = false) :
    ps.foldl Player.collideStep pl = pl := by
  induction ps with
  | nil => rfl
  | cons q qs ih =>
    have hq : pl.collideStep q = pl := by
      have := h q (List.mem_cons_self q qs)
      unfold Player.collideStep
      cases hc : pl.checkCollision q <;> cases hl : pl.landsOn q <;> simp_all
    rw [List.foldl_cons, hq]
    exact ih (fun r hr => h r (List.mem_cons_of_mem q hr))

/-- The loop of lines 280-288 snaps the player onto the first platform, in array order, that
it overlaps and lands on; the platforms after it see a zero vertical velocity. -/
theorem foldl_collideStep_first_landing (l1 l2 : List Platform) (p : Platform) (pl : Player)
    (h1 : ∀ q ∈ l1, (pl.checkCollision q && pl.landsOn q) = false)
    (hc : pl.checkCollision p = true) (hl : pl.landsOn p = true) :
    (l1 ++ p :: l2).foldl Player.collideStep pl =
      { pl with y := p.y - pl.height, velocityY := 0, isOnGround := true } := by
  rw [List.foldl_append, foldl_collideStep_of_no_landing l1 pl h1, List.foldl_cons]
  have hp : pl.collideStep p =
      { pl with y := p.y - pl.height, velocityY := 0, isOnGround := true } := by
    simp [Player.collideStep, hc, hl]
  rw [hp]
  exact foldl_collideStep_of_not_falling l2 _ (le_refl _)

theorem checkCollision_clearGround (pl : Player) (q : Platform) :
    Player.checkCollision { pl with isOnGround := false } q = pl.checkCollision q := rfl

theorem landsOn_clearGround (pl : Player) (q : Platform) :
    Player.landsOn { pl with isOnGround := false } q = pl.landsOn q := rfl

/-- The state of `landingPlayer` after the horizontal move and the gravity step. -/
theorem landingPlayer_applyGravity :
    (landingPlayer.moveHorizontal 0 400).applyGravity =
      { x := 200, y := 2503 / 5, width := 30, height := 40, velocityX := 0,
        velocityY := 3 / 5, isOnGround := false } := by
  norm_num [landingPlayer, Player.new, Player.moveHorizontal, Player.applyGravity, GRAVITY,
    MAX_FALL_SPEED, PLAYER_WIDTH, PLAYER_HEIGHT]

/-! ## Culling -/

/-- C3, as stated, fails: with `cameraY = 0` and a viewport height of 600 a platform at
`y = 700` does not exceed `cameraY + H + 100 = 700`, yet the cull step removes it. -/
theorem cull_boundary_counterexample :
    ¬ ((Platform.mk 0 700 100 15 false).y > 0 + 600 + 100) ∧
    Platform.mk 0 700 100 15 false ∉ cullPlatforms [Platform.mk 0 700 100 15 false] 0 600 := by
  norm_num [cullPlatforms]

/-- C3, amended. Culling: the cull step removes exactly the platforms whose `y` is at least
`cameraY + H + 100` and retains all others (a platform is removed if and only if
`p.y ≥ cameraY + H + 100`), every retained platform as often as it occurred and in the
original order. -/
theorem cull_removes_exactly (platforms : List Platform) (cameraY canvasHeight : ℚ) :
    (∀ p, p ∈ cullPlatforms platforms cameraY canvasHeight ↔
      p ∈ platforms ∧ ¬ (p.y ≥ cameraY + canvasHeight + 100)) ∧
    (∀ p, p ∈ platforms → (p ∉ cullPlatforms platforms cameraY canvasHeight ↔
      p.y ≥ cameraY + canvasHeight + 100)) ∧
    (∀ p, (cullPlatforms platforms cameraY canvasHeight).count p =
      if p.y ≥ cameraY + canvasHeight + 100 then 0 else platforms.count p) ∧
    List.Sublist (cullPlatforms platforms cameraY canvasHeight) platforms := by
  refine ⟨?_, ?_, ?_, ?_⟩
  · intro p
    simp [cullPlatforms, List.mem_filter]
  · intro p hp
    simp [cullPlatforms, List.mem_filter, hp]
  · intro p
    unfold cullPlatforms
    by_cases h : p.y ≥ cameraY + canvasHeight + 100
    · rw [if_pos h, List.count_eq_zero, List.mem_filter]
      rintro ⟨_, hlt⟩
      exact absurd (of_decide_eq_true hlt) (not_lt.mpr h)
    · rw [if_neg h]
      exact List.count_filter (decide_eq_true (not_le.mp h))
  · exact List.filter_sublist _

/-! ## Platform extension -/

theorem appended_succ (rand : ℕ → ℚ) (canvasWidth top : ℚ) (i n : ℕ) :
    appended rand canvasWidth top i (n + 1) =
      Platform.mk (rand i * (canvasWidth - 100)) (top - 80) 100 15 false ::
        appended rand canvasWidth (top - 80) (i + 1) n := by
  unfold appended
  rw [List.range_succ_eq_map, List.map_cons, List.map_map]
  congr 1
  · norm_num
  · apply List.map_congr_left
    intro k _
    simp only [Function.comp_apply, Nat.cast_succ, Platform.mk.injEq, and_true, true_and]
    constructor
    · congr 2
      omega
    · ring

/-- The extension loop appends `n` platforms, each 80 above the one before, where `n` is the
first count with `top - 80 * n ≤ bound`. -/
theorem extendLoop_eq (rand : ℕ → ℚ) (canvasWidth bound : ℚ) (m : ℕ) :
    ∀ (top : ℚ) (i : ℕ) (platforms : List Platform), ⌈(top - bound) / 80⌉.toNat = m →
      ∃ n : ℕ, extendLoop rand canvasWidth bound top i platforms =
          platforms ++ appended rand canvasWidth top i n ∧
        top - 80 * (n : ℚ) ≤ bound ∧ ∀ k : ℕ, k < n → bound < top - 80 * (k : ℚ) := by
  induction m using Nat.strong_induction_on with
  | _ m ih =>
    intro top i platforms hm
    by_cases h : top > bound
    · have h1 : (top - PLATFORM_GAP - bound) / 80 = (top - bound) / 80 - 1 := by
        unfold PLATFORM_GAP
        ring
      have h2 : 0 < ⌈(top - bound) / 80⌉ :=
        Int.ceil_pos.mpr (div_pos (sub_pos.mpr h) (by norm_num))
      have hlt : ⌈(top - PLATFORM_GAP - bound) / 80⌉.toNat < m := by
        rw [h1, Int.ceil_sub_one]
        omega
      obtain ⟨n, hn, hstop, hrun⟩ := ih _ hlt (top - PLATFORM_GAP) (i + 1)
        (platforms ++ [Platform.mk (rand i * (canvasWidth - PLATFORM_WIDTH))
          (top - PLATFORM_GAP) PLATFORM_WIDTH PLATFORM_HEIGHT false]) rfl
      refine ⟨n + 1, ?_, ?_, ?_⟩
      · rw [extendLoop, if_pos h]
        simp only []
        rw [hn, appended_succ]
        simp [PLATFORM_GAP, PLATFORM_WIDTH, PLATFORM_HEIGHT]
      · have : top - 80 * ((n + 1 : ℕ) : ℚ) = top - PLATFORM_GAP - 80 * (n : ℚ) := by
          unfold PLATFORM_GAP
          push_cast
          ring
        rw [this]
        exact hstop
      · intro k hk
        cases k with
        | zero => simpa using h
        | succ j =>
          have := hrun j (by omega)
          have e : top - 80 * ((j + 1 : ℕ) : ℚ) = top - PLATFORM_GAP - 80 * (j : ℚ) := by
            unfold PLATFORM_GAP
            push_cast
            ring
          rw [e]
          exact this
    · refine ⟨0, ?_, ?_, ?_⟩
      · rw [extendLoop, if_neg h]
        simp [appended]
      · simpa using not_lt.mp h
      · intro k hk
        exact absurd hk (Nat.not_lt_zero k)

theorem foldl_min_le_init (ps : List Platform) (m : ℚ) :
    ps.foldl (fun m q => min m q.y) m ≤ m := by
  induction ps generalizing m with
  | nil => exact le_refl m
  | cons q qs ih => exact le_trans (ih (min m q.y)) (min_le_left m q.y)

theorem foldl_min_le_of_mem (ps : List Platform) (m : ℚ) (p : Platform) (hp : p ∈ ps) :
    ps.foldl (fun m q => min m q.y) m ≤ p.y := by
  induction ps generalizing m with
  | nil => cases hp
  | cons q qs ih =>
    rw [List.foldl_cons]
    rcases List.mem_cons.mp hp with rfl | hmem
    · exact le_trans (foldl_min_le_init qs _) (min_le_right m p.y)
    · exact ih _ hmem

theorem foldl_min_attained (ps : List Platform) (m : ℚ) :
    ps.foldl (fun m q => min m q.y) m = m ∨
      ∃ p ∈ ps, ps.foldl (fun m q => min m q.y) m = p.y := by
  induction ps generalizing m with
  | nil => exact Or.inl rfl
  | cons q qs ih =>
    rw [List.foldl_cons]
    rcases ih (min m q.y) with h | ⟨p, hp, h⟩
    · rcases min_choice m q.y with hm | hm
      · exact Or.inl (by rw [h, hm])
      · exact Or.inr ⟨q, List.mem_cons_self q qs, by rw [h, hm]⟩
    · exact Or.inr ⟨p, List.mem_cons_of_mem q hp, h⟩

/-- On a non-empty list `highestPlatform` is the least `y` of the list. -/
theorem highestPlatform_isLeast (platforms : List Platform) (hne : platforms ≠ []) :
    ∃ top, highestPlatform platforms = some top ∧ (∀ p ∈ platforms, top ≤ p.y) ∧
      ∃ p ∈ platforms, p.y = top := by
  cases platforms with
  | nil => exact absurd rfl hne
  | cons q qs =>
    refine ⟨_, rfl, ?_, ?_⟩
    · intro p hp
      rcases List.mem_cons.mp hp with rfl | hmem
      · exact foldl_min_le_init qs _
      · exact foldl_min_le_of_mem qs _ p hmem
    · rcases foldl_min_attained qs q.y with h | ⟨p, hp, h⟩
      · exact ⟨q, List.mem_cons_self q qs, h.symm⟩
      · exact ⟨p, List.mem_cons_of_mem q hp, h.symm⟩

/-! ## One frame -/

/-- A playing game with a player and a platform returns from `update` with the state
assembled by lines 150-175, passed through `gameOver` when the player is below the view. -/
theorem update_playing (g : Game) (deltaTime : ℚ) (rand : ℕ → ℚ) (pl : Player)
    (hstate : g.gameState = GameState.playing) (hpl : g.player = some pl)
    (hne : g.platforms ≠ []) :
    ∃ top, highestPlatform g.platforms = some top ∧
      g.update deltaTime rand = Except.ok
        (if (pl.update g.moveX g.platforms g.canvasWidth).y >
            updateCamera g.cameraY (pl.update g.moveX g.platforms g.canvasWidth).y
              g.canvasHeight + g.canvasHeight then
          Game.gameOver
            { g with
              player := some (pl.update g.moveX g.platforms g.canvasWidth)
              cameraY := updateCamera g.cameraY
                (pl.update g.moveX g.platforms g.canvasWidth).y g.canvasHeight
              score := updateScore g.score (pl.update g.moveX g.platforms g.canvasWidth).y
              platforms := cullPlatforms
                (extendLoop rand g.canvasWidth
                  (updateCamera g.cameraY (pl.update g.moveX g.platforms g.canvasWidth).y
                    g.canvasHeight - g.canvasHeight) top 0 g.platforms)
                (updateCamera g.cameraY (pl.update g.moveX g.platforms g.canvasWidth).y
                  g.canvasHeight) g.canvasHeight }
        else
          { g with
            player := some (pl.update g.moveX g.platforms g.canvasWidth)
            cameraY := updateCamera g.cameraY
              (pl.update g.moveX g.platforms g.canvasWidth).y g.canvasHeight
            score := updateScore g.score (pl.update g.moveX g.platforms g.canvasWidth).y
            platforms := cullPlatforms
              (extendLoop rand g.canvasWidth
                (updateCamera g.cameraY (pl.update g.moveX g.platforms g.canvasWidth).y
                  g.canvasHeight - g.canvasHeight) top 0 g.platforms)
              (updateCamera g.cameraY (pl.update g.moveX g.platforms g.canvasWidth).y
                g.canvasHeight) g.canvasHeight }) := by
  obtain ⟨top, htop, -, -⟩ := highestPlatform_isLeast g.platforms hne
  refine ⟨top, htop, ?_⟩
  unfold Game.update
  simp only [hstate, ne_eq, not_true_eq_false, if_false, hpl, htop]
  split_ifs <;> rfl

@[simp] theorem gameOver_cameraY (g : Game) : g.gameOver.cameraY = g.cameraY := by
  unfold Game.gameOver
  simp only
  split_ifs <;> rfl

@[simp] theorem gameOver_score (g : Game) : g.gameOver.score = g.score := by
  unfold Game.gameOver
  simp only
  split_ifs <;> rfl

@[simp] theorem gameOver_platforms (g : Game) : g.gameOver.platforms = g.platforms := by
  unfold Game.gameOver
  simp only
  split_ifs <;> rfl

@[simp] theorem gameOver_player (g : Game) : g.gameOver.player = g.player := by
  unfold Game.gameOver
  simp only
  split_ifs <;> rfl

/-- The camera, score, player and platforms a playing game has after `update`. -/
theorem update_playing_fields (g : Game) (deltaTime : ℚ) (rand : ℕ → ℚ) (pl : Player)
    (hstate : g.gameState = GameState.playing) (hpl : g.player = some pl)
    (hne : g.platforms ≠ []) :
    ∃ g1 top, g.update deltaTime rand = Except.ok g1 ∧
      highestPlatform g.platforms = some top ∧
      g1.player = some (pl.update g.moveX g.platforms g.canvasWidth) ∧
      g1.cameraY = updateCamera g.cameraY (pl.update g.moveX g.platforms g.canvasWidth).y
        g.canvasHeight ∧
      g1.score = updateScore g.score (pl.update g.moveX g.platforms g.canvasWidth).y ∧
      g1.platforms = cullPlatforms
        (extendLoop rand g.canvasWidth (g1.cameraY - g.canvasHeight) top 0 g.platforms)
        g1.cameraY g.canvasHeight := by
  obtain ⟨top, htop, hupd⟩ := update_playing g deltaTime rand pl hstate hpl hne
  refine ⟨_, top, hupd, htop, ?_⟩
  split_ifs <;> simp

theorem updateCamera_eq_min (cameraY playerY canvasHeight : ℚ) :
    updateCamera cameraY playerY canvasHeight = min cameraY (playerY - canvasHeight * (2 / 5)) := by
  unfold updateCamera CAMERA_OFFSET
  simp only
  split_ifs with h
  · exact (min_eq_right (le_of_lt h)).symm
  · exact (min_eq_left (not_lt.mp h)).symm

/-- C6. Camera update: a playing game returns from `update` with
`cameraY = min(cameraY, player.y - 0.4 * H)`, `player.y` read after the player update: the
camera moves to the candidate `player.y - 0.4 * H` when the candidate is below the current
offset and is unchanged otherwise; with `player.y = -530`, `H = 600` and `cameraY = 0` the
new offset is `-770`. -/
theorem camera_update (g : Game) (deltaTime : ℚ) (rand : ℕ → ℚ) (pl : Player)
    (hstate : g.gameState = GameState.playing) (hpl : g.player = some pl)
    (hne : g.platforms ≠ []) :
    ∃ g1 pl1, g.update deltaTime rand = Except.ok g1 ∧ g1.player = some pl1 ∧
      pl1 = pl.update g.moveX g.platforms g.canvasWidth ∧
      g1.cameraY = min g.cameraY (pl1.y - g.canvasHeight * (2 / 5)) ∧
      (pl1.y - g.canvasHeight * (2 / 5) < g.cameraY →
        g1.cameraY = pl1.y - g.canvasHeight * (2 / 5)) ∧
      (¬ (pl1.y - g.canvasHeight * (2 / 5) < g.cameraY) → g1.cameraY = g.cameraY) ∧
      (pl1.y = -530 → g.canvasHeight = 600 → g.cameraY = 0 → g1.cameraY = -770) ∧
      (∀ cameraY playerY canvasHeight : ℚ, updateCamera cameraY playerY canvasHeight =
        min cameraY (playerY - canvasHeight * (2 / 5))) ∧
      updateCamera 0 (-530) 600 = -770 := by
  obtain ⟨g1, top, hupd, -, hplayer, hcam, -, -⟩ :=
    update_playing_fields g deltaTime rand pl hstate hpl hne
  rw [updateCamera_eq_min] at hcam
  refine ⟨g1, _, hupd, hplayer, rfl, hcam, ?_, ?_, ?_, updateCamera_eq_min, ?_⟩
  · intro h
    rw [hcam]
    exact min_eq_right (le_of_lt h)
  · intro h
    rw [hcam]
    exact min_eq_left (not_lt.mp h)
  · intro hy hH hc
    rw [hcam, hy, hH, hc]
    norm_num
  · rw [updateCamera_eq_min]
    norm_num

theorem cameraGame_player_update :
    cameraPlayer.update cameraGame.moveX cameraGame.platforms cameraGame.canvasWidth =
      { x := 200, y := -530, width := 30, height := 40, velocityX := 0, velocityY := 3 / 5,
        isOnGround := false } := by
  norm_num [cameraGame, cameraPlayer, Game.moveX, Player.update, Player.moveHorizontal,
    Player.applyGravity, Player.resolveCollisions, Player.collideStep, Player.checkCollision, GRAVITY,
    MAX_FALL_SPEED]

theorem camera_update_witness :
    ∃ g1, cameraGame.update 0 halfRandom = Except.ok g1 ∧ g1.cameraY = -770 := by
  obtain ⟨g1, pl1, hupd, -, hpl1, -, -, -, hex, -, -⟩ :=
    camera_update cameraGame 0 halfRandom cameraPlayer rfl rfl (List.cons_ne_nil _ _)
  refine ⟨g1, hupd, hex ?_ rfl rfl⟩
  rw [hpl1, cameraGame_player_update]

/-! ## Score -/

theorem max_floor_eq_floor_max (y : ℚ) : (max 0 ⌊-y / 10⌋ : ℤ) = ⌊max 0 (-y) / 10⌋ := by
  by_cases h : 0 ≤ -y
  · rw [max_eq_right h, max_eq_right]
    exact Int.floor_nonneg.mpr (div_nonneg h (by norm_num))
  · have hneg : -y < 0 := not_le.mp h
    rw [max_eq_left (le_of_lt hneg), zero_div, Int.floor_zero, max_eq_left]
    have hlt : ⌊-y / 10⌋ < 0 := by
      rw [Int.floor_lt]
      exact_mod_cast div_neg_of_neg_of_pos hneg (by norm_num)
    exact le_of_lt hlt

theorem updateScore_eq_max (score : ℤ) (playerY : ℚ) :
    updateScore score playerY = max score ⌊max 0 (-playerY) / 10⌋ := by
  unfold updateScore
  simp only
  rw [max_floor_eq_floor_max]
  split_ifs with h
  · exact (max_eq_right (le_of_lt h)).symm
  · exact (max_eq_left (not_lt.mp h)).symm

/-- C7. Score update: a playing game returns from `update` with
`score = max(score, floor(max(0, -player.y) / 10))`, `player.y` read after the player
update; the code's `max(0, floor(-y / 10))` equals `floor(max(0, -y) / 10)` for every `y`;
and `player.y = -235` from score 0 gives 23. -/
theorem score_update (g : Game) (deltaTime : ℚ) (rand : ℕ → ℚ) (pl : Player)
    (hstate : g.gameState = GameState.playing) (hpl : g.player = some pl)
    (hne : g.platforms ≠ []) :
    (∃ g1 pl1, g.update deltaTime rand = Except.ok g1 ∧ g1.player = some pl1 ∧
      pl1 = pl.update g.moveX g.platforms g.canvasWidth ∧
      g1.score = max g.score ⌊max 0 (-pl1.y) / 10⌋ ∧
      (⌊max 0 (-pl1.y) / 10⌋ > g.score → g1.score = ⌊max 0 (-pl1.y) / 10⌋) ∧
      (¬ (⌊max 0 (-pl1.y) / 10⌋ > g.score) → g1.score = g.score)) ∧
    (∀ y : ℚ, (max 0 ⌊-y / 10⌋ : ℤ) = ⌊max 0 (-y) / 10⌋) ∧
    (∀ (score : ℤ) (y : ℚ), updateScore score y = max score ⌊max 0 (-y) / 10⌋) ∧
    updateScore 0 (-235) = 23 := by
  obtain ⟨g1, top, hupd, -, hplayer, -, hscore, -⟩ :=
    update_playing_fields g deltaTime rand pl hstate hpl hne
  rw [updateScore_eq_max] at hscore
  refine ⟨⟨g1, _, hupd, hplayer, rfl, hscore, ?_, ?_⟩, max_floor_eq_floor_max,
    updateScore_eq_max, ?_⟩
  · intro h
    rw [hscore]
    exact max_eq_right (le_of_lt h)
  · intro h
    rw [hscore]
    exact max_eq_left (not_lt.mp h)
  · rw [updateScore_eq_max]
    have : ⌊max (0 : ℚ) (- -235) / 10⌋ = 23 := by
      rw [Int.floor_eq_iff]
      norm_num
    rw [this]
    rfl

theorem score_update_witness :
    ∃ g1, cameraGame.update 0 halfRandom = Except.ok g1 ∧ g1.score = 53 := by
  obtain ⟨⟨g1, pl1, hupd, -, hpl1, hscore, -, -⟩, -, -, -⟩ :=
    score_update cameraGame 0 halfRandom cameraPlayer rfl rfl (List.cons_ne_nil _ _)
  refine ⟨g1, hupd, ?_⟩
  rw [hscore, hpl1, cameraGame_player_update]
  have : ⌊max (0 : ℚ) (- -530) / 10⌋ = 53 := by
    rw [Int.floor_eq_iff]
    norm_num
  simp only [this]
  rfl

/-! ## Monotonicity of score and camera -/

theorem updateScore_ge (score : ℤ) (playerY : ℚ) : score ≤ updateScore score playerY := by
  rw [updateScore_eq_max]
  exact le_max_left _ _

theorem updateCamera_le (cameraY playerY canvasHeight : ℚ) :
    updateCamera cameraY playerY canvasHeight ≤ cameraY := by
  rw [updateCamera_eq_min]
  exact min_le_left _ _

/-- One call of `update` never lowers the score and never moves the camera down. -/
theorem update_monotone (g : Game) (deltaTime : ℚ) (rand : ℕ → ℚ) (g1 : Game)
    (h : g.update deltaTime rand = Except.ok g1) :
    g.score ≤ g1.score ∧ g1.cameraY ≤ g.cameraY := by
  by_cases hstate : g.gameState = GameState.playing
  · cases hpl : g.player with
    | none =>
      unfold Game.update at h
      simp [hstate, hpl] at h
    | some pl =>
      by_cases hne : g.platforms = []
      · unfold Game.update at h
        simp [hstate, hpl, hne, highestPlatform] at h
      · obtain ⟨g2, top, hupd, -, -, hcam, hscore, -⟩ :=
          update_playing_fields g deltaTime rand pl hstate hpl hne
        rw [hupd] at h
        cases h
        rw [hcam, hscore]
        exact ⟨updateScore_ge _ _, updateCamera_le _ _ _⟩
  · unfold Game.update at h
    simp only [ne_eq, hstate, not_false_eq_true, if_true] at h
    cases h
    exact ⟨le_refl _, le_refl _⟩

theorem handle_monotone (g : Game) (e : Event) (g1 : Game) (h : g.handle e = Except.ok g1) :
    g.score ≤ g1.score ∧ g1.cameraY ≤ g.cameraY := by
  cases e with
  | frame deltaTime rand => exact update_monotone g deltaTime rand g1 h
  | jumpPressed =>
    unfold Game.handle Game.jumpPressed at h
    split_ifs at h
    · cases hpl : g.player with
      | none => simp [hpl] at h
      | some pl =>
        simp only [hpl] at h
        cases h
        exact ⟨le_refl _, le_refl _⟩
    · cases h
      exact ⟨le_refl _, le_refl _⟩
  | setInput keys touchControls =>
    cases h
    exact ⟨le_refl _, le_refl _⟩
  | resize width height =>
    cases h
    exact ⟨le_refl _, le_refl _⟩

/-- C8. Monotonicity over a run: over every sequence of frames (calls of `update`, with
whatever input flags, jumps and canvas sizes come between them) that returns a state, the
score of the final state is at least the initial score and its camera offset at most the
initial one; a one-frame sequence gives the step from one tick to the next. -/
theorem score_camera_monotone (g : Game) (events : List Event) (g1 : Game)
    (hrun : g.run events = Except.ok g1) :
    g.score ≤ g1.score ∧ g1.cameraY ≤ g.cameraY := by
  induction events generalizing g with
  | nil =>
    cases hrun
    exact ⟨le_refl _, le_refl _⟩
  | cons e es ih =>
    unfold Game.run at hrun
    cases he : g.handle e with
    | error f => simp [he] at hrun
    | ok g2 =>
      simp only [he] at hrun
      have h1 := handle_monotone g e g2 he
      have h2 := ih g2 hrun
      exact ⟨le_trans h1.1 h2.1, le_trans h2.2 h1.2⟩

theorem score_camera_monotone_witness :
    ∃ g1, cameraGame.run [Event.frame 0 halfRandom] = Except.ok g1 ∧
      cameraGame.score ≤ g1.score ∧ g1.cameraY ≤ cameraGame.cameraY := by
  obtain ⟨g1, top, hupd, -⟩ :=
    update_playing_fields cameraGame 0 halfRandom cameraPlayer rfl rfl (List.cons_ne_nil _ _)
  have hrun : cameraGame.run [Event.frame 0 halfRandom] = Except.ok g1 := by
    simp [Game.run, Game.handle, hupd]
  exact ⟨g1, hrun, score_camera_monotone cameraGame [Event.frame 0 halfRandom] g1 hrun⟩

/-! ## Horizontal wrap and jump -/

theorem collideStep_horizontal (pl : Player) (q : Platform) :
    (pl.collideStep q).x = pl.x ∧ (pl.collideStep q).velocityX = pl.velocityX ∧
    (pl.collideStep q).width = pl.width ∧ (pl.collideStep q).height = pl.height := by
  unfold Player.collideStep
  split_ifs <;> exact ⟨rfl, rfl, rfl, rfl⟩

theorem foldl_collideStep_horizontal (ps : List Platform) (pl : Player) :
    (ps.foldl Player.collideStep pl).x = pl.x ∧
    (ps.foldl Player.collideStep pl).velocityX = pl.velocityX ∧
    (ps.foldl Player.collideStep pl).width = pl.width ∧
    (ps.foldl Player.collideStep pl).height = pl.height := by
  induction ps generalizing pl with
  | nil => exact ⟨rfl, rfl, rfl, rfl⟩
  | cons q qs ih =>
    rw [List.foldl_cons]
    obtain ⟨h1, h2, h3, h4⟩ := ih (pl.collideStep q)
    obtain ⟨k1, k2, k3, k4⟩ := collideStep_horizontal pl q
    exact ⟨h1.trans k1, h2.trans k2, h3.trans k3, h4.trans k4⟩

/-- The gravity and collision steps leave `x` as the horizontal step set it. -/
theorem update_x (pl : Player) (moveX canvasWidth : ℚ) (platforms : List Platform) :
    (pl.update moveX platforms canvasWidth).x = (pl.moveHorizontal moveX canvasWidth).x := by
  unfold Player.update Player.resolveCollisions
  rw [(foldl_collideStep_horizontal platforms _).1]
  unfold Player.applyGravity
  simp only
  split_ifs <;> rfl

/-- C9. Horizontal wrap: in a canvas of width `W ≥ 0`, `update` first advances `x` by `moveX`;
past `W - width/2` the player reappears at exactly `-width/2`, before `-width/2` it
reappears at exactly `W - width/2`, and otherwise `x` is `x + moveX`; the horizontal step
changes nothing but `x` and `velocityX`, so `y` and `velocityY` enter the gravity step exactly
as they were. -/
theorem horizontal_wrap (pl : Player) (moveX canvasWidth : ℚ) (platforms : List Platform)
    (hW : 0 ≤ canvasWidth) :
    (pl.x + moveX > canvasWidth - pl.width / 2 →
      (pl.update moveX platforms canvasWidth).x = -pl.width / 2 ∧
      pl.moveHorizontal moveX canvasWidth =
        { pl with x := -pl.width / 2, velocityX := moveX }) ∧
    (pl.x + moveX < -pl.width / 2 →
      (pl.update moveX platforms canvasWidth).x = canvasWidth - pl.width / 2 ∧
      pl.moveHorizontal moveX canvasWidth =
        { pl with x := canvasWidth - pl.width / 2, velocityX := moveX }) ∧
    (¬ (pl.x + moveX > canvasWidth - pl.width / 2) → ¬ (pl.x + moveX < -pl.width / 2) →
      (pl.update moveX platforms canvasWidth).x = pl.x + moveX ∧
      pl.moveHorizontal moveX canvasWidth = { pl with x := pl.x + moveX, velocityX := moveX }) ∧
    (pl.moveHorizontal moveX canvasWidth).y = pl.y ∧
    (pl.moveHorizontal moveX canvasWidth).velocityY = pl.velocityY := by
  have hmono : -pl.width / 2 ≤ canvasWidth - pl.width / 2 := by linarith
  refine ⟨?_, ?_, ?_, ?_, ?_⟩
  · intro h
    have h1 : ¬ (pl.x + moveX < -pl.width / 2) := not_lt.mpr (le_trans hmono (le_of_lt h))
    have : pl.moveHorizontal moveX canvasWidth =
        { pl with x := -pl.width / 2, velocityX := moveX } := by
      simp [Player.moveHorizontal, h1, h]
    exact ⟨by rw [update_x, this], this⟩
  · intro h
    have : pl.moveHorizontal moveX canvasWidth =
        { pl with x := canvasWidth - pl.width / 2, velocityX := moveX } := by
      simp [Player.moveHorizontal, h]
    exact ⟨by rw [update_x, this], this⟩
  · intro h1 h2
    have : pl.moveHorizontal moveX canvasWidth =
        { pl with x := pl.x + moveX, velocityX := moveX } := by
      simp only [Player.moveHorizontal]
      rw [if_neg h2, if_neg]
      exact fun h => h1 h
    exact ⟨by rw [update_x, this], this⟩
  · unfold Player.moveHorizontal
    simp only
    split_ifs <;> rfl
  · unfold Player.moveHorizontal
    simp only
    split_ifs <;> rfl

theorem horizontal_wrap_witness :
    ((Player.new 390 500).update 6 [] 400).x = -15 ∧
    ((Player.new (-12) 500).update (-6) [] 400).x = 385 := by
  constructor
  · have h := ((horizontal_wrap (Player.new 390 500) 6 400 [] (by norm_num)).1
      (by norm_num [Player.new, PLAYER_WIDTH])).1
    rw [h]
    norm_num [Player.new, PLAYER_WIDTH]
  · have h := ((horizontal_wrap (Player.new (-12) 500) (-6) 400 [] (by norm_num)).2.1
      (by norm_num [Player.new, PLAYER_WIDTH])).1
    rw [h]
    norm_num [Player.new, PLAYER_WIDTH]

/-- C10. Jump: with `isOnGround = false` the method `jump` returns the player unchanged in
every field (no double jump); with `isOnGround = true` it sets `velocityY` to `JUMP_FORCE`
(-15) and `isOnGround` to false and leaves `x`, `y`, `width`, `height` and `velocityX` as they
were. -/
theorem jump_spec (x y width height velocityX velocityY : ℚ) :
    Player.jump ⟨x, y, width, height, velocityX, velocityY, false⟩ =
      ⟨x, y, width, height, velocityX, velocityY, false⟩ ∧
    Player.jump ⟨x, y, width, height, velocityX, velocityY, true⟩ =
      ⟨x, y, width, height, velocityX, -15, false⟩ ∧
    JUMP_FORCE = -15 := by
  refine ⟨?_, ?_, rfl⟩
  · simp [Player.jump]
  · simp [Player.jump, JUMP_FORCE]

/-! ## The ground platform -/

theorem generateLoop_eq (rand : ℕ → ℚ) (canvasWidth : ℚ) (n : ℕ) :
    ∀ (i : ℕ) (y : ℚ) (platforms : List Platform),
      generateLoop rand canvasWidth n i y platforms =
        platforms ++ appended rand canvasWidth y i n := by
  induction n with
  | zero =>
    intro i y platforms
    simp [generateLoop, appended]
  | succ n ih =>
    intro i y platforms
    rw [generateLoop, ih, appended_succ]
    simp [PLATFORM_GAP, PLATFORM_WIDTH, PLATFORM_HEIGHT]

theorem appended_not_ground (rand : ℕ → ℚ) (canvasWidth top : ℚ) (i n : ℕ) :
    ∀ p ∈ appended rand canvasWidth top i n,
      p.isGround = false ∧ p.width = 100 ∧ p.height = 15 := by
  intro p hp
  unfold appended at hp
  rw [List.mem_map] at hp
  obtain ⟨k, -, rfl⟩ := hp
  exact ⟨rfl, rfl, rfl⟩

theorem countP_ground_appended (rand : ℕ → ℚ) (canvasWidth top : ℚ) (i n : ℕ) :
    (appended rand canvasWidth top i n).countP (fun p => p.isGround) = 0 := by
  rw [List.countP_eq_zero]
  intro p hp
  simp [(appended_not_ground rand canvasWidth top i n p hp).1]

theorem platformsOk_append (ground : Platform) (platforms : List Platform) (rand : ℕ → ℚ)
    (canvasWidth top : ℚ) (i n : ℕ) (h : PlatformsOk ground platforms) :
    PlatformsOk ground (platforms ++ appended rand canvasWidth top i n) := by
  obtain ⟨h1, h2, h3⟩ := h
  refine ⟨?_, ?_, ?_⟩
  · rw [List.countP_append, countP_ground_appended, Nat.add_zero]
    exact h1
  · intro p hp hg
    rcases List.mem_append.mp hp with hmem | hmem
    · exact h2 p hmem hg
    · rw [(appended_not_ground rand canvasWidth top i n p hmem).1] at hg
      cases hg
  · intro p hp hg
    rcases List.mem_append.mp hp with hmem | hmem
    · exact h3 p hmem hg
    · exact (appended_not_ground rand canvasWidth top i n p hmem).2

theorem platformsOk_sublist (ground : Platform) (l1 l2 : List Platform)
    (hsub : List.Sublist l1 l2) (h : PlatformsOk ground l2) : PlatformsOk ground l1 :=
  ⟨le_trans (hsub.countP_le _) h.1, fun p hp => h.2.1 p (hsub.subset hp),
    fun p hp => h.2.2 p (hsub.subset hp)⟩

/-- The platform list `startGame` leaves: the ground platform, then fifteen generated ones. -/
theorem startGame_platforms (g : Game) (rand : ℕ → ℚ) :
    (g.startGame rand).platforms =
      Platform.mk 0 (g.canvasHeight - 50) g.canvasWidth 50 true ::
        appended rand g.canvasWidth (g.canvasHeight - 50) 0 15 := by
  simp only [Game.startGame, Game.generateInitialPlatforms, generateLoop_eq]
  rfl

theorem update_platformsOk (ground : Platform) (g : Game) (deltaTime : ℚ) (rand : ℕ → ℚ)
    (g1 : Game) (h : g.update deltaTime rand = Except.ok g1)
    (hok : PlatformsOk ground g.platforms) : PlatformsOk ground g1.platforms := by
  by_cases hstate : g.gameState = GameState.playing
  · cases hpl : g.player with
    | none =>
      unfold Game.update at h
      simp [hstate, hpl] at h
    | some pl =>
      by_cases hne : g.platforms = []
      · unfold Game.update at h
        simp [hstate, hpl, hne, highestPlatform] at h
      · obtain ⟨g2, top, hupd, -, -, -, -, hplat⟩ :=
          update_playing_fields g deltaTime rand pl hstate hpl hne
        rw [hupd] at h
        cases h
        rw [hplat]
        obtain ⟨n, hn, -, -⟩ := extendLoop_eq rand g.canvasWidth (g1.cameraY - g.canvasHeight)
          _ top 0 g.platforms rfl
        rw [hn]
        exact platformsOk_sublist ground _ _ (List.filter_sublist _)
          (platformsOk_append ground _ rand _ _ _ _ hok)
  · unfold Game.update at h
    simp only [ne_eq, hstate, not_false_eq_true, if_true] at h
    cases h
    exact hok

theorem handle_platformsOk (ground : Platform) (g : Game) (e : Event) (g1 : Game)
    (h : g.handle e = Except.ok g1) (hok : PlatformsOk ground g.platforms) :
    PlatformsOk ground g1.platforms := by
  cases e with
  | frame deltaTime rand => exact update_platformsOk ground g deltaTime rand g1 h hok
  | jumpPressed =>
    unfold Game.handle Game.jumpPressed at h
    split_ifs at h
    · cases hpl : g.player with
      | none => simp [hpl] at h
      | some pl =>
        simp only [hpl] at h
        cases h
        exact hok
    · cases h
      exact hok
  | setInput keys touchControls =>
    cases h
    exact hok
  | resize width height =>
    cases h
    exact hok

theorem run_platformsOk (ground : Platform) (events : List Event) :
    ∀ (g g1 : Game), g.run events = Except.ok g1 → PlatformsOk ground g.platforms →
      PlatformsOk ground g1.platforms := by
  induction events with
  | nil =>
    intro g g1 hrun hok
    cases hrun
    exact hok
  | cons e es ih =>
    intro g g1 hrun hok
    unfold Game.run at hrun
    cases he : g.handle e with
    | error f => simp [he] at hrun
    | ok g2 =>
      simp only [he] at hrun
      exact ih g2 g1 hrun (handle_platformsOk ground g e g2 he hok)

/-! ## A climb that loses the ground platform -/

theorem climb_start :
    (Game.new 400 100 none).startGame halfRandom = climbState 0 0 false 0 0 seedPlatforms := by
  simp only [Game.startGame, Game.generateInitialPlatforms, Game.new, generateLoop_eq]
  norm_num [climbState, Player.new, appended, halfRandom, List.range, List.range.loop,
    seedPlatforms, PLAYER_WIDTH, PLAYER_HEIGHT]

theorem extendLoop_of_le (rand : ℕ → ℚ) (canvasWidth bound top : ℚ) (i : ℕ)
    (platforms : List Platform) (h : top ≤ bound) :
    extendLoop rand canvasWidth bound top i platforms = platforms := by
  rw [extendLoop, if_neg (not_lt.mpr h)]

theorem highestPlatform_seed : highestPlatform seedPlatforms = some (-1150) := by
  norm_num [highestPlatform, seedPlatforms]

theorem cull_seed_all (cameraY : ℚ) (h : -150 < cameraY) :
    cullPlatforms seedPlatforms cameraY 100 = seedPlatforms := by
  unfold cullPlatforms
  rw [List.filter_eq_self]
  intro p hp
  simp only [seedPlatforms, List.mem_cons, List.mem_singleton, List.not_mem_nil, or_false] at hp
  rw [decide_eq_true_eq]
  rcases hp with rfl | rfl | rfl | rfl | rfl | rfl | rfl | rfl | rfl | rfl | rfl | rfl | rfl |
    rfl | rfl | rfl <;> simp only <;> linarith

theorem cull_seed_ground (cameraY : ℚ) (h1 : cameraY ≤ -150) (h2 : -230 < cameraY) :
    cullPlatforms seedPlatforms cameraY 100 = seedPlatforms.tail := by
  have hg : ¬ ((50 : ℚ) < cameraY + 100 + 100) := by linarith
  have ht : cullPlatforms seedPlatforms.tail cameraY 100 = seedPlatforms.tail := by
    unfold cullPlatforms
    rw [List.filter_eq_self]
    intro p hp
    simp only [seedPlatforms, List.tail_cons, List.mem_cons, List.mem_singleton,
      List.not_mem_nil, or_false] at hp
    rw [decide_eq_true_eq]
    rcases hp with rfl | rfl | rfl | rfl | rfl | rfl | rfl | rfl | rfl | rfl | rfl | rfl | rfl |
      rfl | rfl <;> simp only <;> linarith
  have : seedPlatforms = Platform.mk 0 50 400 50 true :: seedPlatforms.tail := rfl
  rw [this]
  unfold cullPlatforms at ht ⊢
  rw [List.filter_cons_of_neg (by simpa using hg)]
  rw [List.tail_cons]
  exact ht

theorem climb_moveX (y velocityY : ℚ) (isOnGround : Bool) (cameraY : ℚ) (score : ℤ)
    (platforms : List Platform) :
    (climbState y velocityY isOnGround cameraY score platforms).moveX = 0 := by
  simp [Game.moveX, climbState]

theorem climb_applyGravity (y velocityY y1 velocityY1 : ℚ) (isOnGround : Bool)
    (hv : velocityY1 = velocityY + 3 / 5) (hclamp : velocityY1 ≤ 20) (hy : y1 = y + velocityY1) :
    ((Player.mk 200 y 30 40 0 velocityY isOnGround).moveHorizontal 0 400).applyGravity =
      ⟨200, y1, 30, 40, 0, velocityY1, isOnGround⟩ := by
  have h1 : Player.moveHorizontal ⟨200, y, 30, 40, 0, velocityY, isOnGround⟩ 0 400 =
      ⟨200, y, 30, 40, 0, velocityY, isOnGround⟩ := by
    norm_num [Player.moveHorizontal]
  rw [h1]
  unfold Player.applyGravity
  simp only [GRAVITY, MAX_FALL_SPEED]
  rw [← hv, if_neg (not_lt.mpr hclamp), ← hy]

theorem no_overlap_of_above (pl : Player) (q : Platform) (h : pl.y + pl.height ≤ q.y) :
    pl.checkCollision q = false := by
  simp [Player.checkCollision, not_lt.mpr h]

theorem no_overlap_of_below (pl : Player) (q : Platform) (h : q.y + q.height ≤ pl.y) :
    pl.checkCollision q = false := by
  simp [Player.checkCollision, not_lt.mpr h]

/-- A player between `y = -15` and `y = 10` overlaps no seeded platform. -/
theorem seed_no_overlap (y velocityY : ℚ) (isOnGround : Bool) (h1 : -15 ≤ y) (h2 : y ≤ 10) :
    ∀ q ∈ seedPlatforms,
      (Player.mk 200 y 30 40 0 velocityY isOnGround).checkCollision q = false := by
  intro q hq
  simp only [seedPlatforms, List.mem_cons, List.mem_singleton, List.not_mem_nil, or_false] at hq
  rcases hq with rfl | rfl | rfl | rfl | rfl | rfl | rfl | rfl | rfl | rfl | rfl | rfl | rfl |
    rfl | rfl | rfl
  · exact no_overlap_of_above _ _ (by simp only; linarith)
  all_goals exact no_overlap_of_below _ _ (by simp only; linarith)

/-- The player part of a frame in which no landing happens. -/
theorem climb_player_air (y velocityY y1 velocityY1 : ℚ) (isOnGround : Bool)
    (platforms : List Platform) (hsub : ∀ q ∈ platforms, q ∈ seedPlatforms)
    (hv : velocityY1 = velocityY + 3 / 5) (hclamp : velocityY1 ≤ 20) (hy : y1 = y + velocityY1)
    (hno : velocityY1 ≤ 0 ∨ (-15 ≤ y1 ∧ y1 ≤ 10)) :
    (Player.mk 200 y 30 40 0 velocityY isOnGround).update 0 platforms 400 =
      ⟨200, y1, 30, 40, 0, velocityY1, false⟩ := by
  unfold Player.update Player.resolveCollisions
  rw [climb_applyGravity y velocityY y1 velocityY1 isOnGround hv hclamp hy]
  rcases hno with h | ⟨h1, h2⟩
  · exact foldl_collideStep_of_not_falling platforms _ h
  · exact foldl_collideStep_of_no_landing platforms ⟨200, y1, 30, 40, 0, velocityY1, false⟩
      (fun q hq => by rw [seed_no_overlap y1 velocityY1 false h1 h2 q (hsub q hq)]; rfl)

/-- A frame of the climb in which no landing happens, no platform is added and the player
stays in view. -/
theorem climb_frame_air (y velocityY y1 velocityY1 cameraY cameraY1 : ℚ) (isOnGround : Bool)
    (score : ℤ) (deltaTime : ℚ) (rand : ℕ → ℚ)
    (hv : velocityY1 = velocityY + 3 / 5) (hclamp : velocityY1 ≤ 20) (hy : y1 = y + velocityY1)
    (hno : velocityY1 ≤ 0 ∨ (-15 ≤ y1 ∧ y1 ≤ 10))
    (hcam : cameraY1 = updateCamera cameraY y1 100) (hext : -1150 ≤ cameraY1 - 100)
    (hview : y1 ≤ cameraY1 + 100) :
    ∃ score1, (climbState y velocityY isOnGround cameraY score seedPlatforms).update deltaTime
        rand = Except.ok (climbState y1 velocityY1 false cameraY1 score1
          (cullPlatforms seedPlatforms cameraY1 100)) := by
  obtain ⟨top, htop, hupd⟩ := update_playing
    (climbState y velocityY isOnGround cameraY score seedPlatforms) deltaTime rand
    ⟨200, y, 30, 40, 0, velocityY, isOnGround⟩ rfl rfl (List.cons_ne_nil _ _)
  have htop1 : top = -1150 := by
    have h : highestPlatform seedPlatforms = some top := htop
    rw [highestPlatform_seed] at h
    exact (Option.some.inj h).symm
  subst htop1
  rw [climb_moveX] at hupd
  have hpl : Player.update ⟨200, y, 30, 40, 0, velocityY, isOnGround⟩ 0
      (climbState y velocityY isOnGround cameraY score seedPlatforms).platforms
      (climbState y velocityY isOnGround cameraY score seedPlatforms).canvasWidth =
      ⟨200, y1, 30, 40, 0, velocityY1, false⟩ :=
    climb_player_air y velocityY y1 velocityY1 isOnGround seedPlatforms (fun _ h => h)
      hv hclamp hy hno
  rw [hpl] at hupd
  have hcam1 : updateCamera
      (climbState y velocityY isOnGround cameraY score seedPlatforms).cameraY y1
      (climbState y velocityY isOnGround cameraY score seedPlatforms).canvasHeight = cameraY1 :=
    hcam.symm
  simp only [hcam1] at hupd
  have hH : (climbState y velocityY isOnGround cameraY score seedPlatforms).canvasHeight = 100 :=
    rfl
  rw [hH, if_neg (not_lt.mpr hview), extendLoop_of_le _ _ _ _ _ _ hext] at hupd
  exact ⟨_, hupd⟩

/-- A frame of the climb in which no landing happens and every platform is kept. -/
theorem climb_frame_keep (y velocityY y1 velocityY1 cameraY cameraY1 : ℚ) (isOnGround : Bool)
    (score : ℤ) (deltaTime : ℚ) (rand : ℕ → ℚ)
    (hv : velocityY1 = velocityY + 3 / 5) (hclamp : velocityY1 ≤ 20) (hy : y1 = y + velocityY1)
    (hno : velocityY1 ≤ 0 ∨ (-15 ≤ y1 ∧ y1 ≤ 10))
    (hcam : cameraY1 = updateCamera cameraY y1 100) (hkeep : -150 < cameraY1)
    (hview : y1 ≤ cameraY1 + 100) :
    ∃ score1, (climbState y velocityY isOnGround cameraY score seedPlatforms).update deltaTime
        rand = Except.ok (climbState y1 velocityY1 false cameraY1 score1 seedPlatforms) := by
  obtain ⟨score1, h⟩ := climb_frame_air y velocityY y1 velocityY1 cameraY cameraY1 isOnGround
    score deltaTime rand hv hclamp hy hno hcam (by linarith) hview
  rw [cull_seed_all _ hkeep] at h
  exact ⟨score1, h⟩

/-- The player part of the frame in which the player lands on the ground platform. -/
theorem climb_player_land :
    (Player.mk 200 9 30 40 0 3 false).update 0 seedPlatforms 400 =
      ⟨200, 10, 30, 40, 0, 0, true⟩ := by
  unfold Player.update Player.resolveCollisions
  rw [climb_applyGravity 9 3 (63 / 5) (18 / 5) false (by norm_num) (by norm_num)
    (by norm_num)]
  have := foldl_collideStep_first_landing [] seedPlatforms.tail (Platform.mk 0 50 400 50 true)
    ⟨200, 63 / 5, 30, 40, 0, 18 / 5, false⟩ (fun q hq => by cases hq)
    (by norm_num [Player.checkCollision]) (by norm_num [Player.landsOn])
  refine Eq.trans this ?_
  norm_num

/-- The frame of the climb in which the player lands on the ground platform. -/
theorem climb_frame_land (score : ℤ) (deltaTime : ℚ) (rand : ℕ → ℚ) :
    ∃ score1, (climbState 9 3 false (-197 / 5) score seedPlatforms).update deltaTime rand =
      Except.ok (climbState 10 0 true (-197 / 5) score1 seedPlatforms) := by
  obtain ⟨top, htop, hupd⟩ := update_playing
    (climbState 9 3 false (-197 / 5) score seedPlatforms) deltaTime rand
    ⟨200, 9, 30, 40, 0, 3, false⟩ rfl rfl (List.cons_ne_nil _ _)
  have htop1 : top = -1150 := by
    have h : highestPlatform seedPlatforms = some top := htop
    rw [highestPlatform_seed] at h
    exact (Option.some.inj h).symm
  subst htop1
  rw [climb_moveX] at hupd
  have hpl : Player.update ⟨200, 9, 30, 40, 0, 3, false⟩ 0
      (climbState 9 3 false (-197 / 5) score seedPlatforms).platforms
      (climbState 9 3 false (-197 / 5) score seedPlatforms).canvasWidth =
      ⟨200, 10, 30, 40, 0, 0, true⟩ := climb_player_land
  rw [hpl] at hupd
  have hcam1 : updateCamera (climbState 9 3 false (-197 / 5) score seedPlatforms).cameraY 10
      (climbState 9 3 false (-197 / 5) score seedPlatforms).canvasHeight = -197 / 5 := by
    norm_num [updateCamera, climbState, CAMERA_OFFSET]
  simp only [hcam1] at hupd
  have hH : (climbState 9 3 false (-197 / 5) score seedPlatforms).canvasHeight = 100 := rfl
  have hP : (climbState 9 3 false (-197 / 5) score seedPlatforms).platforms = seedPlatforms :=
    rfl
  rw [hH, if_neg (by norm_num), extendLoop_of_le _ _ _ _ _ _ (by norm_num), hP,
    cull_seed_all _ (by norm_num)] at hupd
  exact ⟨_, hupd⟩

theorem climb_jump (cameraY : ℚ) (score : ℤ) (platforms : List Platform) :
    (climbState 10 0 true cameraY score platforms).jumpPressed =
      Except.ok (climbState 10 (-15) false cameraY score platforms) := by
  simp [Game.jumpPressed, climbState, Player.jump, JUMP_FORCE]

theorem run_frame (g g1 : Game) (deltaTime : ℚ) (rand : ℕ → ℚ) (events : List Event)
    (h : g.update deltaTime rand = Except.ok g1) :
    g.run (Event.frame deltaTime rand :: events) = g1.run events := by
  simp [Game.run, Game.handle, h]

theorem run_jump (g g1 : Game) (events : List Event) (h : g.jumpPressed = Except.ok g1) :
    g.run (Event.jumpPressed :: events) = g1.run events := by
  simp [Game.run, Game.handle, h]

/-- The climb returns a playing state with the camera at `-155.4` and the seeded platforms
without the first one, the ground platform. -/
theorem climb_run :
    ∃ score, ((Game.new 400 100 none).startGame halfRandom).run climbEvents =
      Except.ok (climbState (-577 / 5) (-42 / 5) false (-777 / 5) score seedPlatforms.tail) := by
  obtain ⟨s1, h1⟩ := climb_frame_keep 0 0 (3 / 5) (3 / 5) 0 (-197 / 5) false 0
    16 halfRandom (by norm_num) (by norm_num) (by norm_num) (by norm_num)
    (by norm_num [updateCamera, CAMERA_OFFSET]) (by norm_num) (by norm_num)
  obtain ⟨s2, h2⟩ := climb_frame_keep (3 / 5) (3 / 5) (9 / 5) (6 / 5) (-197 / 5) (-197 / 5) false s1
    16 halfRandom (by norm_num) (by norm_num) (by norm_num) (by norm_num)
    (by norm_num [updateCamera, CAMERA_OFFSET]) (by norm_num) (by norm_num)
  obtain ⟨s3, h3⟩ := climb_frame_keep (9 / 5) (6 / 5) (18 / 5) (9 / 5) (-197 / 5) (-197 / 5)
    false s2
    16 halfRandom (by norm_num) (by norm_num) (by norm_num) (by norm_num)
    (by norm_num [updateCamera, CAMERA_OFFSET]) (by norm_num) (by norm_num)
  obtain ⟨s4, h4⟩ := climb_frame_keep (18 / 5) (9 / 5) 6 (12 / 5) (-197 / 5) (-197 / 5) false s3
    16 halfRandom (by norm_num) (by norm_num) (by norm_num) (by norm_num)
    (by norm_num [updateCamera, CAMERA_OFFSET]) (by norm_num) (by norm_num)
  obtain ⟨s5, h5⟩ := climb_frame_keep 6 (12 / 5) 9 3 (-197 / 5) (-197 / 5) false s4
    16 halfRandom (by norm_num) (by norm_num) (by norm_num) (by norm_num)
    (by norm_num [updateCamera, CAMERA_OFFSET]) (by norm_num) (by norm_num)
  obtain ⟨s6, h6⟩ := climb_frame_land s5 16 halfRandom
  obtain ⟨s7, h7⟩ := climb_frame_keep 10 (-15) (-22 / 5) (-72 / 5) (-197 / 5) (-222 / 5) false s6
    16 halfRandom (by norm_num) (by norm_num) (by norm_num) (by norm_num)
    (by norm_num [updateCamera, CAMERA_OFFSET]) (by norm_num) (by norm_num)
  obtain ⟨s8, h8⟩ := climb_frame_keep (-22 / 5) (-72 / 5) (-91 / 5) (-69 / 5) (-222 / 5) (-291 / 5)
    false s7
    16 halfRandom (by norm_num) (by norm_num) (by norm_num) (by norm_num)
    (by norm_num [updateCamera, CAMERA_OFFSET]) (by norm_num) (by norm_num)
  obtain ⟨s9, h9⟩ := climb_frame_keep (-91 / 5) (-69 / 5) (-157 / 5) (-66 / 5) (-291 / 5) (-357 / 5)
    false s8
    16 halfRandom (by norm_num) (by norm_num) (by norm_num) (by norm_num)
    (by norm_num [updateCamera, CAMERA_OFFSET]) (by norm_num) (by norm_num)
  obtain ⟨s10, h10⟩ := climb_frame_keep (-157 / 5) (-66 / 5) (-44) (-63 / 5) (-357 / 5) (-84)
    false s9
    16 halfRandom (by norm_num) (by norm_num) (by norm_num) (by norm_num)
    (by norm_num [updateCamera, CAMERA_OFFSET]) (by norm_num) (by norm_num)
  obtain ⟨s11, h11⟩ := climb_frame_keep (-44) (-63 / 5) (-56) (-12) (-84) (-96) false s10
    16 halfRandom (by norm_num) (by norm_num) (by norm_num) (by norm_num)
    (by norm_num [updateCamera, CAMERA_OFFSET]) (by norm_num) (by norm_num)
  obtain ⟨s12, h12⟩ := climb_frame_keep (-56) (-12) (-337 / 5) (-57 / 5) (-96) (-537 / 5) false s11
    16 halfRandom (by norm_num) (by norm_num) (by norm_num) (by norm_num)
    (by norm_num [updateCamera, CAMERA_OFFSET]) (by norm_num) (by norm_num)
  obtain ⟨s13, h13⟩ := climb_frame_keep (-337 / 5) (-57 / 5) (-391 / 5) (-54 / 5) (-537 / 5)
    (-591 / 5)
    false s12
    16 halfRandom (by norm_num) (by norm_num) (by norm_num) (by norm_num)
    (by norm_num [updateCamera, CAMERA_OFFSET]) (by norm_num) (by norm_num)
  obtain ⟨s14, h14⟩ := climb_frame_keep (-391 / 5) (-54 / 5) (-442 / 5) (-51 / 5) (-591 / 5)
    (-642 / 5)
    false s13
    16 halfRandom (by norm_num) (by norm_num) (by norm_num) (by norm_num)
    (by norm_num [updateCamera, CAMERA_OFFSET]) (by norm_num) (by norm_num)
  obtain ⟨s15, h15⟩ := climb_frame_keep (-442 / 5) (-51 / 5) (-98) (-48 / 5) (-642 / 5) (-138)
    false s14
    16 halfRandom (by norm_num) (by norm_num) (by norm_num) (by norm_num)
    (by norm_num [updateCamera, CAMERA_OFFSET]) (by norm_num) (by norm_num)
  obtain ⟨s16, h16⟩ := climb_frame_keep (-98) (-48 / 5) (-107) (-9) (-138) (-147) false s15
    16 halfRandom (by norm_num) (by norm_num) (by norm_num) (by norm_num)
    (by norm_num [updateCamera, CAMERA_OFFSET]) (by norm_num) (by norm_num)
  obtain ⟨s17, h17⟩ := climb_frame_air (-107) (-9) (-577 / 5) (-42 / 5) (-147) (-777 / 5) false s16
    16 halfRandom (by norm_num) (by norm_num) (by norm_num) (by norm_num)
    (by norm_num [updateCamera, CAMERA_OFFSET]) (by norm_num) (by norm_num)
  rw [cull_seed_ground _ (by norm_num) (by norm_num)] at h17
  refine ⟨s17, ?_⟩
  · rw [climb_start]
    simp only [climbEvents, List.replicate, List.cons_append, List.nil_append]
    rw [run_frame _ _ _ _ _ h1,
      run_frame _ _ _ _ _ h2,
      run_frame _ _ _ _ _ h3,
      run_frame _ _ _ _ _ h4,
      run_frame _ _ _ _ _ h5,
      run_frame _ _ _ _ _ h6,
      run_jump _ _ _ (climb_jump _ _ _),
      run_frame _ _ _ _ _ h7,
      run_frame _ _ _ _ _ h8,
      run_frame _ _ _ _ _ h9,
      run_frame _ _ _ _ _ h10,
      run_frame _ _ _ _ _ h11,
      run_frame _ _ _ _ _ h12,
      run_frame _ _ _ _ _ h13,
      run_frame _ _ _ _ _ h14,
      run_frame _ _ _ _ _ h15,
      run_frame _ _ _ _ _ h16,
      run_frame _ _ _ _ _ h17]
    rfl

theorem climb_final_no_ground (score : ℤ) :
    (climbState (-577 / 5) (-42 / 5) false (-777 / 5) score seedPlatforms.tail).platforms.countP
      (fun p => p.isGround) = 0 := by
  simp [climbState, seedPlatforms]

/-- C5, as stated, fails: in a 400 x 100 canvas, after `startGame`, six frames of falling onto
the ground platform, a jump and eleven frames of rising, the game is still playing, the
camera is at `-155.4`, and the cull step of the last frame has removed the ground platform
(`y = 50 ≥ -155.4 + 100 + 100`): no platform with `isGround = true` is left. -/
theorem ground_platform_culled_counterexample :
    ∃ g, ((Game.new 400 100 none).startGame halfRandom).run climbEvents = Except.ok g ∧
      g.gameState = GameState.playing ∧ g.cameraY = -777 / 5 ∧
      g.platforms.countP (fun p => p.isGround) = 0 := by
  obtain ⟨score, hrun⟩ := climb_run
  exact ⟨_, hrun, rfl, rfl, climb_final_no_ground score⟩

/-- C5, amended. Ground-platform invariant: in every state reached from `startGame` by frames
of `update` (with whatever input flags, jumps and canvas sizes come between them) the platform
list holds at most one platform with `isGround = true`, which is the ground platform
`startGame` seeded, plus zero or more generated platforms of size 100 x 15; right after
`startGame` the ground platform is there exactly once. -/
theorem ground_platform_at_most_once (g0 : Game) (rand0 : ℕ → ℚ) (events : List Event)
    (g : Game) (hrun : (g0.startGame rand0).run events = Except.ok g) :
    (g0.startGame rand0).platforms.countP (fun p => p.isGround) = 1 ∧
    g.platforms.countP (fun p => p.isGround) ≤ 1 ∧
    (∀ p ∈ g.platforms, p.isGround = true →
      p = Platform.mk 0 (g0.canvasHeight - 50) g0.canvasWidth 50 true) ∧
    (∀ p ∈ g.platforms, p.isGround = false → p.width = 100 ∧ p.height = 15) := by
  have hcount : (g0.startGame rand0).platforms.countP (fun p => p.isGround) = 1 := by
    rw [startGame_platforms, List.countP_cons_of_pos _ _ (by rfl), countP_ground_appended]
  have hstart : PlatformsOk (Platform.mk 0 (g0.canvasHeight - 50) g0.canvasWidth 50 true)
      (g0.startGame rand0).platforms := by
    refine ⟨le_of_eq hcount, ?_, ?_⟩
    · intro p hp hg
      rw [startGame_platforms] at hp
      rcases List.mem_cons.mp hp with rfl | hmem
      · rfl
      · rw [(appended_not_ground _ _ _ _ _ p hmem).1] at hg
        cases hg
    · intro p hp hg
      rw [startGame_platforms] at hp
      rcases List.mem_cons.mp hp with rfl | hmem
      · cases hg
      · exact (appended_not_ground _ _ _ _ _ p hmem).2
  exact ⟨hcount, run_platformsOk _ events _ g hrun hstart⟩

theorem ground_platform_at_most_once_witness :
    ∃ g, ((Game.new 400 100 none).startGame halfRandom).run climbEvents = Except.ok g ∧
      g.platforms.countP (fun p => p.isGround) ≤ 1 := by
  obtain ⟨score, hrun⟩ := climb_run
  exact ⟨_, hrun,
    (ground_platform_at_most_once (Game.new 400 100 none) halfRandom climbEvents _ hrun).2.1⟩

/-! ## Seeding, restart, game over and the frozen states -/

/-- The least `y` of the seeded platform list is the height of the fifteenth generated
platform. -/
theorem highestPlatform_seeded (rand : ℕ → ℚ) (canvasWidth top : ℚ) (x width height : ℚ)
    (isGround : Bool) :
    highestPlatform (Platform.mk x top width height isGround ::
      appended rand canvasWidth top 0 15) = some (top - 15 * 80) := by
  obtain ⟨m, hm, hle, p, hp, hpm⟩ := highestPlatform_isLeast
    (Platform.mk x top width height isGround :: appended rand canvasWidth top 0 15)
    (List.cons_ne_nil _ _)
  rw [hm]
  congr 1
  apply le_antisymm
  · refine le_trans (hle (Platform.mk (rand (0 + 14) * (canvasWidth - 100))
      (top - 80 * (((14 : ℕ) : ℚ) + 1)) 100 15 false) ?_) ?_
    · apply List.mem_cons_of_mem
      unfold appended
      rw [List.mem_map]
      exact ⟨14, List.mem_range.mpr (by norm_num), rfl⟩
    · norm_num
  · rw [← hpm]
    rcases List.mem_cons.mp hp with rfl | hmem
    · simp only
      linarith
    · unfold appended at hmem
      rw [List.mem_map] at hmem
      obtain ⟨k, hk, rfl⟩ := hmem
      have hk15 : (k : ℚ) + 1 ≤ 15 := by
        have : k + 1 ≤ 15 := List.mem_range.mp hk
        exact_mod_cast this
      simp only
      linarith

/-- C11. Seeding: on an empty platform list `generateInitialPlatforms` produces exactly 16
platforms: first the full-width ground platform (`x = 0`, `y = H - 50`, width `W`, height 50,
`isGround`), then 15 generated platforms of size 100 x 15, the `i`-th (`i = 1..15`) at
`y = H - 50 - 80 * i` and `x = random * (W - 100)`; the topmost is at `(H - 50) - 15 * 80`,
which is `-650` for `W = 400`, `H = 600`. -/
theorem seed_platforms (g : Game) (rand : ℕ → ℚ) (hempty : g.platforms = []) :
    (g.generateInitialPlatforms rand).platforms =
      Platform.mk 0 (g.canvasHeight - 50) g.canvasWidth 50 true ::
        (List.range 15).map (fun k =>
          Platform.mk (rand k * (g.canvasWidth - 100))
            (g.canvasHeight - 50 - 80 * ((k : ℚ) + 1)) 100 15 false) ∧
    (g.generateInitialPlatforms rand).platforms.length = 16 ∧
    (g.generateInitialPlatforms rand).platforms.countP (fun p => p.isGround) = 1 ∧
    highestPlatform (g.generateInitialPlatforms rand).platforms =
      some ((g.canvasHeight - 50) - 15 * 80) ∧
    (g.canvasWidth = 400 → g.canvasHeight = 600 →
      highestPlatform (g.generateInitialPlatforms rand).platforms = some (-650)) := by
  have hlist : (g.generateInitialPlatforms rand).platforms =
      Platform.mk 0 (g.canvasHeight - 50) g.canvasWidth 50 true ::
        appended rand g.canvasWidth (g.canvasHeight - 50) 0 15 := by
    simp only [Game.generateInitialPlatforms, generateLoop_eq, hempty]
    rfl
  have htop := highestPlatform_seeded rand g.canvasWidth (g.canvasHeight - 50) 0
    g.canvasWidth 50 true
  refine ⟨?_, ?_, ?_, ?_, ?_⟩
  · rw [hlist]
    simp [appended]
  · rw [hlist]
    simp [appended]
  · rw [hlist, List.countP_cons_of_pos _ _ (by rfl), countP_ground_appended]
  · rw [hlist]
    exact htop
  · intro _ hH
    rw [hlist, htop, hH]
    norm_num

theorem seed_platforms_witness :
    ((Game.new 400 600 none).generateInitialPlatforms halfRandom).platforms.length = 16 ∧
    highestPlatform ((Game.new 400 600 none).generateInitialPlatforms halfRandom).platforms =
      some (-650) :=
  ⟨(seed_platforms (Game.new 400 600 none) halfRandom rfl).2.1,
    (seed_platforms (Game.new 400 600 none) halfRandom rfl).2.2.2.2 rfl rfl⟩

theorem gameOver_gameState (g : Game) : g.gameOver.gameState = GameState.gameOver := by
  unfold Game.gameOver
  simp only
  split_ifs <;> rfl

theorem gameOver_of_gt (g : Game) (h : g.score > g.highScore) :
    g.gameOver.highScore = g.score ∧ g.gameOver.storedHighScore = some g.score := by
  unfold Game.gameOver
  simp only
  rw [if_pos h]
  exact ⟨rfl, rfl⟩

theorem gameOver_of_le (g : Game) (h : g.score ≤ g.highScore) :
    g.gameOver.highScore = g.highScore ∧ g.gameOver.storedHighScore = g.storedHighScore := by
  unfold Game.gameOver
  simp only
  rw [if_neg (not_lt.mpr h)]
  exact ⟨rfl, rfl⟩

/-- C13. High score on game over: `gameOver` sets the state to `gameOver`, leaves the score
unchanged and ends with `highScore = max(highScore, score)`, so the high score never
decreases; it stores the new high score exactly when the score exceeds the old one, and when
`score ≤ highScore` neither the high score nor the stored value changes; player, platforms
and camera are left as they were. -/
theorem gameOver_spec (g : Game) :
    g.gameOver.gameState = GameState.gameOver ∧
    g.gameOver.score = g.score ∧
    g.gameOver.highScore = max g.highScore g.score ∧
    g.highScore ≤ g.gameOver.highScore ∧
    (g.score > g.highScore →
      g.gameOver.highScore = g.score ∧ g.gameOver.storedHighScore = some g.score) ∧
    (g.score ≤ g.highScore →
      g.gameOver.highScore = g.highScore ∧
      g.gameOver.storedHighScore = g.storedHighScore) ∧
    g.gameOver.player = g.player ∧ g.gameOver.platforms = g.platforms ∧
    g.gameOver.cameraY = g.cameraY := by
  have hstate := gameOver_gameState g
  by_cases h : g.score > g.highScore
  · obtain ⟨h1, h2⟩ := gameOver_of_gt g h
    refine ⟨hstate, gameOver_score g, ?_, ?_, fun _ => ⟨h1, h2⟩,
      fun hle => absurd h (not_lt.mpr hle), gameOver_player g, gameOver_platforms g,
      gameOver_cameraY g⟩
    · rw [h1]
      exact (max_eq_right (le_of_lt h)).symm
    · rw [h1]
      exact le_of_lt h
  · obtain ⟨h1, h2⟩ := gameOver_of_le g (not_lt.mp h)
    refine ⟨hstate, gameOver_score g, ?_, ?_, fun hgt => absurd hgt h, fun _ => ⟨h1, h2⟩,
      gameOver_player g, gameOver_platforms g, gameOver_cameraY g⟩
    · rw [h1]
      exact (max_eq_left (not_lt.mp h)).symm
    · rw [h1]

/-- C14. Restart: from every game state `startGame` leaves the state `playing`, the score 0,
the camera at 0, a fresh player at `(W / 2, H - 100)` with zero velocity and
`isOnGround = false`, and as platform list the seed, the result of
`generateInitialPlatforms` on an empty list; the high score, the stored high score, the
canvas size and the input flags are unchanged. -/
theorem startGame_spec (g : Game) (rand : ℕ → ℚ) :
    (g.startGame rand).gameState = GameState.playing ∧
    (g.startGame rand).score = 0 ∧
    (g.startGame rand).cameraY = 0 ∧
    (g.startGame rand).player =
      some ⟨g.canvasWidth / 2, g.canvasHeight - 100, 30, 40, 0, 0, false⟩ ∧
    (g.startGame rand).player = some (Player.new (g.canvasWidth / 2) (g.canvasHeight - 100)) ∧
    (g.startGame rand).platforms =
      (Game.generateInitialPlatforms { g with platforms := [] } rand).platforms ∧
    (g.startGame rand).platforms =
      Platform.mk 0 (g.canvasHeight - 50) g.canvasWidth 50 true ::
        (List.range 15).map (fun k =>
          Platform.mk (rand k * (g.canvasWidth - 100))
            (g.canvasHeight - 50 - 80 * ((k : ℚ) + 1)) 100 15 false) ∧
    (g.startGame rand).highScore = g.highScore ∧
    (g.startGame rand).storedHighScore = g.storedHighScore ∧
    (g.startGame rand).canvasWidth = g.canvasWidth ∧
    (g.startGame rand).canvasHeight = g.canvasHeight ∧
    (g.startGame rand).keys = g.keys ∧
    (g.startGame rand).touchControls = g.touchControls := by
  refine ⟨rfl, rfl, rfl, rfl, rfl, rfl, ?_, rfl, rfl, rfl, rfl, rfl, rfl⟩
  rw [startGame_platforms]
  simp [appended]

/-- C15. Frozen simulation outside `playing`: in the states `start` and `gameOver`, `update`
returns the game unchanged in every field, whatever the elapsed time, the input flags and
the random numbers. -/
theorem update_frozen (g : Game) (deltaTime : ℚ) (rand : ℕ → ℚ)
    (hstate : g.gameState = GameState.start ∨ g.gameState = GameState.gameOver) :
    g.update deltaTime rand = Except.ok g := by
  have hne : g.gameState ≠ GameState.playing := by
    rcases hstate with h | h <;> rw [h] <;> decide
  unfold Game.update
  rw [if_pos hne]

theorem update_frozen_witness :
    (Game.new 400 600 none).update 16 halfRandom = Except.ok (Game.new 400 600 none) ∧
    ((Game.new 400 600 none).startGame halfRandom).gameOver.update 16 halfRandom =
      Except.ok ((Game.new 400 600 none).startGame halfRandom).gameOver :=
  ⟨update_frozen (Game.new 400 600 none) 16 halfRandom (Or.inl rfl),
    update_frozen ((Game.new 400 600 none).startGame halfRandom).gameOver 16 halfRandom
      (Or.inr (gameOver_gameState _))⟩

/-! ## Gravity and resting -/

theorem moveHorizontal_vertical (pl : Player) (moveX canvasWidth : ℚ) :
    (pl.moveHorizontal moveX canvasWidth).y = pl.y ∧
    (pl.moveHorizontal moveX canvasWidth).velocityY = pl.velocityY ∧
    (pl.moveHorizontal moveX canvasWidth).width = pl.width ∧
    (pl.moveHorizontal moveX canvasWidth).height = pl.height := by
  unfold Player.moveHorizontal
  simp only
  split_ifs <;> exact ⟨rfl, rfl, rfl, rfl⟩

theorem applyGravity_fields (pl : Player) :
    pl.applyGravity.velocityY = min (pl.velocityY + 3 / 5) 20 ∧
    pl.applyGravity.y = pl.y + min (pl.velocityY + 3 / 5) 20 ∧
    pl.applyGravity.x = pl.x ∧ pl.applyGravity.width = pl.width ∧
    pl.applyGravity.height = pl.height := by
  unfold Player.applyGravity GRAVITY MAX_FALL_SPEED
  simp only
  split_ifs with h
  · rw [min_eq_right (le_of_lt h)]
    exact ⟨rfl, rfl, rfl, rfl, rfl⟩
  · rw [min_eq_left (not_lt.mp h)]
    exact ⟨rfl, rfl, rfl, rfl, rfl⟩

/-- The state after the horizontal move and the gravity step, in terms of the state before. -/
theorem gravity_fields (pl : Player) (moveX canvasWidth : ℚ) :
    ((pl.moveHorizontal moveX canvasWidth).applyGravity).velocityY =
      min (pl.velocityY + 3 / 5) 20 ∧
    ((pl.moveHorizontal moveX canvasWidth).applyGravity).y =
      pl.y + min (pl.velocityY + 3 / 5) 20 ∧
    ((pl.moveHorizontal moveX canvasWidth).applyGravity).x =
      (pl.moveHorizontal moveX canvasWidth).x ∧
    ((pl.moveHorizontal moveX canvasWidth).applyGravity).width = pl.width ∧
    ((pl.moveHorizontal moveX canvasWidth).applyGravity).height = pl.height := by
  obtain ⟨h1, h2, h3, h4, h5⟩ := applyGravity_fields (pl.moveHorizontal moveX canvasWidth)
  obtain ⟨k1, k2, k3, k4⟩ := moveHorizontal_vertical pl moveX canvasWidth
  rw [k2] at h1
  rw [k1, k2] at h2
  exact ⟨h1, h2, h3, h4.trans k3, h5.trans k4⟩

theorem collideStep_velocityY_le (pl : Player) (q : Platform) (h : pl.velocityY ≤ 20) :
    (pl.collideStep q).velocityY ≤ 20 := by
  unfold Player.collideStep
  split_ifs
  · norm_num
  · exact h
  · exact h

theorem foldl_collideStep_velocityY_le (ps : List Platform) (pl : Player)
    (h : pl.velocityY ≤ 20) : (ps.foldl Player.collideStep pl).velocityY ≤ 20 := by
  induction ps generalizing pl with
  | nil => exact h
  | cons q qs ih => exact ih _ (collideStep_velocityY_le pl q h)

theorem update_velocityY_le (pl : Player) (moveX : ℚ) (platforms : List Platform)
    (canvasWidth : ℚ) : (pl.update moveX platforms canvasWidth).velocityY ≤ 20 := by
  unfold Player.update Player.resolveCollisions
  apply foldl_collideStep_velocityY_le
  show ((pl.moveHorizontal moveX canvasWidth).applyGravity).velocityY ≤ 20
  rw [(gravity_fields pl moveX canvasWidth).1]
  exact min_le_right _ _

/-- The value `update` returns does not depend on the elapsed time it is given. -/
theorem update_deltaTime (g : Game) (deltaTime1 deltaTime2 : ℚ) (rand : ℕ → ℚ) :
    g.update deltaTime1 rand = g.update deltaTime2 rand := rfl

/-- C16. Gravity integration: when, after the horizontal move and the gravity step, no
platform is both overlapped and landed on, `update` yields
`velocityY = min(velocityY + 0.6, 20)`, `y = y + velocityY` with the new velocity, and
`isOnGround = false`; for every platform list the resulting `velocityY` is at most
`MAX_FALL_SPEED` (20); and the frame does not depend on the elapsed time. -/
theorem gravity_integration (pl : Player) (moveX canvasWidth : ℚ) (platforms : List Platform)
    (hno : ∀ q ∈ platforms,
      ¬ (((pl.moveHorizontal moveX canvasWidth).applyGravity).checkCollision q = true ∧
         ((pl.moveHorizontal moveX canvasWidth).applyGravity).landsOn q = true)) :
    (pl.update moveX platforms canvasWidth).velocityY = min (pl.velocityY + 3 / 5) 20 ∧
    (pl.update moveX platforms canvasWidth).y = pl.y + min (pl.velocityY + 3 / 5) 20 ∧
    (pl.update moveX platforms canvasWidth).y =
      pl.y + (pl.update moveX platforms canvasWidth).velocityY ∧
    (pl.update moveX platforms canvasWidth).isOnGround = false ∧
    (∀ (pl2 : Player) (moveX2 canvasWidth2 : ℚ) (platforms2 : List Platform),
      (pl2.update moveX2 platforms2 canvasWidth2).velocityY ≤ MAX_FALL_SPEED) ∧
    MAX_FALL_SPEED = 20 ∧ GRAVITY = 3 / 5 ∧
    (∀ (g : Game) (deltaTime1 deltaTime2 : ℚ) (rand : ℕ → ℚ),
      g.update deltaTime1 rand = g.update deltaTime2 rand) := by
  have h1 : ∀ q ∈ platforms,
      (Player.checkCollision { (pl.moveHorizontal moveX canvasWidth).applyGravity with
          isOnGround := false } q &&
        Player.landsOn { (pl.moveHorizontal moveX canvasWidth).applyGravity with
          isOnGround := false } q) = false := by
    intro q hq
    rw [checkCollision_clearGround, landsOn_clearGround]
    have := hno q hq
    cases hc : ((pl.moveHorizontal moveX canvasWidth).applyGravity).checkCollision q <;>
      cases hl : ((pl.moveHorizontal moveX canvasWidth).applyGravity).landsOn q <;> simp_all
  have hupd : pl.update moveX platforms canvasWidth =
      { (pl.moveHorizontal moveX canvasWidth).applyGravity with isOnGround := false } := by
    unfold Player.update Player.resolveCollisions
    exact foldl_collideStep_of_no_landing platforms _ h1
  obtain ⟨hv, hy, -, -, -⟩ := gravity_fields pl moveX canvasWidth
  refine ⟨?_, ?_, ?_, ?_, ?_, rfl, rfl, update_deltaTime⟩
  · rw [hupd]
    exact hv
  · rw [hupd]
    exact hy
  · rw [hupd]
    show ((pl.moveHorizontal moveX canvasWidth).applyGravity).y =
      pl.y + ((pl.moveHorizontal moveX canvasWidth).applyGravity).velocityY
    rw [hy, hv]
  · rw [hupd]
  · intro pl2 moveX2 canvasWidth2 platforms2
    exact update_velocityY_le pl2 moveX2 platforms2 canvasWidth2

theorem gravity_integration_witness :
    (cameraPlayer.update 0 [Platform.mk 150 (-480) 100 15 false] 400).velocityY = 3 / 5 ∧
    (cameraPlayer.update 0 [Platform.mk 150 (-480) 100 15 false] 400).y = -530 ∧
    (cameraPlayer.update 0 [Platform.mk 150 (-480) 100 15 false] 400).isOnGround = false := by
  obtain ⟨hv, hy, -, hg, -⟩ := gravity_integration cameraPlayer 0 400
    [Platform.mk 150 (-480) 100 15 false] (by
      intro q hq
      rw [List.mem_singleton] at hq
      subst hq
      norm_num [cameraPlayer, Player.moveHorizontal, Player.applyGravity, GRAVITY,
        MAX_FALL_SPEED, Player.checkCollision])
  refine ⟨?_, ?_, hg⟩
  · rw [hv]
    norm_num [cameraPlayer]
  · rw [hy]
    norm_num [cameraPlayer]

/-- A list holding a platform that is overlapped and landed on splits at the first such
platform. -/
theorem exists_first_landing (ps : List Platform) (pl : Player)
    (h : ∃ p ∈ ps, pl.checkCollision p = true ∧ pl.landsOn p = true) :
    ∃ l1 q l2, ps = l1 ++ q :: l2 ∧
      (∀ r ∈ l1, (pl.checkCollision r && pl.landsOn r) = false) ∧
      pl.checkCollision q = true ∧ pl.landsOn q = true := by
  induction ps with
  | nil =>
    obtain ⟨p, hp, -⟩ := h
    cases hp
  | cons a rest ih =>
    by_cases ha : pl.checkCollision a = true ∧ pl.landsOn a = true
    · exact ⟨[], a, rest, rfl, fun r hr => absurd hr (List.not_mem_nil r), ha.1, ha.2⟩
    · have hrest : ∃ p ∈ rest, pl.checkCollision p = true ∧ pl.landsOn p = true := by
        obtain ⟨p, hp, hhit⟩ := h
        rcases List.mem_cons.mp hp with rfl | hmem
        · exact absurd hhit ha
        · exact ⟨p, hmem, hhit⟩
      obtain ⟨l1, q, l2, hsplit, hl1, hq⟩ := ih hrest
      refine ⟨a :: l1, q, l2, by rw [hsplit, List.cons_append], ?_, hq⟩
      intro r hr
      rcases List.mem_cons.mp hr with rfl | hmem
      · cases hc : pl.checkCollision r <;> cases hl : pl.landsOn r <;> simp_all
      · exact hl1 r hmem

/-- When some platform is overlapped and landed on after the gravity step, `update` ends on
a platform of the list, grounded and with no vertical velocity. -/
theorem update_lands (pl : Player) (moveX canvasWidth : ℚ) (platforms : List Platform)
    (h : ∃ p ∈ platforms,
      ((pl.moveHorizontal moveX canvasWidth).applyGravity).checkCollision p = true ∧
      ((pl.moveHorizontal moveX canvasWidth).applyGravity).landsOn p = true) :
    (pl.update moveX platforms canvasWidth).isOnGround = true ∧
    (pl.update moveX platforms canvasWidth).velocityY = 0 ∧
    (pl.update moveX platforms canvasWidth).height = pl.height ∧
    ∃ q ∈ platforms,
      ((pl.moveHorizontal moveX canvasWidth).applyGravity).checkCollision q = true ∧
      (pl.update moveX platforms canvasWidth).y = q.y - pl.height := by
  obtain ⟨l1, q, l2, hsplit, hl1, hc, hl⟩ := exists_first_landing platforms
    { (pl.moveHorizontal moveX canvasWidth).applyGravity with isOnGround := false } h
  have hheight := (gravity_fields pl moveX canvasWidth).2.2.2.2
  have hupd : pl.update moveX platforms canvasWidth =
      { (pl.moveHorizontal moveX canvasWidth).applyGravity with
        y := q.y - ((pl.moveHorizontal moveX canvasWidth).applyGravity).height
        velocityY := 0
        isOnGround := true } := by
    unfold Player.update Player.resolveCollisions
    rw [hsplit]
    exact foldl_collideStep_first_landing l1 l2 q _ hl1 hc hl
  rw [hupd]
  refine ⟨rfl, rfl, hheight, q, ?_, hc, ?_⟩
  · rw [hsplit]
    exact List.mem_append_right _ (List.mem_cons_self q l2)
  · show q.y - ((pl.moveHorizontal moveX canvasWidth).applyGravity).height = q.y - pl.height
    rw [hheight]

/-- C19. Resting is a fixed point of the vertical physics: a player of height 40 resting on
a platform `p` (`velocityY = 0`, `y + height = p.y`) whose x-range after the horizontal move
still overlaps that of `p`, with `p.height > 0.6 - 40` and `p` the only platform of the list
the player overlaps after the gravity step, comes out of `update` with the same `y`,
`velocityY = 0` and `isOnGround = true`. -/
theorem resting_fixed_point (pl : Player) (moveX canvasWidth : ℚ) (platforms : List Platform)
    (p : Platform) (hheight : pl.height = 40) (hrest : pl.velocityY = 0)
    (hon : pl.y + pl.height = p.y) (hp : p ∈ platforms) (hph : p.height > 3 / 5 - 40)
    (hx : (pl.moveHorizontal moveX canvasWidth).x < p.x + p.width ∧
      (pl.moveHorizontal moveX canvasWidth).x + (pl.moveHorizontal moveX canvasWidth).width >
        p.x)
    (honly : ∀ q ∈ platforms,
      ((pl.moveHorizontal moveX canvasWidth).applyGravity).checkCollision q = true → q = p) :
    (pl.update moveX platforms canvasWidth).y = pl.y ∧
    (pl.update moveX platforms canvasWidth).velocityY = 0 ∧
    (pl.update moveX platforms canvasWidth).isOnGround = true := by
  obtain ⟨gv, gy, gx, gw, gh⟩ := gravity_fields pl moveX canvasWidth
  have hw := (moveHorizontal_vertical pl moveX canvasWidth).2.2.1
  have hmin : min (pl.velocityY + 3 / 5) 20 = 3 / 5 := by
    rw [hrest]
    norm_num
  rw [hmin] at gv gy
  have hc : ((pl.moveHorizontal moveX canvasWidth).applyGravity).checkCollision p = true := by
    unfold Player.checkCollision
    rw [gx, gw, gh, gy]
    rw [hw] at hx
    have h3 : pl.y + 3 / 5 < p.y + p.height := by linarith
    have h4 : pl.y + 3 / 5 + pl.height > p.y := by linarith
    simp [hx.1, hx.2, h3, h4]
  have hl : ((pl.moveHorizontal moveX canvasWidth).applyGravity).landsOn p = true := by
    have hy1 : ((pl.moveHorizontal moveX canvasWidth).applyGravity).y +
        ((pl.moveHorizontal moveX canvasWidth).applyGravity).height -
        ((pl.moveHorizontal moveX canvasWidth).applyGravity).velocityY ≤ p.y + 5 := by
      rw [gy, gh, gv]
      linarith
    have hpos : ((pl.moveHorizontal moveX canvasWidth).applyGravity).velocityY > 0 := by
      rw [gv]
      norm_num
    simp [Player.landsOn, hpos, hy1]
  obtain ⟨hg, hzero, -, q, hq, hcq, hyq⟩ :=
    update_lands pl moveX canvasWidth platforms ⟨p, hp, hc, hl⟩
  refine ⟨?_, hzero, hg⟩
  rw [hyq, honly q hq hcq]
  linarith

theorem resting_fixed_point_witness :
    ((Player.new 200 500).update 0 landingPlatforms 400).y = (Player.new 200 500).y ∧
    ((Player.new 200 500).update 0 landingPlatforms 400).velocityY = 0 ∧
    ((Player.new 200 500).update 0 landingPlatforms 400).isOnGround = true :=
  resting_fixed_point (Player.new 200 500) 0 400 landingPlatforms
    (Platform.mk 0 540 400 50 true) rfl rfl
    (by norm_num [Player.new, PLAYER_HEIGHT])
    (by simp [landingPlatforms])
    (by norm_num)
    (by norm_num [Player.new, Player.moveHorizontal, PLAYER_WIDTH])
    (by
      have hg : ((Player.new 200 500).moveHorizontal 0 400).applyGravity =
          { x := 200, y := 2503 / 5, width := 30, height := 40, velocityX := 0,
            velocityY := 3 / 5, isOnGround := false } := landingPlayer_applyGravity
      rw [hg]
      intro q hq
      simp only [landingPlatforms, List.mem_cons, List.mem_singleton, List.not_mem_nil,
        or_false] at hq
      rcases hq with rfl | rfl
      · norm_num [Player.checkCollision]
      · intro _; rfl)

/-! ## The platform list is never empty -/

theorem gameOver_canvasHeight (g : Game) : g.gameOver.canvasHeight = g.canvasHeight := by
  unfold Game.gameOver
  simp only
  split_ifs <;> rfl

/-- After the extension loop and the cull step a platform at or above `cameraY - H` is left,
provided `H > -50`. -/
theorem cull_extend_keeps (rand : ℕ → ℚ) (canvasWidth cameraY canvasHeight top : ℚ)
    (platforms : List Platform) (htop : highestPlatform platforms = some top)
    (hH : canvasHeight > -50) :
    ∃ e ∈ cullPlatforms
        (extendLoop rand canvasWidth (cameraY - canvasHeight) top 0 platforms)
        cameraY canvasHeight, e.y ≤ cameraY - canvasHeight := by
  have hne : platforms ≠ [] := by
    intro h
    rw [h] at htop
    cases htop
  obtain ⟨top1, htop1, -, p, hp, hpy⟩ := highestPlatform_isLeast platforms hne
  have heq : top1 = top := Option.some.inj (htop1.symm.trans htop)
  subst heq
  obtain ⟨n, hn, hstop, -⟩ :=
    extendLoop_eq rand canvasWidth (cameraY - canvasHeight) _ top1 0 platforms rfl
  rw [hn]
  have hkeep : ∀ e ∈ platforms ++ appended rand canvasWidth top1 0 n,
      e.y ≤ cameraY - canvasHeight →
      e ∈ cullPlatforms (platforms ++ appended rand canvasWidth top1 0 n) cameraY
        canvasHeight := by
    intro e he hle
    unfold cullPlatforms
    rw [List.mem_filter]
    exact ⟨he, decide_eq_true (by linarith)⟩
  cases n with
  | zero =>
    have hle : p.y ≤ cameraY - canvasHeight := by
      rw [hpy]
      simpa using hstop
    exact ⟨p, hkeep p (List.mem_append_left _ hp) hle, hle⟩
  | succ k =>
    have hmem : Platform.mk (rand (0 + k) * (canvasWidth - 100))
        (top1 - 80 * ((k : ℚ) + 1)) 100 15 false ∈ appended rand canvasWidth top1 0 (k + 1) := by
      unfold appended
      rw [List.mem_map]
      exact ⟨k, List.mem_range.mpr (Nat.lt_succ_self k), rfl⟩
    have hle : top1 - 80 * ((k : ℚ) + 1) ≤ cameraY - canvasHeight := by
      have : ((k + 1 : ℕ) : ℚ) = (k : ℚ) + 1 := by push_cast; ring
      rw [← this]
      exact hstop
    exact ⟨_, hkeep _ (List.mem_append_right _ hmem) hle, hle⟩

/-- One frame of a playing game with a platform, in a canvas of height above -50, returns a
state that still has a player and a platform, the highest one at or above `cameraY - H`. -/
theorem update_keeps_platform (g : Game) (deltaTime : ℚ) (rand : ℕ → ℚ) (pl : Player)
    (hstate : g.gameState = GameState.playing) (hpl : g.player = some pl)
    (hne : g.platforms ≠ []) (hH : g.canvasHeight > -50) :
    ∃ g1, g.update deltaTime rand = Except.ok g1 ∧ g1.platforms ≠ [] ∧
      g1.player ≠ none ∧ g1.canvasHeight = g.canvasHeight ∧
      ∃ top1, highestPlatform g1.platforms = some top1 ∧
        top1 ≤ g1.cameraY - g.canvasHeight := by
  obtain ⟨g1, top, hupd, htop, hplayer, -, -, hplat⟩ :=
    update_playing_fields g deltaTime rand pl hstate hpl hne
  obtain ⟨e, he, hle⟩ := cull_extend_keeps rand g.canvasWidth g1.cameraY g.canvasHeight top
    g.platforms htop hH
  rw [← hplat] at he
  have hne1 : g1.platforms ≠ [] := List.ne_nil_of_mem he
  have hheight : g1.canvasHeight = g.canvasHeight := by
    obtain ⟨top2, -, hupd2⟩ := update_playing g deltaTime rand pl hstate hpl hne
    rw [hupd] at hupd2
    have := Except.ok.inj hupd2
    rw [this]
    split_ifs
    · exact gameOver_canvasHeight _
    · rfl
  obtain ⟨top1, htop1, hleast, -⟩ := highestPlatform_isLeast g1.platforms hne1
  refine ⟨g1, hupd, hne1, ?_, hheight, top1, htop1, le_trans (hleast e he) hle⟩
  rw [hplayer]
  exact Option.some_ne_none _

theorem handle_keeps_platform (g : Game) (e : Event)
    (hne : g.platforms ≠ []) (hpl : g.player ≠ none) (hH : g.canvasHeight > -50)
    (he : ∀ width height, e = Event.resize width height → height > -50) :
    ∃ g1, g.handle e = Except.ok g1 ∧ g1.platforms ≠ [] ∧ g1.player ≠ none ∧
      g1.canvasHeight > -50 := by
  obtain ⟨pl, hsome⟩ := Option.ne_none_iff_exists'.mp hpl
  cases e with
  | frame deltaTime rand =>
    by_cases hstate : g.gameState = GameState.playing
    · obtain ⟨g1, hupd, h1, h2, h3, -⟩ :=
        update_keeps_platform g deltaTime rand pl hstate hsome hne hH
      exact ⟨g1, hupd, h1, h2, by rw [h3]; exact hH⟩
    · refine ⟨g, ?_, hne, hpl, hH⟩
      show g.update deltaTime rand = Except.ok g
      unfold Game.update
      rw [if_pos hstate]
  | jumpPressed =>
    by_cases hstate : g.gameState = GameState.playing
    · refine ⟨{ g with player := some pl.jump }, ?_, hne, Option.some_ne_none _, hH⟩
      show g.jumpPressed = _
      unfold Game.jumpPressed
      rw [if_pos hstate, hsome]
    · refine ⟨g, ?_, hne, hpl, hH⟩
      show g.jumpPressed = _
      unfold Game.jumpPressed
      rw [if_neg hstate]
  | setInput keys touchControls => exact ⟨_, rfl, hne, hpl, hH⟩
  | resize width height => exact ⟨_, rfl, hne, hpl, he width height rfl⟩

theorem run_keeps_platform (events : List Event) :
    ∀ (g : Game), g.platforms ≠ [] → g.player ≠ none → g.canvasHeight > -50 →
      (∀ width height, Event.resize width height ∈ events → height > -50) →
      ∃ g1, g.run events = Except.ok g1 ∧ g1.platforms ≠ [] ∧ g1.player ≠ none := by
  induction events with
  | nil =>
    intro g hne hpl _ _
    exact ⟨g, rfl, hne, hpl⟩
  | cons e es ih =>
    intro g hne hpl hH hres
    obtain ⟨g1, hg1, h1, h2, h3⟩ := handle_keeps_platform g e hne hpl hH
      (fun width height heq => hres width height (heq ▸ List.mem_cons_self e es))
    obtain ⟨g2, hg2, k1, k2⟩ := ih g1 h1 h2 h3
      (fun width height hmem => hres width height (List.mem_cons_of_mem e hmem))
    refine ⟨g2, ?_, k1, k2⟩
    unfold Game.run
    rw [hg1]
    exact hg2

/-- C18. The platform list never becomes empty: one frame of a playing game with a non-empty
platform list, in a canvas of height `H > -50`, returns a state whose platform list is
non-empty and whose least `y` is at most `cameraY - H` (`cameraY` after the frame); hence
from `startGame` on, as long as the canvas height stays above -50, every sequence of frames,
jumps, input changes and resizes returns a state with a player and a non-empty platform
list, so that the minimum of line 166 is never taken over an empty list. -/
theorem platforms_never_empty (g : Game) (deltaTime : ℚ) (rand : ℕ → ℚ) (pl : Player)
    (hstate : g.gameState = GameState.playing) (hpl : g.player = some pl)
    (hne : g.platforms ≠ []) (hH : g.canvasHeight > -50) :
    (∃ g1, g.update deltaTime rand = Except.ok g1 ∧ g1.platforms ≠ [] ∧
      ∃ top1, highestPlatform g1.platforms = some top1 ∧
        top1 ≤ g1.cameraY - g.canvasHeight) ∧
    (∀ (g0 : Game) (rand0 : ℕ → ℚ) (events : List Event), g0.canvasHeight > -50 →
      (∀ width height, Event.resize width height ∈ events → height > -50) →
      ∃ g2, (g0.startGame rand0).run events = Except.ok g2 ∧ g2.platforms ≠ [] ∧
        g2.player ≠ none) := by
  constructor
  · obtain ⟨g1, hupd, h1, -, -, htop⟩ :=
      update_keeps_platform g deltaTime rand pl hstate hpl hne hH
    exact ⟨g1, hupd, h1, htop⟩
  · intro g0 rand0 events hH0 hres
    refine run_keeps_platform events (g0.startGame rand0) ?_ ?_ hH0 hres
    · rw [startGame_platforms]
      exact List.cons_ne_nil _ _
    · exact Option.some_ne_none _

theorem platforms_never_empty_witness :
    ∃ g1, cameraGame.update 16 halfRandom = Except.ok g1 ∧ g1.platforms ≠ [] := by
  obtain ⟨⟨g1, hupd, h1, -⟩, -⟩ := platforms_never_empty cameraGame 16 halfRandom cameraPlayer
    rfl rfl (List.cons_ne_nil _ _) (by norm_num [cameraGame])
  exact ⟨g1, hupd, h1⟩

/-! ## Rounding to the nearest double -/

theorem roundHalfEven_near (q : ℚ) (m : ℤ) (h : |q - m| < 1 / 2) : roundHalfEven q = m := by
  rw [abs_lt] at h
  unfold roundHalfEven
  by_cases hm : (m : ℚ) ≤ q
  · have hf : ⌊q⌋ = m := by
      rw [Int.floor_eq_iff]
      constructor <;> linarith
    rw [hf, if_pos (by linarith)]
  · have hf : ⌊q⌋ = m - 1 := by
      rw [Int.floor_eq_iff]
      push_cast
      constructor <;> linarith
    rw [hf]
    push_cast
    rw [if_neg (by linarith), if_pos (by linarith)]
    ring

theorem roundHalfEven_tie (q : ℚ) (m : ℤ) (h : |q - m| = 1 / 2) (hm : m % 2 = 0) :
    roundHalfEven q = m := by
  unfold roundHalfEven
  rcases abs_eq (by norm_num : (0 : ℚ) ≤ 1 / 2) |>.mp h with h1 | h1
  · have hf : ⌊q⌋ = m := by
      rw [Int.floor_eq_iff]
      constructor <;> linarith
    rw [hf, if_neg (by linarith), if_neg (by linarith), if_pos hm]
  · have hf : ⌊q⌋ = m - 1 := by
      rw [Int.floor_eq_iff]
      push_cast
      constructor <;> linarith
    rw [hf]
    push_cast
    rw [if_neg (by linarith), if_neg (by linarith), if_neg (by omega)]
    ring

theorem roundHalfEven_sub_le (q : ℚ) : |(roundHalfEven q : ℚ) - q| ≤ 1 / 2 := by
  have h1 := Int.floor_le q
  have h2 := Int.lt_floor_add_one q
  unfold roundHalfEven
  rw [abs_le]
  split_ifs with a b c
  · constructor <;> linarith
  · push_cast
    constructor <;> linarith
  · constructor <;> linarith
  · push_cast
    constructor <;> linarith

theorem roundHalfEven_intCast (n : ℤ) : roundHalfEven (n : ℚ) = n :=
  roundHalfEven_near _ n (by simp)

theorem roundDouble_zero : roundDouble 0 = 0 := by
  simp [roundDouble, roundHalfEven]

theorem ulpExponent_of_binade (x : ℚ) (e : ℤ) (hlo : (2 : ℚ) ^ e ≤ |x|)
    (hhi : |x| < (2 : ℚ) ^ (e + 1)) (he : -1022 ≤ e) : ulpExponent x = e - 52 := by
  have hpos : 0 < |x| := lt_of_lt_of_le (zpow_pos (by norm_num) e) hlo
  have h1 : e ≤ Int.log 2 |x| := (Int.zpow_le_iff_le_log (by norm_num) hpos).mp (by exact_mod_cast hlo)
  have h2 : Int.log 2 |x| < e + 1 :=
    (Int.lt_zpow_iff_log_lt (by norm_num) hpos).mp (by exact_mod_cast hhi)
  unfold ulpExponent
  have : Int.log 2 |x| = e := by omega
  rw [this]
  exact max_eq_left (by omega)

/-- Evaluation of `roundDouble` at a number of a known binade that is nearer to the
multiple `m` of the spacing than to any other. -/
theorem roundDouble_of_near (x : ℚ) (e m : ℤ) (hlo : (2 : ℚ) ^ e ≤ |x|)
    (hhi : |x| < (2 : ℚ) ^ (e + 1)) (he : -1022 ≤ e)
    (hm : |x / 2 ^ (e - 52) - m| < 1 / 2) : roundDouble x = m * 2 ^ (e - 52) := by
  unfold roundDouble
  rw [ulpExponent_of_binade x e hlo hhi he, roundHalfEven_near _ m hm]

/-- Evaluation of `roundDouble` at a number halfway between two doubles. -/
theorem roundDouble_of_tie (x : ℚ) (e m : ℤ) (hlo : (2 : ℚ) ^ e ≤ |x|)
    (hhi : |x| < (2 : ℚ) ^ (e + 1)) (he : -1022 ≤ e)
    (hm : |x / 2 ^ (e - 52) - m| = 1 / 2) (heven : m % 2 = 0) :
    roundDouble x = m * 2 ^ (e - 52) := by
  unfold roundDouble
  rw [ulpExponent_of_binade x e hlo hhi he, roundHalfEven_tie _ m hm heven]

/-- A multiple of the spacing at its own magnitude is a double. -/
theorem roundDouble_of_multiple (x : ℚ) (z : ℤ) (h : x = z * 2 ^ ulpExponent x) :
    roundDouble x = x := by
  unfold roundDouble
  have hq : x / 2 ^ ulpExponent x = (z : ℚ) := by
    rw [div_eq_iff (zpow_ne_zero _ (by norm_num))]
    exact h
  rw [hq, roundHalfEven_intCast]
  exact h.symm

theorem ulpExponent_le (x : ℚ) (k : ℤ) (hx : x ≠ 0) (hk : -1022 ≤ k)
    (h : |x| < (2 : ℚ) ^ (k + 1)) : ulpExponent x ≤ k - 52 := by
  have hpos : 0 < |x| := abs_pos.mpr hx
  have h2 : Int.log 2 |x| < k + 1 :=
    (Int.lt_zpow_iff_log_lt (by norm_num) hpos).mp (by exact_mod_cast h)
  unfold ulpExponent
  exact max_le (by omega) (by omega)

/-- The rounding error of a number of magnitude at most `2 ^ k` is at most `2 ^ (k - 53)`. -/
theorem roundDouble_error (x : ℚ) (k : ℤ) (hk : -1022 ≤ k) (h : |x| ≤ (2 : ℚ) ^ k) :
    |roundDouble x - x| ≤ (2 : ℚ) ^ (k - 53) := by
  by_cases hx : x = 0
  · rw [hx, roundDouble_zero, sub_zero, abs_zero]
    exact le_of_lt (zpow_pos (by norm_num) _)
  · have hlt : |x| < (2 : ℚ) ^ (k + 1) :=
      lt_of_le_of_lt h (zpow_lt_zpow_right₀ (by norm_num) (by omega))
    have hu := ulpExponent_le x k hx hk hlt
    have hpow : (0 : ℚ) < 2 ^ ulpExponent x := zpow_pos (by norm_num) _
    have hle : (2 : ℚ) ^ ulpExponent x ≤ 2 ^ (k - 52) := zpow_le_zpow_right₀ (by norm_num) hu
    have hhalf : (2 : ℚ) ^ (k - 52) = 2 * 2 ^ (k - 53) := by
      rw [show k - 52 = (k - 53) + 1 by ring, zpow_add_one₀ (by norm_num)]
      ring
    have herr := roundHalfEven_sub_le (x / 2 ^ ulpExponent x)
    have hfac : roundDouble x - x =
        ((roundHalfEven (x / 2 ^ ulpExponent x) : ℚ) - x / 2 ^ ulpExponent x) *
          2 ^ ulpExponent x := by
      unfold roundDouble
      field_simp
    rw [hfac, abs_mul, abs_of_pos hpow]
    calc |(roundHalfEven (x / 2 ^ ulpExponent x) : ℚ) - x / 2 ^ ulpExponent x| *
          2 ^ ulpExponent x ≤ 1 / 2 * 2 ^ ulpExponent x :=
          mul_le_mul_of_nonneg_right herr (le_of_lt hpow)
      _ ≤ 1 / 2 * 2 ^ (k - 52) := by linarith
      _ = 2 ^ (k - 53) := by rw [hhalf]; ring

/-- Integers up to `2 ^ 53` in magnitude are doubles. -/
theorem roundDouble_intCast (n : ℤ) (h : |(n : ℚ)| ≤ 2 ^ 53) : roundDouble (n : ℚ) = n := by
  by_cases hn : (n : ℚ) = 0
  · rw [hn, roundDouble_zero]
  · have hpos : 0 < |(n : ℚ)| := abs_pos.mpr hn
    by_cases hbig : |(n : ℚ)| = 2 ^ 53
    · have hu : ulpExponent (n : ℚ) = 1 :=
        ulpExponent_of_binade _ 53 (by rw [hbig]; norm_num) (by rw [hbig]; norm_num)
          (by norm_num)
      rcases abs_eq (by norm_num : (0 : ℚ) ≤ 2 ^ 53) |>.mp hbig with h1 | h1
      · apply roundDouble_of_multiple _ (2 ^ 52)
        rw [hu, h1]
        norm_num
      · apply roundDouble_of_multiple _ (-2 ^ 52)
        rw [hu, h1]
        norm_num
    · have hlt : |(n : ℚ)| < (2 : ℚ) ^ ((52 : ℤ) + 1) := by
        have : |(n : ℚ)| < 2 ^ 53 := lt_of_le_of_ne h hbig
        norm_num at this ⊢
        exact this
      have hu := ulpExponent_le (n : ℚ) 52 hn (by norm_num) hlt
      have hu0 : ulpExponent (n : ℚ) ≤ 0 := by omega
      apply roundDouble_of_multiple _ (n * 2 ^ (-ulpExponent (n : ℚ)).toNat)
      have hcast : ((2 : ℚ) ^ (-ulpExponent (n : ℚ)).toNat) =
          (2 : ℚ) ^ (-ulpExponent (n : ℚ)) := by
        rw [← zpow_natCast]
        congr 1
        exact Int.toNat_of_nonneg (by omega)
      push_cast
      rw [hcast, mul_assoc, ← zpow_add₀ (by norm_num)]
      simp

theorem roundDouble_of_int (x : ℚ) (n : ℤ) (hx : x = n) (hn : |(n : ℚ)| ≤ 2 ^ 53) :
    roundDouble x = n := by
  rw [hx]
  exact roundDouble_intCast n hn

theorem GRAVITY_F_eq : GRAVITY_F = 5404319552844595 / 9007199254740992 := by
  unfold GRAVITY_F
  rw [roundDouble_of_near (3 / 5) (-1) 5404319552844595 (by norm_num [abs_of_pos])
    (by norm_num [abs_of_pos]) (by norm_num) (by norm_num [abs_lt])]
  norm_num

/-! ## Collision resolution in doubles -/

theorem collideStepF_of_not_falling (pl : Player) (q : Platform) (h : pl.velocityY ≤ 0) :
    pl.collideStepF q = pl := by
  have hl : pl.landsOnF q = false := by
    simp [Player.landsOnF, not_lt.mpr h]
  simp [Player.collideStepF, hl]

theorem foldl_collideStepF_of_not_falling (ps : List Platform) (pl : Player)
    (h : pl.velocityY ≤ 0) : ps.foldl Player.collideStepF pl = pl := by
  induction ps with
  | nil => rfl
  | cons q qs ih => rw [List.foldl_cons, collideStepF_of_not_falling pl q h, ih]

theorem foldl_collideStepF_of_no_landing (ps : List Platform) (pl : Player)
    (h : ∀ q ∈ ps, (pl.checkCollisionF q && pl.landsOnF q) = false) :
    ps.foldl Player.collideStepF pl = pl := by
  induction ps with
  | nil => rfl
  | cons q qs ih =>
    have hq : pl.collideStepF q = pl := by
      have := h q (List.mem_cons_self q qs)
      unfold Player.collideStepF
      cases hc : pl.checkCollisionF q <;> cases hl : pl.landsOnF q <;> simp_all
    rw [List.foldl_cons, hq]
    exact ih (fun r hr => h r (List.mem_cons_of_mem q hr))

/-- In doubles too the loop of lines 280-288 snaps the player onto the first platform, in
array order, whose overlap and landing tests succeed. -/
theorem foldl_collideStepF_first_landing (l1 l2 : List Platform) (p : Platform) (pl : Player)
    (h1 : ∀ q ∈ l1, (pl.checkCollisionF q && pl.landsOnF q) = false)
    (hc : pl.checkCollisionF p = true) (hl : pl.landsOnF p = true) :
    (l1 ++ p :: l2).foldl Player.collideStepF pl =
      { pl with y := fsub p.y pl.height, velocityY := 0, isOnGround := true } := by
  rw [List.foldl_append, foldl_collideStepF_of_no_landing l1 pl h1, List.foldl_cons]
  have hp : pl.collideStepF p =
      { pl with y := fsub p.y pl.height, velocityY := 0, isOnGround := true } := by
    simp [Player.collideStepF, hc, hl]
  rw [hp]
  exact foldl_collideStepF_of_not_falling l2 _ (le_refl _)

theorem checkCollisionF_clearGround (pl : Player) (q : Platform) :
    Player.checkCollisionF { pl with isOnGround := false } q = pl.checkCollisionF q := rfl

theorem landsOnF_clearGround (pl : Player) (q : Platform) :
    Player.landsOnF { pl with isOnGround := false } q = pl.landsOnF q := rfl

theorem moveHorizontalF_vertical (pl : Player) (moveX canvasWidth : ℚ) :
    (pl.moveHorizontalF moveX canvasWidth).y = pl.y ∧
    (pl.moveHorizontalF moveX canvasWidth).velocityY = pl.velocityY ∧
    (pl.moveHorizontalF moveX canvasWidth).width = pl.width ∧
    (pl.moveHorizontalF moveX canvasWidth).height = pl.height := by
  unfold Player.moveHorizontalF
  simp only
  split_ifs <;> exact ⟨rfl, rfl, rfl, rfl⟩

/-- The state after the horizontal move and the gravity step in doubles. -/
theorem gravityF_fields (pl : Player) (moveX canvasWidth : ℚ) :
    ((pl.moveHorizontalF moveX canvasWidth).applyGravityF).velocityY =
      min (fadd pl.velocityY GRAVITY_F) 20 ∧
    ((pl.moveHorizontalF moveX canvasWidth).applyGravityF).y =
      fadd pl.y (min (fadd pl.velocityY GRAVITY_F) 20) ∧
    ((pl.moveHorizontalF moveX canvasWidth).applyGravityF).x =
      (pl.moveHorizontalF moveX canvasWidth).x ∧
    ((pl.moveHorizontalF moveX canvasWidth).applyGravityF).width = pl.width ∧
    ((pl.moveHorizontalF moveX canvasWidth).applyGravityF).height = pl.height := by
  obtain ⟨k1, k2, k3, k4⟩ := moveHorizontalF_vertical pl moveX canvasWidth
  unfold Player.applyGravityF MAX_FALL_SPEED
  simp only
  rw [k1, k2]
  split_ifs with h
  · rw [min_eq_right (le_of_lt h)]
    exact ⟨rfl, rfl, rfl, k3, k4⟩
  · rw [min_eq_left (not_lt.mp h)]
    exact ⟨rfl, rfl, rfl, k3, k4⟩

/-! ## Landing resolution in doubles -/

/-- A player at `x = 0` of width 30 with no horizontal input stays where it is in a canvas
of width 400. -/
theorem moveHorizontalF_still (y velocityY : ℚ) (isOnGround : Bool) :
    (Player.mk 0 y 30 40 0 velocityY isOnGround).moveHorizontalF 0 400 =
      ⟨0, y, 30, 40, 0, velocityY, isOnGround⟩ := by
  have h0 : roundDouble (0 + 0) = 0 := by
    norm_num [roundDouble_zero]
  have h1 : roundDouble (-30 / 2) = -15 := by
    rw [roundDouble_of_int _ (-15) (by norm_num) (by norm_num [abs_of_neg])]
    norm_num
  have h2 : roundDouble (30 / 2) = 15 := by
    rw [roundDouble_of_int _ 15 (by norm_num) (by norm_num [abs_of_pos])]
    norm_num
  have h3 : roundDouble (400 - 15) = 385 := by
    rw [roundDouble_of_int _ 385 (by norm_num) (by norm_num [abs_of_pos])]
    norm_num
  simp only [Player.moveHorizontalF, fadd, fsub, fdiv, h0, h1, h2, h3]
  norm_num

theorem tolerance_gravity :
    (tolerancePlayer.moveHorizontalF 0 400).applyGravityF =
      ⟨0, (7656119366529843 / 35184372088832), 30, 40, 0,
        (8106479329266893 / 2251799813685248), false⟩ := by
  have hv : roundDouble (3 + (5404319552844595 / 9007199254740992)) =
      (8106479329266893 / 2251799813685248) := by
    rw [roundDouble_of_near _ 1 8106479329266893 (by norm_num [abs_of_pos])
      (by norm_num [abs_of_pos]) (by norm_num) (by norm_num [abs_lt])]
    norm_num
  have hy : roundDouble (214 + (8106479329266893 / 2251799813685248)) =
      (7656119366529843 / 35184372088832) := by
    rw [roundDouble_of_near _ 7 7656119366529843 (by norm_num [abs_of_pos])
      (by norm_num [abs_of_pos]) (by norm_num) (by norm_num [abs_lt])]
    norm_num
  unfold tolerancePlayer
  rw [moveHorizontalF_still]
  simp only [Player.applyGravityF, fadd, GRAVITY_F_eq, hv, MAX_FALL_SPEED]
  rw [if_neg (by norm_num)]
  simp only [hy]

theorem tolerance_overlap :
    Player.checkCollisionF ⟨0, (7656119366529843 / 35184372088832), 30, 40, 0,
      (8106479329266893 / 2251799813685248), false⟩ tolerancePlatform = true := by
  have h1 : roundDouble (0 + 100) = 100 := by
    rw [roundDouble_of_int _ 100 (by norm_num) (by norm_num [abs_of_pos])]
    norm_num
  have h2 : roundDouble (0 + 30) = 30 := by
    rw [roundDouble_of_int _ 30 (by norm_num) (by norm_num [abs_of_pos])]
    norm_num
  have h3 : roundDouble (249 + 15) = 264 := by
    rw [roundDouble_of_int _ 264 (by norm_num) (by norm_num [abs_of_pos])]
    norm_num
  have h4 : roundDouble ((7656119366529843 / 35184372088832) + 40) =
      (2265873562520781 / 8796093022208) := by
    rw [roundDouble_of_tie _ 8 4531747125041562 (by norm_num [abs_of_pos])
      (by norm_num [abs_of_pos]) (by norm_num) (by norm_num [abs_of_pos]) (by norm_num)]
    norm_num
  simp only [Player.checkCollisionF, tolerancePlatform, fadd, h1, h2, h3, h4]
  norm_num

theorem tolerance_landsOn :
    Player.landsOnF ⟨0, (7656119366529843 / 35184372088832), 30, 40, 0,
      (8106479329266893 / 2251799813685248), false⟩ tolerancePlatform = false := by
  have h4 : roundDouble ((7656119366529843 / 35184372088832) + 40) =
      (2265873562520781 / 8796093022208) := by
    rw [roundDouble_of_tie _ 8 4531747125041562 (by norm_num [abs_of_pos])
      (by norm_num [abs_of_pos]) (by norm_num) (by norm_num [abs_of_pos]) (by norm_num)]
    norm_num
  have h5 : roundDouble ((2265873562520781 / 8796093022208) -
        (8106479329266893 / 2251799813685248)) =
      (8936830510563329 / 35184372088832) := by
    rw [roundDouble_of_near _ 7 8936830510563329 (by norm_num [abs_of_pos])
      (by norm_num [abs_of_pos]) (by norm_num) (by norm_num [abs_lt])]
    norm_num
  have h6 : roundDouble (249 + 5) = 254 := by
    rw [roundDouble_of_int _ 254 (by norm_num) (by norm_num [abs_of_pos])]
    norm_num
  simp only [Player.landsOnF, tolerancePlatform, fadd, fsub, h4, h5, h6]
  norm_num

/-- C1, as stated, fails: the player at `y = 214` falling at 3 per frame has its bottom at 254
before the vertical motion, exactly `p.y + 5` for the platform at `y = 249`; after the
gravity step it moves downward at 3.6 and overlaps the platform, and
`y + height - velocityY` is at most `p.y + 5` in exact arithmetic; yet line 282 computes
`217.6 + 40 - 3.6` as `254.00000000000003 > 254` and the player does not land. -/
theorem landing_tolerance_counterexample :
    ((tolerancePlayer.moveHorizontalF 0 400).applyGravityF).velocityY > 0 ∧
    ((tolerancePlayer.moveHorizontalF 0 400).applyGravityF).checkCollisionF tolerancePlatform
      = true ∧
    tolerancePlayer.y + tolerancePlayer.height ≤ tolerancePlatform.y + 5 ∧
    ((tolerancePlayer.moveHorizontalF 0 400).applyGravityF).y +
      ((tolerancePlayer.moveHorizontalF 0 400).applyGravityF).height -
      ((tolerancePlayer.moveHorizontalF 0 400).applyGravityF).velocityY
      ≤ tolerancePlatform.y + 5 ∧
    (tolerancePlayer.updateF 0 [tolerancePlatform] 400).isOnGround = false ∧
    (tolerancePlayer.updateF 0 [tolerancePlatform] 400).velocityY ≠ 0 := by
  have hupd : tolerancePlayer.updateF 0 [tolerancePlatform] 400 =
      ⟨0, (7656119366529843 / 35184372088832), 30, 40, 0,
        (8106479329266893 / 2251799813685248), false⟩ := by
    unfold Player.updateF Player.resolveCollisionsF
    rw [tolerance_gravity]
    exact foldl_collideStepF_of_no_landing _ _ (fun q hq => by
      rw [List.mem_singleton] at hq
      subst hq
      rw [checkCollisionF_clearGround, landsOnF_clearGround, tolerance_landsOn]
      exact Bool.and_false _)
  rw [tolerance_gravity, tolerance_overlap, hupd]
  norm_num [tolerancePlayer, tolerancePlatform]

/-- C1, amended. Landing resolution: when, after the horizontal move and the gravity step as
the code computes them in doubles, the player moves downward (`velocityY > 0`), the overlap
test of lines 292-295 succeeds for `p` (the only platform of the list for which it does) and
the value line 282 computes for `y + height - velocityY` is at most the computed `p.y + 5`,
then `update` ends with `velocityY = 0`, `isOnGround = true` and `y` the double
`p.y - height`, so that the player's bottom equals the platform's top whenever that
subtraction is exact, as it is for the height 40 and an integer `p.y` up to `2 ^ 52`. -/
theorem landing_resolution_double (pl : Player) (moveX canvasWidth : ℚ)
    (platforms : List Platform) (p : Platform) (hp : p ∈ platforms)
    (honly : ∀ q ∈ platforms,
      ((pl.moveHorizontalF moveX canvasWidth).applyGravityF).checkCollisionF q = true → q = p)
    (hfall : ((pl.moveHorizontalF moveX canvasWidth).applyGravityF).velocityY > 0)
    (hover : ((pl.moveHorizontalF moveX canvasWidth).applyGravityF).checkCollisionF p = true)
    (hprev : fsub (fadd ((pl.moveHorizontalF moveX canvasWidth).applyGravityF).y
          ((pl.moveHorizontalF moveX canvasWidth).applyGravityF).height)
        ((pl.moveHorizontalF moveX canvasWidth).applyGravityF).velocityY ≤ fadd p.y 5) :
    (pl.updateF moveX platforms canvasWidth).velocityY = 0 ∧
    (pl.updateF moveX platforms canvasWidth).isOnGround = true ∧
    (pl.updateF moveX platforms canvasWidth).y = fsub p.y pl.height ∧
    (∀ n : ℤ, p.y = n → |(n : ℚ)| ≤ 2 ^ 52 → pl.height = 40 →
      (pl.updateF moveX platforms canvasWidth).y +
        (pl.updateF moveX platforms canvasWidth).height = p.y) := by
  obtain ⟨l1, l2, rfl, hnot⟩ := List.eq_append_cons_of_mem hp
  have hl : ((pl.moveHorizontalF moveX canvasWidth).applyGravityF).landsOnF p = true := by
    simp [Player.landsOnF, hfall, hprev]
  have h1 : ∀ q ∈ l1,
      (Player.checkCollisionF { (pl.moveHorizontalF moveX canvasWidth).applyGravityF with
          isOnGround := false } q &&
        Player.landsOnF { (pl.moveHorizontalF moveX canvasWidth).applyGravityF with
          isOnGround := false } q) = false := by
    intro q hq
    rw [checkCollisionF_clearGround]
    cases hcq : ((pl.moveHorizontalF moveX canvasWidth).applyGravityF).checkCollisionF q with
    | false => rfl
    | true =>
      have := honly q (List.mem_append_left _ hq) hcq
      exact absurd (this ▸ hq) hnot
  have hheight := (gravityF_fields pl moveX canvasWidth).2.2.2.2
  have hupd : pl.updateF moveX (l1 ++ p :: l2) canvasWidth =
      { (pl.moveHorizontalF moveX canvasWidth).applyGravityF with
        y := fsub p.y ((pl.moveHorizontalF moveX canvasWidth).applyGravityF).height
        velocityY := 0
        isOnGround := true } := by
    unfold Player.updateF Player.resolveCollisionsF
    exact foldl_collideStepF_first_landing l1 l2 p _ h1 hover hl
  have hy : (pl.updateF moveX (l1 ++ p :: l2) canvasWidth).y = fsub p.y pl.height := by
    rw [hupd]
    show fsub p.y ((pl.moveHorizontalF moveX canvasWidth).applyGravityF).height = _
    rw [hheight]
  have hh : (pl.updateF moveX (l1 ++ p :: l2) canvasWidth).height = pl.height := by
    rw [hupd]
    exact hheight
  refine ⟨by rw [hupd], by rw [hupd], hy, ?_⟩
  intro n hn hrange h40
  have hexact : fsub p.y pl.height = p.y - 40 := by
    unfold fsub
    rw [hn, h40]
    have hbound : |((n - 40 : ℤ) : ℚ)| ≤ 2 ^ 53 := by
      push_cast
      have := abs_sub (n : ℚ) 40
      have h40abs : |(40 : ℚ)| = 40 := abs_of_pos (by norm_num)
      rw [h40abs] at this
      have : |(n : ℚ) - 40| ≤ 2 ^ 52 + 40 := le_trans this (by linarith)
      exact le_trans this (by norm_num)
    rw [roundDouble_of_int _ (n - 40) (by push_cast; ring) hbound]
    push_cast
    ring
  rw [hy, hh, hexact, h40]
  ring

theorem fast_gravity :
    (fastPlayer.moveHorizontalF 0 400).applyGravityF = ⟨0, 520, 30, 40, 0, 20, false⟩ := by
  have hv : roundDouble (39 / 2 + (5404319552844595 / 9007199254740992)) =
      (2828823515942093 / 140737488355328) := by
    rw [roundDouble_of_near _ 4 5657647031884186 (by norm_num [abs_of_pos])
      (by norm_num [abs_of_pos]) (by norm_num) (by norm_num [abs_lt])]
    norm_num
  have hy : roundDouble (500 + 20) = 520 := by
    rw [roundDouble_of_int _ 520 (by norm_num) (by norm_num [abs_of_pos])]
    norm_num
  unfold fastPlayer
  rw [moveHorizontalF_still]
  simp only [Player.applyGravityF, fadd, GRAVITY_F_eq, hv, MAX_FALL_SPEED]
  rw [if_pos (by norm_num)]
  simp only [hy]

/-- The sums and differences of the overlap and landing tests of a player at `y = 520`
falling at 20 over a platform of height `height` at `y`, all exact. -/
theorem fast_overlap (x y width height : ℚ) (isGround : Bool)
    (hx : x = 0) (hw : width = 100) (hy : y = 545 ∨ y = 542) (hh : height = 50 ∨ height = 15) :
    Player.checkCollisionF ⟨0, 520, 30, 40, 0, 20, false⟩ ⟨x, y, width, height, isGround⟩ = true ∧
    Player.landsOnF ⟨0, 520, 30, 40, 0, 20, false⟩ ⟨x, y, width, height, isGround⟩ = true := by
  have h1 : roundDouble (0 + 100) = 100 := by
    rw [roundDouble_of_int _ 100 (by norm_num) (by norm_num [abs_of_pos])]
    norm_num
  have h2 : roundDouble (0 + 30) = 30 := by
    rw [roundDouble_of_int _ 30 (by norm_num) (by norm_num [abs_of_pos])]
    norm_num
  have h3 : roundDouble (545 + 50) = 595 := by
    rw [roundDouble_of_int _ 595 (by norm_num) (by norm_num [abs_of_pos])]
    norm_num
  have h3b : roundDouble (545 + 15) = 560 := by
    rw [roundDouble_of_int _ 560 (by norm_num) (by norm_num [abs_of_pos])]
    norm_num
  have h3c : roundDouble (542 + 50) = 592 := by
    rw [roundDouble_of_int _ 592 (by norm_num) (by norm_num [abs_of_pos])]
    norm_num
  have h3d : roundDouble (542 + 15) = 557 := by
    rw [roundDouble_of_int _ 557 (by norm_num) (by norm_num [abs_of_pos])]
    norm_num
  have h4 : roundDouble (520 + 40) = 560 := by
    rw [roundDouble_of_int _ 560 (by norm_num) (by norm_num [abs_of_pos])]
    norm_num
  have h5 : roundDouble (560 - 20) = 540 := by
    rw [roundDouble_of_int _ 540 (by norm_num) (by norm_num [abs_of_pos])]
    norm_num
  have h6 : roundDouble (545 + 5) = 550 := by
    rw [roundDouble_of_int _ 550 (by norm_num) (by norm_num [abs_of_pos])]
    norm_num
  have h7 : roundDouble (542 + 5) = 547 := by
    rw [roundDouble_of_int _ 547 (by norm_num) (by norm_num [abs_of_pos])]
    norm_num
  subst hx hw
  rcases hy with rfl | rfl <;> rcases hh with rfl | rfl <;>
    simp only [Player.checkCollisionF, Player.landsOnF, fadd, fsub, h1, h2, h3, h3b, h3c, h3d,
      h4, h5, h6, h7] <;> norm_num

theorem landing_resolution_double_witness :
    (fastPlayer.updateF 0 [fastPlatform] 400).velocityY = 0 ∧
    (fastPlayer.updateF 0 [fastPlatform] 400).isOnGround = true ∧
    (fastPlayer.updateF 0 [fastPlatform] 400).y +
      (fastPlayer.updateF 0 [fastPlatform] 400).height = 545 := by
  obtain ⟨h1, h2, -, h4⟩ := landing_resolution_double fastPlayer 0 400 [fastPlatform]
    fastPlatform (List.mem_singleton.mpr rfl)
    (fun q hq _ => List.mem_singleton.mp hq)
    (by rw [fast_gravity]; norm_num)
    (by rw [fast_gravity]; exact (fast_overlap 0 545 100 50 true rfl rfl (Or.inl rfl)
      (Or.inl rfl)).1)
    (by
      rw [fast_gravity]
      have := (fast_overlap 0 545 100 50 true rfl rfl (Or.inl rfl) (Or.inl rfl)).2
      simpa [Player.landsOnF] using this)
  refine ⟨h1, h2, ?_⟩
  have := h4 545 (by norm_num [fastPlatform]) (by norm_num [abs_of_pos]) rfl
  rw [this]
  norm_num [fastPlatform]

/-! ## Collision tie-break in doubles -/

theorem fast_aside :
    Player.checkCollisionF ⟨0, 520, 30, 40, 0, 20, false⟩ fastPlatformAside = false := by
  have h2 : roundDouble (0 + 30) = 30 := by
    rw [roundDouble_of_int _ 30 (by norm_num) (by norm_num [abs_of_pos])]
    norm_num
  simp only [Player.checkCollisionF, fastPlatformAside, fadd, h2]
  norm_num

theorem fast_snap : fsub 545 40 = 505 := by
  unfold fsub
  rw [roundDouble_of_int _ 505 (by norm_num) (by norm_num [abs_of_pos])]
  norm_num

/-- C2, as stated, fails: after the gravity step the player `fastPlayer` (at `y = 520`,
falling at 20) overlaps `fastPlatformA` and `fastPlatformB` and both pass the landing test,
yet with the platforms in the order `[fastPlatformA, fastPlatformB]` it rests on the first
one (`y = 545 - 40 = 505`), not on the last one (`y = 542 - 40 = 502`): the first landing
sets `velocityY` to 0 and the test `velocityY > 0` fails for every later platform. -/
theorem tie_break_last_wins_double_counterexample :
    ((fastPlayer.moveHorizontalF 0 400).applyGravityF).checkCollisionF fastPlatformA = true ∧
    ((fastPlayer.moveHorizontalF 0 400).applyGravityF).landsOnF fastPlatformA = true ∧
    ((fastPlayer.moveHorizontalF 0 400).applyGravityF).checkCollisionF fastPlatformB = true ∧
    ((fastPlayer.moveHorizontalF 0 400).applyGravityF).landsOnF fastPlatformB = true ∧
    (fastPlayer.updateF 0 [fastPlatformA, fastPlatformB] 400).y = 505 ∧
    (fastPlayer.updateF 0 [fastPlatformA, fastPlatformB] 400).y ≠
      fastPlatformB.y - fastPlayer.height := by
  have hA := fast_overlap 0 545 100 15 false rfl rfl (Or.inl rfl) (Or.inr rfl)
  have hB := fast_overlap 0 542 100 15 false rfl rfl (Or.inr rfl) (Or.inr rfl)
  have hy : (fastPlayer.updateF 0 [fastPlatformA, fastPlatformB] 400).y = 505 := by
    unfold Player.updateF Player.resolveCollisionsF
    rw [fast_gravity]
    have := foldl_collideStepF_first_landing [] [fastPlatformB] fastPlatformA
      ⟨0, 520, 30, 40, 0, 20, false⟩ (fun q hq => absurd hq (List.not_mem_nil q)) hA.1 hA.2
    rw [List.nil_append] at this
    rw [this]
    exact fast_snap
  rw [fast_gravity, hy]
  refine ⟨hA.1, hA.2, hB.1, hB.2, rfl, ?_⟩
  norm_num [fastPlatformB, fastPlayer]

/-- C2, amended. Collision tie-break: when, after the horizontal move and the gravity step as
the code computes them in doubles, the overlap test and the landing test of lines 282 and
292-295 both succeed for one or more platforms, the first such platform in array order
wins: the player rests at the double `first.y - height` with `velocityY = 0` and
`isOnGround = true`, whatever platforms follow it. -/
theorem tie_break_first_wins_double (pl : Player) (moveX canvasWidth : ℚ)
    (before after : List Platform) (first : Platform)
    (hbefore : ∀ q ∈ before,
      ¬ (((pl.moveHorizontalF moveX canvasWidth).applyGravityF).checkCollisionF q = true ∧
         ((pl.moveHorizontalF moveX canvasWidth).applyGravityF).landsOnF q = true))
    (hover :
      ((pl.moveHorizontalF moveX canvasWidth).applyGravityF).checkCollisionF first = true)
    (hland : ((pl.moveHorizontalF moveX canvasWidth).applyGravityF).landsOnF first = true) :
    (pl.updateF moveX (before ++ first :: after) canvasWidth).y = fsub first.y pl.height ∧
    (pl.updateF moveX (before ++ first :: after) canvasWidth).velocityY = 0 ∧
    (pl.updateF moveX (before ++ first :: after) canvasWidth).isOnGround = true := by
  have h1 : ∀ q ∈ before,
      (Player.checkCollisionF { (pl.moveHorizontalF moveX canvasWidth).applyGravityF with
          isOnGround := false } q &&
        Player.landsOnF { (pl.moveHorizontalF moveX canvasWidth).applyGravityF with
          isOnGround := false } q) = false := by
    intro q hq
    rw [checkCollisionF_clearGround, landsOnF_clearGround]
    have := hbefore q hq
    cases hc : ((pl.moveHorizontalF moveX canvasWidth).applyGravityF).checkCollisionF q <;>
      cases hl : ((pl.moveHorizontalF moveX canvasWidth).applyGravityF).landsOnF q <;> simp_all
  have hheight := (gravityF_fields pl moveX canvasWidth).2.2.2.2
  have hupd : pl.updateF moveX (before ++ first :: after) canvasWidth =
      { (pl.moveHorizontalF moveX canvasWidth).applyGravityF with
        y := fsub first.y ((pl.moveHorizontalF moveX canvasWidth).applyGravityF).height
        velocityY := 0
        isOnGround := true } := by
    unfold Player.updateF Player.resolveCollisionsF
    exact foldl_collideStepF_first_landing before after first _ h1 hover hland
  rw [hupd]
  refine ⟨?_, rfl, rfl⟩
  show fsub first.y ((pl.moveHorizontalF moveX canvasWidth).applyGravityF).height = _
  rw [hheight]

theorem tie_break_first_wins_double_witness :
    (fastPlayer.updateF 0 ([fastPlatformAside] ++ fastPlatformA :: [fastPlatformB]) 400).y =
      fsub fastPlatformA.y fastPlayer.height ∧
    (fastPlayer.updateF 0 ([fastPlatformAside] ++ fastPlatformA :: [fastPlatformB])
      400).velocityY = 0 ∧
    (fastPlayer.updateF 0 ([fastPlatformAside] ++ fastPlatformA :: [fastPlatformB])
      400).isOnGround = true :=
  tie_break_first_wins_double fastPlayer 0 400 [fastPlatformAside] [fastPlatformB]
    fastPlatformA
    (by
      intro q hq
      rw [List.mem_singleton] at hq
      subst hq
      rw [fast_gravity, fast_aside]
      simp)
    (by rw [fast_gravity]; exact (fast_overlap 0 545 100 15 false rfl rfl (Or.inl rfl)
      (Or.inr rfl)).1)
    (by rw [fast_gravity]; exact (fast_overlap 0 545 100 15 false rfl rfl (Or.inl rfl)
      (Or.inr rfl)).2)

/-! ## No tunnelling in doubles -/

theorem edge_gravity :
    (edgePlayer.moveHorizontalF 0 400).applyGravityF =
      ⟨0, -4130, 30, 40, 0, (4053239664633443 / 281474976710656), false⟩ := by
  have hv : roundDouble ((7768709357214099 / 562949953421312) +
        (5404319552844595 / 9007199254740992)) =
      (4053239664633443 / 281474976710656) := by
    rw [roundDouble_of_near _ 3 8106479329266886 (by norm_num [abs_of_pos])
      (by norm_num [abs_of_pos]) (by norm_num) (by norm_num [abs_lt])]
    norm_num
  have hy : roundDouble ((-2278407995077427 / 549755813888) +
        (4053239664633443 / 281474976710656)) =
      -4130 := by
    rw [roundDouble_of_near _ 12 (-4540983022714880) (by norm_num [abs_of_neg])
      (by norm_num [abs_of_neg]) (by norm_num) (by norm_num [abs_lt])]
    norm_num
  unfold edgePlayer
  rw [moveHorizontalF_still]
  simp only [Player.applyGravityF, fadd, GRAVITY_F_eq, hv, MAX_FALL_SPEED]
  rw [if_neg (by norm_num)]
  simp only [hy]

theorem edge_no_overlap :
    Player.checkCollisionF ⟨0, -4130, 30, 40, 0,
      (4053239664633443 / 281474976710656), false⟩ edgePlatform = false := by
  have h4 : roundDouble (-4130 + 40) = -4090 := by
    rw [roundDouble_of_int _ (-4090) (by norm_num) (by norm_num [abs_of_neg])]
    norm_num
  simp only [Player.checkCollisionF, edgePlatform, fadd, h4]
  norm_num

/-- C17, as stated, fails: the player of height 40 at `y = -4144.4` with velocity
`13.799999999999988` has its bottom above the top `-4090` of the platform before the
vertical step, and `y + velocityY + height` exceeds `-4090` (by about `3.5e-13`) with the
velocity after gravity; but `y + velocityY` rounds to `-4130`, the bottom `-4130 + 40` equals
the top, the overlap test of line 295 fails and `update` ends airborne and still falling. -/
theorem tunnelling_rounding_counterexample :
    edgePlayer.height = 40 ∧ edgePlatform.height > -20 ∧
    (edgePlayer.moveHorizontalF 0 400).x < edgePlatform.x + edgePlatform.width ∧
    (edgePlayer.moveHorizontalF 0 400).x + (edgePlayer.moveHorizontalF 0 400).width >
      edgePlatform.x ∧
    ((edgePlayer.moveHorizontalF 0 400).applyGravityF).velocityY > 0 ∧
    edgePlayer.y + edgePlayer.height ≤ edgePlatform.y ∧
    edgePlayer.y + ((edgePlayer.moveHorizontalF 0 400).applyGravityF).velocityY +
      edgePlayer.height > edgePlatform.y ∧
    (edgePlayer.updateF 0 [edgePlatform] 400).isOnGround = false ∧
    (edgePlayer.updateF 0 [edgePlatform] 400).velocityY ≠ 0 := by
  have hupd : edgePlayer.updateF 0 [edgePlatform] 400 =
      ⟨0, -4130, 30, 40, 0, (4053239664633443 / 281474976710656), false⟩ := by
    unfold Player.updateF Player.resolveCollisionsF
    rw [edge_gravity]
    exact foldl_collideStepF_of_no_landing _ _ (fun q hq => by
      rw [List.mem_singleton] at hq
      subst hq
      rw [checkCollisionF_clearGround, edge_no_overlap]
      rfl)
  have hmove : edgePlayer.moveHorizontalF 0 400 = edgePlayer := moveHorizontalF_still _ _ _
  rw [edge_gravity, hupd, hmove]
  norm_num [edgePlayer, edgePlatform]

/-- A sum of magnitude at most `2 ^ 42` is rounded by at most `1 / 2048`. -/
theorem fadd_bounds (a b : ℚ) (h : |a + b| ≤ 2 ^ 42) :
    a + b - 1 / 2048 ≤ fadd a b ∧ fadd a b ≤ a + b + 1 / 2048 := by
  have herr := roundDouble_error (a + b) 42 (by norm_num) (by exact_mod_cast h)
  have hpow : (2 : ℚ) ^ ((42 : ℤ) - 53) = 1 / 2048 := by norm_num
  rw [hpow, abs_le] at herr
  unfold fadd
  constructor <;> linarith [herr.1, herr.2]

/-- A difference of magnitude at most `2 ^ 42` is rounded by at most `1 / 2048`. -/
theorem fsub_bounds (a b : ℚ) (h : |a - b| ≤ 2 ^ 42) :
    a - b - 1 / 2048 ≤ fsub a b ∧ fsub a b ≤ a - b + 1 / 2048 := by
  have herr := roundDouble_error (a - b) 42 (by norm_num) (by exact_mod_cast h)
  have hpow : (2 : ℚ) ^ ((42 : ℤ) - 53) = 1 / 2048 := by norm_num
  rw [hpow, abs_le] at herr
  unfold fsub
  constructor <;> linarith [herr.1, herr.2]

theorem exists_first_landingF (ps : List Platform) (pl : Player)
    (h : ∃ p ∈ ps, pl.checkCollisionF p = true ∧ pl.landsOnF p = true) :
    ∃ l1 q l2, ps = l1 ++ q :: l2 ∧
      (∀ r ∈ l1, (pl.checkCollisionF r && pl.landsOnF r) = false) ∧
      pl.checkCollisionF q = true ∧ pl.landsOnF q = true := by
  induction ps with
  | nil =>
    obtain ⟨p, hp, -⟩ := h
    cases hp
  | cons a rest ih =>
    by_cases ha : pl.checkCollisionF a = true ∧ pl.landsOnF a = true
    · exact ⟨[], a, rest, rfl, fun r hr => absurd hr (List.not_mem_nil r), ha.1, ha.2⟩
    · have hrest : ∃ p ∈ rest, pl.checkCollisionF p = true ∧ pl.landsOnF p = true := by
        obtain ⟨p, hp, hhit⟩ := h
        rcases List.mem_cons.mp hp with rfl | hmem
        · exact absurd hhit ha
        · exact ⟨p, hmem, hhit⟩
      obtain ⟨l1, q, l2, hsplit, hl1, hq⟩ := ih hrest
      refine ⟨a :: l1, q, l2, by rw [hsplit, List.cons_append], ?_, hq⟩
      intro r hr
      rcases List.mem_cons.mp hr with rfl | hmem
      · cases hc : pl.checkCollisionF r <;> cases hl : pl.landsOnF r <;> simp_all
      · exact hl1 r hmem

/-- In doubles, when the overlap and landing tests succeed for some platform after the
gravity step, `update` ends on a platform of the list, grounded and with no vertical
velocity. -/
theorem updateF_lands (pl : Player) (moveX canvasWidth : ℚ) (platforms : List Platform)
    (h : ∃ p ∈ platforms,
      ((pl.moveHorizontalF moveX canvasWidth).applyGravityF).checkCollisionF p = true ∧
      ((pl.moveHorizontalF moveX canvasWidth).applyGravityF).landsOnF p = true) :
    (pl.updateF moveX platforms canvasWidth).isOnGround = true ∧
    (pl.updateF moveX platforms canvasWidth).velocityY = 0 ∧
    (pl.updateF moveX platforms canvasWidth).height = pl.height ∧
    ∃ q ∈ platforms,
      ((pl.moveHorizontalF moveX canvasWidth).applyGravityF).checkCollisionF q = true ∧
      (pl.updateF moveX platforms canvasWidth).y = fsub q.y pl.height := by
  obtain ⟨l1, q, l2, hsplit, hl1, hc, hl⟩ := exists_first_landingF platforms
    { (pl.moveHorizontalF moveX canvasWidth).applyGravityF with isOnGround := false } h
  have hheight := (gravityF_fields pl moveX canvasWidth).2.2.2.2
  have hupd : pl.updateF moveX platforms canvasWidth =
      { (pl.moveHorizontalF moveX canvasWidth).applyGravityF with
        y := fsub q.y ((pl.moveHorizontalF moveX canvasWidth).applyGravityF).height
        velocityY := 0
        isOnGround := true } := by
    unfold Player.updateF Player.resolveCollisionsF
    rw [hsplit]
    exact foldl_collideStepF_first_landing l1 l2 q _ hl1 hc hl
  rw [hupd]
  refine ⟨rfl, rfl, hheight, q, ?_, hc, ?_⟩
  · rw [hsplit]
    exact List.mem_append_right _ (List.mem_cons_self q l2)
  · show fsub q.y ((pl.moveHorizontalF moveX canvasWidth).applyGravityF).height =
      fsub q.y pl.height
    rw [hheight]

/-- C17, amended. No tunnelling: for a player of height 40 and a platform `p` of the list
with `-19 ≤ height ≤ 2 ^ 40`, both at heights of magnitude at most `2 ^ 40`, if after the
horizontal move the x-overlap tests of lines 292-293 succeed, the velocity after the gravity
step is positive, the player's bottom is at or above the top of `p` before the vertical step
and the test of line 295 finds it strictly below after (`y + height > p.y` as computed in
doubles on the new `y`), then `update` ends with `isOnGround = true` and `velocityY = 0`;
when `p` is the only platform, or the only one the player overlaps, it ends with `y` the
double `p.y - height`. -/
theorem no_tunnelling_double (pl : Player) (moveX canvasWidth : ℚ) (platforms : List Platform)
    (p : Platform) (hheight : pl.height = 40) (hp : p ∈ platforms)
    (hph : -19 ≤ p.height) (hphmax : p.height ≤ 2 ^ 40)
    (hy : |pl.y| ≤ 2 ^ 40) (hpy : |p.y| ≤ 2 ^ 40)
    (hx : (pl.moveHorizontalF moveX canvasWidth).x < fadd p.x p.width ∧
      fadd (pl.moveHorizontalF moveX canvasWidth).x
        (pl.moveHorizontalF moveX canvasWidth).width > p.x)
    (hv : ((pl.moveHorizontalF moveX canvasWidth).applyGravityF).velocityY > 0)
    (hprev : pl.y + pl.height ≤ p.y)
    (hpost : fadd ((pl.moveHorizontalF moveX canvasWidth).applyGravityF).y
      ((pl.moveHorizontalF moveX canvasWidth).applyGravityF).height > p.y) :
    (pl.updateF moveX platforms canvasWidth).isOnGround = true ∧
    (pl.updateF moveX platforms canvasWidth).velocityY = 0 ∧
    (platforms = [p] → (pl.updateF moveX platforms canvasWidth).y = fsub p.y pl.height) ∧
    ((∀ q ∈ platforms,
        ((pl.moveHorizontalF moveX canvasWidth).applyGravityF).checkCollisionF q = true →
          q = p) →
      (pl.updateF moveX platforms canvasWidth).y = fsub p.y pl.height) := by
  obtain ⟨gv, gy, gx, gw, gh⟩ := gravityF_fields pl moveX canvasWidth
  have hw := (moveHorizontalF_vertical pl moveX canvasWidth).2.2.1
  have hstep : ((pl.moveHorizontalF moveX canvasWidth).applyGravityF).velocityY ≤ 20 := by
    rw [gv]
    exact min_le_right _ _
  rw [← gv] at gy
  rw [abs_le] at hy hpy
  have hpow : (2 : ℚ) ^ 40 = 1099511627776 := by norm_num
  have hpow2 : (2 : ℚ) ^ 42 = 4398046511104 := by norm_num
  rw [hpow] at hy hpy hphmax
  -- the rounded vertical move
  have hy1 := fadd_bounds pl.y ((pl.moveHorizontalF moveX canvasWidth).applyGravityF).velocityY
    (by rw [abs_le, hpow2]; constructor <;> linarith [hy.1, hy.2])
  rw [← gy] at hy1
  -- the rounded lower edge of the platform
  have hbot := fadd_bounds p.y p.height
    (by rw [abs_le, hpow2]; constructor <;> linarith [hpy.1, hpy.2])
  have hc : ((pl.moveHorizontalF moveX canvasWidth).applyGravityF).checkCollisionF p = true := by
    unfold Player.checkCollisionF
    rw [gx, gw, gh]
    rw [hw] at hx
    rw [gh] at hpost
    have h3 : ((pl.moveHorizontalF moveX canvasWidth).applyGravityF).y < fadd p.y p.height := by
      rw [hheight] at hprev
      linarith [hy1.2, hbot.1]
    simp [hx.1, hx.2, h3, hpost]
  have hl : ((pl.moveHorizontalF moveX canvasWidth).applyGravityF).landsOnF p = true := by
    have hA := fadd_bounds ((pl.moveHorizontalF moveX canvasWidth).applyGravityF).y 40
      (by rw [abs_le, hpow2]; constructor <;> linarith [hy1.1, hy1.2, hy.1, hy.2])
    have hB := fsub_bounds (fadd ((pl.moveHorizontalF moveX canvasWidth).applyGravityF).y 40)
      ((pl.moveHorizontalF moveX canvasWidth).applyGravityF).velocityY
      (by rw [abs_le, hpow2]; constructor <;>
        linarith [hA.1, hA.2, hy1.1, hy1.2, hy.1, hy.2])
    have hT := fadd_bounds p.y 5
      (by rw [abs_le, hpow2]; constructor <;> linarith [hpy.1, hpy.2])
    have hland : fsub (fadd ((pl.moveHorizontalF moveX canvasWidth).applyGravityF).y
          ((pl.moveHorizontalF moveX canvasWidth).applyGravityF).height)
        ((pl.moveHorizontalF moveX canvasWidth).applyGravityF).velocityY ≤ fadd p.y 5 := by
      rw [gh, hheight]
      rw [hheight] at hprev
      linarith [hA.2, hB.2, hT.1, hy1.2]
    simp [Player.landsOnF, hv, hland]
  obtain ⟨hg, hzero, -, q, hq, hcq, hyq⟩ :=
    updateF_lands pl moveX canvasWidth platforms ⟨p, hp, hc, hl⟩
  refine ⟨hg, hzero, ?_, ?_⟩
  · intro hsingle
    rw [hsingle, List.mem_singleton] at hq
    rw [hyq, hq]
  · intro honly
    rw [hyq, honly q hq hcq]

theorem no_tunnelling_double_witness :
    (fastPlayer.updateF 0 [fastPlatform] 400).isOnGround = true ∧
    (fastPlayer.updateF 0 [fastPlatform] 400).velocityY = 0 ∧
    (fastPlayer.updateF 0 [fastPlatform] 400).y = fsub fastPlatform.y fastPlayer.height := by
  have hmove : fastPlayer.moveHorizontalF 0 400 = fastPlayer := moveHorizontalF_still _ _ _
  have hover := (fast_overlap 0 545 100 50 true rfl rfl (Or.inl rfl) (Or.inl rfl)).1
  simp only [Player.checkCollisionF, Bool.and_eq_true, decide_eq_true_eq] at hover
  obtain ⟨h1, h2, h3, -⟩ := no_tunnelling_double fastPlayer 0 400 [fastPlatform] fastPlatform
    rfl (List.mem_singleton.mpr rfl) (by norm_num [fastPlatform]) (by norm_num [fastPlatform])
    (by norm_num [fastPlayer, abs_of_pos]) (by norm_num [fastPlatform, abs_of_pos])
    (by rw [hmove]; exact ⟨hover.1.1.1, hover.1.1.2⟩)
    (by rw [fast_gravity]; norm_num)
    (by norm_num [fastPlayer, fastPlatform])
    (by rw [fast_gravity]; exact hover.2)
  exact ⟨h1, h2, h3 rfl⟩

/-! ## Platform extension in doubles -/

theorem appendedF_succ (rand : ℕ → ℚ) (canvasWidth top : ℚ) (i n : ℕ) :
    appendedF rand canvasWidth top i (n + 1) =
      Platform.mk (fmul (rand i) (fsub canvasWidth 100)) (top - 80) 100 15 false ::
        appendedF rand canvasWidth (top - 80) (i + 1) n := by
  unfold appendedF
  rw [List.range_succ_eq_map, List.map_cons, List.map_map]
  congr 1
  · norm_num
  · apply List.map_congr_left
    intro k _
    simp only [Function.comp_apply, Nat.cast_succ, Platform.mk.injEq, and_true, true_and]
    constructor
    · congr 2
      omega
    · ring

/-- Subtracting the gap from an integer height between `-2 ^ 52 - 80` and `2 ^ 52` is
exact. -/
theorem fsub_gap (top : ℤ) (hlo : -(2 : ℚ) ^ 52 - 80 ≤ top) (hhi : (top : ℚ) ≤ 2 ^ 52) :
    fsub (top : ℚ) PLATFORM_GAP = ((top - 80 : ℤ) : ℚ) := by
  unfold fsub PLATFORM_GAP
  apply roundDouble_of_int _ (top - 80) (by push_cast; ring)
  rw [abs_le]
  push_cast
  constructor <;> norm_num at hlo hhi ⊢ <;> linarith

/-- In doubles the extension loop started at an integer height between `-2 ^ 52 - 80` and
`2 ^ 52`, with a bound of at least `-2 ^ 52`, exits after `n` iterations, `n` the first
count with `top - 80 * n ≤ bound`: every fuel above `n` returns the list with `n` platforms
appended. -/
theorem extendLoopF_eq (rand : ℕ → ℚ) (canvasWidth bound : ℚ) (hbound : -(2 : ℚ) ^ 52 ≤ bound)
    (m : ℕ) :
    ∀ (top : ℤ) (i : ℕ) (platforms : List Platform),
      -(2 : ℚ) ^ 52 - 80 ≤ top → (top : ℚ) ≤ 2 ^ 52 → ⌈((top : ℚ) - bound) / 80⌉.toNat = m →
      ∃ n : ℕ, (∀ fuel : ℕ, n < fuel →
          extendLoopF rand canvasWidth bound fuel top i platforms =
            some (platforms ++ appendedF rand canvasWidth top i n)) ∧
        (top : ℚ) - 80 * (n : ℚ) ≤ bound ∧
        ∀ k : ℕ, k < n → bound < (top : ℚ) - 80 * (k : ℚ) := by
  induction m using Nat.strong_induction_on with
  | _ m ih =>
    intro top i platforms hlo hhi hm
    by_cases h : (top : ℚ) > bound
    · have h1 : ((((top - 80 : ℤ) : ℚ)) - bound) / 80 = ((top : ℚ) - bound) / 80 - 1 := by
        push_cast
        ring
      have h2 : 0 < ⌈((top : ℚ) - bound) / 80⌉ :=
        Int.ceil_pos.mpr (div_pos (sub_pos.mpr h) (by norm_num))
      have hlt : ⌈((((top - 80 : ℤ) : ℚ)) - bound) / 80⌉.toNat < m := by
        rw [h1, Int.ceil_sub_one]
        omega
      have hlo2 : -(2 : ℚ) ^ 52 - 80 ≤ ((top - 80 : ℤ) : ℚ) := by
        push_cast
        linarith
      have hhi2 : ((top - 80 : ℤ) : ℚ) ≤ 2 ^ 52 := by
        push_cast
        linarith
      obtain ⟨n, hn, hstop, hrun⟩ := ih _ hlt (top - 80) (i + 1)
        (platforms ++ [Platform.mk (fmul (rand i) (fsub canvasWidth PLATFORM_WIDTH))
          ((top - 80 : ℤ) : ℚ) PLATFORM_WIDTH PLATFORM_HEIGHT false]) hlo2 hhi2 rfl
      refine ⟨n + 1, ?_, ?_, ?_⟩
      · intro fuel hfuel
        obtain ⟨f, rfl⟩ : ∃ f, fuel = f + 1 := ⟨fuel - 1, by omega⟩
        rw [extendLoopF, if_pos h]
        simp only []
        rw [fsub_gap top hlo hhi, hn f (by omega), appendedF_succ]
        simp [PLATFORM_WIDTH, PLATFORM_HEIGHT]
      · have : (top : ℚ) - 80 * ((n + 1 : ℕ) : ℚ) = ((top - 80 : ℤ) : ℚ) - 80 * (n : ℚ) := by
          push_cast
          ring
        rw [this]
        exact hstop
      · intro k hk
        cases k with
        | zero => simpa using h
        | succ j =>
          have := hrun j (by omega)
          have e : (top : ℚ) - 80 * ((j + 1 : ℕ) : ℚ) =
              ((top - 80 : ℤ) : ℚ) - 80 * (j : ℚ) := by
            push_cast
            ring
          rw [e]
          exact this
    · refine ⟨0, ?_, ?_, ?_⟩
      · intro fuel hfuel
        obtain ⟨f, rfl⟩ : ∃ f, fuel = f + 1 := ⟨fuel - 1, by omega⟩
        rw [extendLoopF, if_neg h]
        simp [appendedF]
      · simpa using not_lt.mp h
      · intro k hk
        exact absurd hk (Nat.not_lt_zero k)

theorem drifted_bound : fsub driftedCamera 700 = -710 := by
  unfold fsub driftedCamera
  rw [roundDouble_of_tie _ 9 (-6245226045767680) (by norm_num [abs_of_neg])
    (by norm_num [abs_of_neg]) (by norm_num) (by norm_num [abs_of_neg]) (by norm_num)]
  norm_num

/-- C4, as stated, fails: with `cameraY = -10.000000000000057`, `H = 700` and the topmost
platform at `y = -710`, the exact `cameraY - H` is below `-710`, so that the first `k` with
`top - 80 * k ≤ cameraY - H` is 1 and the claim has one platform appended at `-790`; but
line 167 computes `cameraY - H` as the double `-710`, the loop condition `-710 > -710` is
false at once and the loop appends nothing. -/
theorem extend_bound_counterexample :
    highestPlatform [Platform.mk 150 (-710) 100 15 false] = some (-710) ∧
    ¬ ((-710 : ℚ) - 80 * 0 ≤ driftedCamera - 700) ∧
    (-710 : ℚ) - 80 * 1 ≤ driftedCamera - 700 ∧
    (∀ fuel : ℕ, extendLoopF halfRandom 400 (fsub driftedCamera 700) (fuel + 1) (-710) 0
      [Platform.mk 150 (-710) 100 15 false] = some [Platform.mk 150 (-710) 100 15 false]) := by
  refine ⟨rfl, by norm_num [driftedCamera], by norm_num [driftedCamera], ?_⟩
  intro fuel
  rw [drifted_bound, extendLoopF, if_neg (lt_irrefl _)]

/-- C4, amended. Generator termination: for every platform list whose least `y`, `top`, is
an integer of magnitude at most `2 ^ 52`, and every camera offset and viewport height whose
difference `cameraY - H`, as line 167 computes it in doubles, is at least `-2 ^ 52`, the
extension loop of `update` exits after a finite number `n` of iterations (every fuel above
`n` returns); it appends `n` platforms of size 100 x 15, the `k`-th (counted from 1) at
exactly `y = top - 80 * k`, and `n` is the first count with `top - 80 * n` at most the
computed `cameraY - H`, which is 0 when `top` is at most that already; the appended heights
are strictly decreasing and all below `top`. -/
theorem extend_terminates_double (rand : ℕ → ℚ) (canvasWidth cameraY canvasHeight : ℚ)
    (platforms : List Platform) (top : ℤ)
    (htop : highestPlatform platforms = some (top : ℚ))
    (hrange : |(top : ℚ)| ≤ 2 ^ 52) (hbound : -(2 : ℚ) ^ 52 ≤ fsub cameraY canvasHeight) :
    ∃ n : ℕ,
      (∀ p ∈ platforms, (top : ℚ) ≤ p.y) ∧ (∃ p ∈ platforms, p.y = top) ∧
      (∀ fuel : ℕ, n < fuel →
        extendLoopF rand canvasWidth (fsub cameraY canvasHeight) fuel top 0 platforms =
          some (platforms ++ (List.range n).map (fun k =>
            Platform.mk (fmul (rand k) (fsub canvasWidth 100)) ((top : ℚ) - 80 * ((k : ℚ) + 1))
              100 15 false))) ∧
      (top : ℚ) - 80 * (n : ℚ) ≤ fsub cameraY canvasHeight ∧
      (∀ k : ℕ, k < n → fsub cameraY canvasHeight < (top : ℚ) - 80 * (k : ℚ)) ∧
      ((top : ℚ) ≤ fsub cameraY canvasHeight → n = 0) ∧
      List.Pairwise (fun a b : Platform => b.y < a.y) ((List.range n).map (fun k =>
        Platform.mk (fmul (rand k) (fsub canvasWidth 100)) ((top : ℚ) - 80 * ((k : ℚ) + 1))
          100 15 false)) ∧
      (∀ p ∈ (List.range n).map (fun k =>
        Platform.mk (fmul (rand k) (fsub canvasWidth 100)) ((top : ℚ) - 80 * ((k : ℚ) + 1))
          100 15 false), p.y < top) := by
  have hne : platforms ≠ [] := by
    intro h
    rw [h] at htop
    cases htop
  obtain ⟨top1, htop1, hle, hmem⟩ := highestPlatform_isLeast platforms hne
  have heq : top1 = (top : ℚ) := Option.some.inj (htop1.symm.trans htop)
  rw [heq] at hle hmem
  rw [abs_le] at hrange
  obtain ⟨n, hn, hstop, hrun⟩ :=
    extendLoopF_eq rand canvasWidth (fsub cameraY canvasHeight) hbound _ top 0 platforms
      (by linarith [hrange.1]) hrange.2 rfl
  refine ⟨n, hle, hmem, ?_, hstop, hrun, ?_, ?_, ?_⟩
  · intro fuel hfuel
    rw [hn fuel hfuel]
    simp [appendedF]
  · intro h
    rcases Nat.eq_zero_or_pos n with h0 | hpos
    · exact h0
    · have := hrun 0 hpos
      simp only [Nat.cast_zero, mul_zero, sub_zero] at this
      exact absurd h (not_le.mpr this)
  · rw [List.pairwise_map]
    refine (List.pairwise_lt_range n).imp ?_
    intro a b hab
    have : (a : ℚ) < (b : ℚ) := by exact_mod_cast hab
    simp only
    linarith
  · intro p hp
    rw [List.mem_map] at hp
    obtain ⟨k, -, rfl⟩ := hp
    have : (0 : ℚ) ≤ (k : ℚ) := Nat.cast_nonneg k
    simp only
    linarith

theorem extend_terminates_double_witness :
    ∃ n : ℕ, (∀ fuel : ℕ, n < fuel →
        extendLoopF halfRandom 400 (fsub 0 600) fuel ((550 : ℤ) : ℚ) 0
            [Platform.mk 0 550 400 50 true] =
          some ([Platform.mk 0 550 400 50 true] ++ (List.range n).map (fun k =>
            Platform.mk (fmul (halfRandom k) (fsub 400 100)) (((550 : ℤ) : ℚ) - 80 * ((k : ℚ) + 1))
              100 15 false))) ∧
      ((550 : ℤ) : ℚ) - 80 * (n : ℚ) ≤ fsub 0 600 := by
  have hb : fsub 0 600 = -600 := by
    unfold fsub
    rw [roundDouble_of_int _ (-600) (by norm_num) (by norm_num [abs_of_neg])]
    norm_num
  obtain ⟨n, -, -, h3, h4, -⟩ := extend_terminates_double halfRandom 400 0 600
    [Platform.mk 0 550 400 50 true] 550 (by norm_num [highestPlatform])
    (by norm_num [abs_of_pos]) (by rw [hb]; norm_num)
  exact ⟨n, h3, h4⟩

/-! ## Loss condition in doubles -/

/-- In doubles a playing game with a player, whose extension loop exits with the list
`extended`, returns from `update` with the state assembled by lines 150-175, passed through
`gameOver` when the player is below the view. -/
theorem updateF_playing (g : Game) (deltaTime : ℚ) (rand : ℕ → ℚ) (fuel : ℕ) (pl : Player)
    (top : ℚ) (extended : List Platform)
    (hstate : g.gameState = GameState.playing) (hpl : g.player = some pl)
    (htop : highestPlatform g.platforms = some top)
    (hloop : extendLoopF rand g.canvasWidth
      (fsub (updateCameraF g.cameraY (pl.updateF g.moveX g.platforms g.canvasWidth).y
        g.canvasHeight) g.canvasHeight) fuel top 0 g.platforms = some extended) :
    g.updateF deltaTime rand fuel = some (Except.ok
      (if (pl.updateF g.moveX g.platforms g.canvasWidth).y >
          fadd (updateCameraF g.cameraY (pl.updateF g.moveX g.platforms g.canvasWidth).y
            g.canvasHeight) g.canvasHeight then
        Game.gameOver
          { g with
            player := some (pl.updateF g.moveX g.platforms g.canvasWidth)
            cameraY := updateCameraF g.cameraY
              (pl.updateF g.moveX g.platforms g.canvasWidth).y g.canvasHeight
            score := updateScoreF g.score (pl.updateF g.moveX g.platforms g.canvasWidth).y
            platforms := cullPlatformsF extended
              (updateCameraF g.cameraY (pl.updateF g.moveX g.platforms g.canvasWidth).y
                g.canvasHeight) g.canvasHeight }
      else
        { g with
          player := some (pl.updateF g.moveX g.platforms g.canvasWidth)
          cameraY := updateCameraF g.cameraY
            (pl.updateF g.moveX g.platforms g.canvasWidth).y g.canvasHeight
          score := updateScoreF g.score (pl.updateF g.moveX g.platforms g.canvasWidth).y
          platforms := cullPlatformsF extended
            (updateCameraF g.cameraY (pl.updateF g.moveX g.platforms g.canvasWidth).y
              g.canvasHeight) g.canvasHeight })) := by
  unfold Game.updateF
  simp only [hstate, ne_eq, not_true_eq_false, if_false, hpl, htop, hloop]
  split_ifs <;> rfl

/-- In doubles a playing game with a player, whose topmost platform is at an integer height
of magnitude at most `2 ^ 52` and whose computed `cameraY - H` is at least `-2 ^ 52`,
returns from `update` for every fuel above some `n`; the state returned is `gameOver`
exactly when the player's `y` exceeds the computed `cameraY + H`. -/
theorem updateF_loss (g : Game) (deltaTime : ℚ) (rand : ℕ → ℚ) (pl : Player) (top : ℤ)
    (hstate : g.gameState = GameState.playing) (hpl : g.player = some pl)
    (htop : highestPlatform g.platforms = some (top : ℚ))
    (hrange : |(top : ℚ)| ≤ 2 ^ 52)
    (hbound : -(2 : ℚ) ^ 52 ≤
      fsub (updateCameraF g.cameraY (pl.updateF g.moveX g.platforms g.canvasWidth).y
        g.canvasHeight) g.canvasHeight) :
    ∃ (n : ℕ) (g1 : Game),
      (∀ fuel : ℕ, n < fuel → g.updateF deltaTime rand fuel = some (Except.ok g1)) ∧
      g1.player = some (pl.updateF g.moveX g.platforms g.canvasWidth) ∧
      g1.cameraY = updateCameraF g.cameraY
        (pl.updateF g.moveX g.platforms g.canvasWidth).y g.canvasHeight ∧
      (g1.gameState = GameState.gameOver ↔
        (pl.updateF g.moveX g.platforms g.canvasWidth).y > fadd g1.cameraY g.canvasHeight) ∧
      (¬ ((pl.updateF g.moveX g.platforms g.canvasWidth).y > fadd g1.cameraY g.canvasHeight) →
        g1.gameState = GameState.playing) := by
  rw [abs_le] at hrange
  obtain ⟨n, hn, -, -⟩ := extendLoopF_eq rand g.canvasWidth _ hbound _ top 0 g.platforms
    (by linarith [hrange.1]) hrange.2 rfl
  have key := fun (fuel : ℕ) (hfuel : n < fuel) =>
    updateF_playing g deltaTime rand fuel pl top _ hstate hpl htop (hn fuel hfuel)
  refine ⟨n, _, key, ?_, ?_, ?_, ?_⟩
  · split_ifs
    · rw [gameOver_player]
    · rfl
  · split_ifs
    · rw [gameOver_cameraY]
    · rfl
  · split_ifs with hfall
    · rw [gameOver_cameraY]
      exact ⟨fun _ => hfall, fun _ => gameOver_gameState _⟩
    · constructor
      · intro h
        have hp : g.gameState = GameState.gameOver := h
        rw [hstate] at hp
        cases hp
      · intro h
        exact absurd h hfall
  · split_ifs with hfall
    · rw [gameOver_cameraY]
      intro h
      exact absurd hfall h
    · intro _
      exact hstate

/-- C12, amended. Loss condition: a playing game with a player, whose topmost platform is at
an integer height of magnitude at most `2 ^ 52` and whose computed `cameraY - H` is at least
`-2 ^ 52`, returns from `update` (for every fuel above some `n`), in the state `gameOver` if
and only if the player's `y` after the player update is greater than the double
`cameraY + H` that line 178 computes from the camera offset after this frame's camera
update, and otherwise in the state `playing`; in particular a `y` one above that double ends
the game and a `y` equal to it does not. -/
theorem loss_condition_double (g : Game) (deltaTime : ℚ) (rand : ℕ → ℚ) (pl : Player)
    (top : ℤ) (hstate : g.gameState = GameState.playing) (hpl : g.player = some pl)
    (htop : highestPlatform g.platforms = some (top : ℚ))
    (hrange : |(top : ℚ)| ≤ 2 ^ 52)
    (hbound : -(2 : ℚ) ^ 52 ≤
      fsub (updateCameraF g.cameraY (pl.updateF g.moveX g.platforms g.canvasWidth).y
        g.canvasHeight) g.canvasHeight) :
    ∃ (n : ℕ) (g1 : Game) (pl1 : Player),
      (∀ fuel : ℕ, n < fuel → g.updateF deltaTime rand fuel = some (Except.ok g1)) ∧
      g1.player = some pl1 ∧ pl1 = pl.updateF g.moveX g.platforms g.canvasWidth ∧
      g1.cameraY = updateCameraF g.cameraY pl1.y g.canvasHeight ∧
      (g1.gameState = GameState.gameOver ↔ pl1.y > fadd g1.cameraY g.canvasHeight) ∧
      (¬ (pl1.y > fadd g1.cameraY g.canvasHeight) → g1.gameState = GameState.playing) ∧
      (pl1.y = fadd g1.cameraY g.canvasHeight + 1 → g1.gameState = GameState.gameOver) ∧
      (pl1.y = fadd g1.cameraY g.canvasHeight → g1.gameState = GameState.playing) := by
  obtain ⟨n, g1, hret, hplayer, hcam, hiff, hstay⟩ :=
    updateF_loss g deltaTime rand pl top hstate hpl htop hrange hbound
  refine ⟨n, g1, _, hret, hplayer, rfl, hcam, hiff, hstay, ?_, ?_⟩
  · intro h
    exact hiff.mpr (by rw [h]; linarith)
  · intro h
    exact hstay (by rw [h]; exact lt_irrefl _)

theorem CAMERA_OFFSET_F_eq : CAMERA_OFFSET_F = (3602879701896397 / 9007199254740992) := by
  unfold CAMERA_OFFSET_F
  rw [roundDouble_of_near _ (-2) 7205759403792794 (by norm_num [abs_of_pos])
    (by norm_num [abs_of_pos]) (by norm_num) (by norm_num [abs_lt])]
  norm_num

theorem brink_player :
    brinkPlayer.updateF 0 [Platform.mk 150 (-710) 100 15 false] 400 =
      ⟨0, 530, 30, 40, 0, 20, false⟩ := by
  have hv : roundDouble (39 / 2 + (5404319552844595 / 9007199254740992)) =
      (2828823515942093 / 140737488355328) := by
    rw [roundDouble_of_near _ 4 5657647031884186 (by norm_num [abs_of_pos])
      (by norm_num [abs_of_pos]) (by norm_num) (by norm_num [abs_lt])]
    norm_num
  have hy : roundDouble (510 + 20) = 530 := by
    rw [roundDouble_of_int _ 530 (by norm_num) (by norm_num [abs_of_pos])]
    norm_num
  have h2 : roundDouble (0 + 30) = 30 := by
    rw [roundDouble_of_int _ 30 (by norm_num) (by norm_num [abs_of_pos])]
    norm_num
  have hg : (brinkPlayer.moveHorizontalF 0 400).applyGravityF =
      ⟨0, 530, 30, 40, 0, 20, false⟩ := by
    unfold brinkPlayer
    rw [moveHorizontalF_still]
    simp only [Player.applyGravityF, fadd, GRAVITY_F_eq, hv, MAX_FALL_SPEED]
    rw [if_pos (by norm_num)]
    simp only [hy]
  unfold Player.updateF Player.resolveCollisionsF
  rw [hg]
  exact foldl_collideStepF_of_no_landing _ _ (fun q hq => by
    rw [List.mem_singleton] at hq
    subst hq
    have hc : Player.checkCollisionF ⟨0, 530, 30, 40, 0, 20, false⟩
        (Platform.mk 150 (-710) 100 15 false) = false := by
      simp only [Player.checkCollisionF, fadd, h2]
      norm_num
    rw [checkCollisionF_clearGround, hc]
    rfl)

theorem brink_camera (cameraY : ℚ) (h : cameraY ≤ 250) :
    updateCameraF cameraY 530 700 = cameraY := by
  have h1 : roundDouble (700 * (3602879701896397 / 9007199254740992)) = 280 := by
    rw [roundDouble_of_near _ 8 4925812092436480 (by norm_num [abs_of_pos])
      (by norm_num [abs_of_pos]) (by norm_num) (by norm_num [abs_lt])]
    norm_num
  have h2 : roundDouble (530 - 280) = 250 := by
    rw [roundDouble_of_int _ 250 (by norm_num) (by norm_num [abs_of_pos])]
    norm_num
  simp only [updateCameraF, fmul, fsub, CAMERA_OFFSET_F_eq, h1, h2]
  rw [if_neg (not_lt.mpr h)]

theorem brink_moveX (cameraY : ℚ) : (brinkGame cameraY).moveX = 0 := by
  simp [Game.moveX, brinkGame]

theorem brink_sum : fadd brinkCamera 700 = 530 := by
  unfold fadd brinkCamera
  rw [roundDouble_of_tie _ 9 4661929301770240 (by norm_num [abs_of_pos])
    (by norm_num [abs_of_pos]) (by norm_num) (by norm_num [abs_of_pos]) (by norm_num)]
  norm_num

theorem brink_difference : fsub brinkCamera 700 = -870 := by
  unfold fsub brinkCamera
  rw [roundDouble_of_tie _ 9 (-7652600929320960) (by norm_num [abs_of_neg])
    (by norm_num [abs_of_neg]) (by norm_num) (by norm_num [abs_of_neg]) (by norm_num)]
  norm_num

/-- The frame of `brinkGame`: the player ends at `y = 530` and the camera stays. -/
theorem brink_update (cameraY : ℚ) (h : cameraY ≤ 250)
    (hbound : -(2 : ℚ) ^ 52 ≤ fsub cameraY 700) :
    ∃ (n : ℕ) (g1 : Game),
      (∀ fuel : ℕ, n < fuel →
        (brinkGame cameraY).updateF 16 halfRandom fuel = some (Except.ok g1)) ∧
      g1.player = some ⟨0, 530, 30, 40, 0, 20, false⟩ ∧ g1.cameraY = cameraY ∧
      (g1.gameState = GameState.gameOver ↔ (530 : ℚ) > fadd cameraY 700) ∧
      (¬ ((530 : ℚ) > fadd cameraY 700) → g1.gameState = GameState.playing) := by
  have hpl : brinkPlayer.updateF (brinkGame cameraY).moveX (brinkGame cameraY).platforms
      (brinkGame cameraY).canvasWidth = ⟨0, 530, 30, 40, 0, 20, false⟩ := by
    rw [brink_moveX]
    exact brink_player
  have hcam : updateCameraF (brinkGame cameraY).cameraY 530 (brinkGame cameraY).canvasHeight =
      cameraY := brink_camera cameraY h
  obtain ⟨n, g1, hret, hplayer, hcamera, hiff, hstay⟩ :=
    updateF_loss (brinkGame cameraY) 16 halfRandom brinkPlayer (-710) rfl rfl
      (by norm_num [brinkGame, highestPlatform]) (by norm_num [abs_of_pos])
      (by
        rw [hpl]
        simp only []
        rw [hcam]
        exact hbound)
  rw [hpl] at hplayer hcamera hiff hstay
  simp only [] at hcamera hiff hstay
  rw [hcam] at hcamera
  rw [hcamera] at hiff hstay
  exact ⟨n, g1, hret, hplayer, hcamera, hiff, hstay⟩

/-- C12, as stated, fails: in a 400 x 700 canvas with the camera at `-170.00000000000006`
the player ends the frame at `y = 530`, which is greater than the exact `cameraY + H`
(`529.99999999999994...`), so the claim has the game over; but line 178 computes
`cameraY + H` as the double `530`, `530 > 530` is false and the game stays `playing`. -/
theorem loss_rounding_counterexample :
    ∃ (n : ℕ) (g1 : Game),
      (∀ fuel : ℕ, n < fuel →
        (brinkGame brinkCamera).updateF 16 halfRandom fuel = some (Except.ok g1)) ∧
      g1.player = some ⟨0, 530, 30, 40, 0, 20, false⟩ ∧ g1.cameraY = brinkCamera ∧
      (530 : ℚ) > g1.cameraY + (brinkGame brinkCamera).canvasHeight ∧
      g1.gameState = GameState.playing := by
  obtain ⟨n, g1, hret, hplayer, hcamera, -, hstay⟩ := brink_update brinkCamera
    (by norm_num [brinkCamera]) (by rw [brink_difference]; norm_num)
  refine ⟨n, g1, hret, hplayer, hcamera, ?_, hstay (by rw [brink_sum]; exact lt_irrefl _)⟩
  rw [hcamera]
  norm_num [brinkCamera, brinkGame]

theorem loss_condition_double_witness :
    ∃ (n : ℕ) (g1 : Game),
      (∀ fuel : ℕ, n < fuel →
        (brinkGame (-171)).updateF 16 halfRandom fuel = some (Except.ok g1)) ∧
      g1.gameState = GameState.gameOver := by
  have hsum : fadd (-171) 700 = 529 := by
    unfold fadd
    rw [roundDouble_of_int _ 529 (by norm_num) (by norm_num [abs_of_pos])]
    norm_num
  have hdiff : fsub (-171) 700 = -871 := by
    unfold fsub
    rw [roundDouble_of_int _ (-871) (by norm_num) (by norm_num [abs_of_neg])]
    norm_num
  have hpl : brinkPlayer.updateF (brinkGame (-171)).moveX (brinkGame (-171)).platforms
      (brinkGame (-171)).canvasWidth = ⟨0, 530, 30, 40, 0, 20, false⟩ := by
    rw [brink_moveX]
    exact brink_player
  have hcam : updateCameraF (brinkGame (-171)).cameraY 530 (brinkGame (-171)).canvasHeight =
      -171 := brink_camera (-171) (by norm_num)
  obtain ⟨n, g1, pl1, hret, -, hpl1, hcamera, hiff, -⟩ :=
    loss_condition_double (brinkGame (-171)) 16 halfRandom brinkPlayer (-710) rfl rfl
      (by norm_num [brinkGame, highestPlatform]) (by norm_num [abs_of_pos])
      (by
        rw [hpl]
        simp only []
        rw [hcam]
        show -(2 : ℚ) ^ 52 ≤ fsub (-171) 700
        rw [hdiff]
        norm_num)
  refine ⟨n, g1, hret, hiff.mpr ?_⟩
  rw [hcamera, hpl1, hpl]
  simp only []
  rw [hcam]
  have hH : (brinkGame (-171)).canvasHeight = 700 := rfl
  rw [hH, hsum]
  norm_num

end IcyTower
